import Mathlib

/-! fragNet game coordinator: message codec, matchmaking engine, player social
service and TCP transport

A shallow embedding of `steam_network_message.{hpp,cpp}`, of
`matchmaking_manager_improved_sample.cpp`, of the commend, report, rank and id
functions of `networking_users.cpp`, of `discord_notifier.{hpp,cpp}`, of
`tcp_networking.{hpp,cpp}` and of `main.cpp`, followed by the properties established
about them.

Conventions of the embedding.
* `uint32_t` values are naturals; every operation that can wrap in the source
  carries an explicit `% 2 ^ 32`.
* `size_t` values that count elements of in-memory containers are plain naturals; a
  `size_t` product of configuration values carries an explicit `% 2 ^ 64`.
* A `std::vector<uint8_t>` is a `List Byte`.
* Undefined behaviour of the source (an iterator range whose first iterator lies
  past its last, `front()` of an empty vector) is the value `none` of an outer
  `Option`.
-/

namespace GC

/-! ## Message codec (`steam_network_message.hpp`, `steam_network_message.cpp`) -/

/-- One `uint8_t`. -/
abbrev Byte := Fin 256

/-- Modelled from the spec: `CCProtoMask` is declared in `gc_const.hpp`, which is not
among the sources; the spec describes it as the high bit of the 32-bit `type` field
("the high bit of `type` is a protocol marker set on every outgoing frame and
stripped on receive"). -/
def CCProtoMask : Nat := 0x80000000

/-- The constant `NetworkMessage::MAX_CHUNK_SIZE`. -/
def MAX_CHUNK_SIZE : Nat := 1024

/-- The four bytes of a `uint32_t` in memory order (little endian), as appended by
`insert(end, reinterpret_cast<const uint8_t*>(&x), ... + sizeof(x))`. -/
def u32Bytes (x : Nat) : List Byte :=
  [⟨x % 256, Nat.mod_lt _ (by decide)⟩,
   ⟨x / 256 % 256, Nat.mod_lt _ (by decide)⟩,
   ⟨x / 65536 % 256, Nat.mod_lt _ (by decide)⟩,
   ⟨x / 16777216 % 256, Nat.mod_lt _ (by decide)⟩]

/-- The `uint32_t` read by `memcpy(&x, data + off, sizeof(uint32_t))`. -/
def readU32 (data : List Byte) (off : Nat) : Nat :=
  (data.getD off 0).val + 256 * (data.getD (off + 1) 0).val
    + 65536 * (data.getD (off + 2) 0).val + 16777216 * (data.getD (off + 3) 0).val

/-- The private state of a `NetworkMessage`: `m_type` (default 0) and `m_data`. -/
structure NetworkMessage where
  m_type : Nat
  m_data : List Byte
deriving DecidableEq, Repr

/-- The constructor `NetworkMessage::NetworkMessage(const void* data, uint32_t size)`
(the name of the structure itself is taken, hence `construct`).
`data` is the buffer, `size` the number of bytes the caller announces. The members
start from their default initialisers (`m_type = 0`, empty `m_data`); the
constructor has no way to report failure other than the log line. -/
def NetworkMessage.construct (data : List Byte) (size : Nat) : NetworkMessage :=
  if size < 4 then
    -- "Message too small for header": return before anything is read
    ⟨0, []⟩
  else
    let m_type := readU32 data 0
    let headerSize := 4 * 3
    if size < headerSize then
      -- "Message too small for full header": m_data.clear(); return
      ⟨m_type, []⟩
    else
      let dataSize := size - headerSize
      if dataSize > 0 then
        ⟨m_type, (data.drop headerSize).take dataSize⟩
      else
        ⟨m_type, []⟩

/-- The accessor `GetType`: `m_type & ~CCProtoMask` on 32 bits. -/
def NetworkMessage.GetType (m : NetworkMessage) : Nat :=
  m.m_type &&& (0xFFFFFFFF ^^^ CCProtoMask)

/-- The accessor `GetData`. -/
def NetworkMessage.GetData (m : NetworkMessage) : List Byte := m.m_data

/-- The accessor `GetTotalSize`: type field, header-size field and payload, returned as
a `uint32_t`. -/
def NetworkMessage.GetTotalSize (m : NetworkMessage) : Nat :=
  (4 + 4 + m.m_data.length) % 2 ^ 32

/-- What a write call did: the buffers `SendDataOnSocket` accepted, in call order, and
the flag the call returned. -/
structure WriteResult where
  frames : List (List Byte)
  ok : Bool
deriving DecidableEq, Repr

/-- The three header words every outgoing frame starts with: masked type,
header size 0, chunk count. -/
def frameHeader (m : NetworkMessage) (chunkCount : Nat) : List Byte :=
  u32Bytes ((m.m_type ||| CCProtoMask) % 2 ^ 32) ++ u32Bytes 0 ++ u32Bytes (chunkCount % 2 ^ 32)

/-- The helper `NetworkMessage::WriteSingleMsg`. `send` stands for
`SteamGameServerNetworking()->SendDataOnSocket` on the given socket. -/
def NetworkMessage.WriteSingleMsg (send : List Byte → Bool) (m : NetworkMessage) : WriteResult :=
  let fullMessage := frameHeader m 1 ++ m.m_data
  if send fullMessage then ⟨[fullMessage], true⟩ else ⟨[], false⟩

/-- The `for` loop of `WriteChunkMsg`, with `n` iterations left and loop variable `i`.
An iteration whose `startPos` lies beyond `endPos` builds the iterator range
`[m_data.begin() + startPos, m_data.begin() + endPos)` with first past last, which is
undefined behaviour: the result is `none`. -/
def NetworkMessage.WriteChunkLoop (send : List Byte → Bool) (m : NetworkMessage)
    (chunks chunkSize : Nat) : Nat → Nat → Option WriteResult
  | 0, _ => some ⟨[], true⟩
  | n + 1, i =>
    let startPos := i * chunkSize
    let endPos := min (startPos + chunkSize) m.m_data.length
    if startPos ≤ endPos then
      let chunkMessage := frameHeader m chunks ++ (m.m_data.drop startPos).take (endPos - startPos)
      if send chunkMessage then
        match NetworkMessage.WriteChunkLoop send m chunks chunkSize n (i + 1) with
        | none => none
        | some r => some ⟨chunkMessage :: r.frames, r.ok⟩
      else
        -- "Failed to send chunk": return false
        some ⟨[], false⟩
    else
      none

/-- The helper `NetworkMessage::WriteChunkMsg`. A chunk count of 0 divides by zero. -/
def NetworkMessage.WriteChunkMsg (send : List Byte → Bool) (m : NetworkMessage)
    (chunks : Nat) : Option WriteResult :=
  if chunks = 0 then none
  else
    let chunkSize := (m.m_data.length + chunks - 1) / chunks
    NetworkMessage.WriteChunkLoop send m chunks chunkSize chunks 0

/-- The chunk count `WriteToSocket` works with: the requested one, or the automatic one
when the request is 0. -/
def NetworkMessage.effectiveChunks (m : NetworkMessage) (chunks : Nat) : Nat :=
  if chunks = 0 then
    let totalSize := m.GetTotalSize
    let c := (totalSize + MAX_CHUNK_SIZE - 1) / MAX_CHUNK_SIZE % 2 ^ 32
    if c = 0 then 1 else c
  else chunks

/-- The method `NetworkMessage::WriteToSocket(socket, reliable, chunks)`. -/
def NetworkMessage.WriteToSocket (send : List Byte → Bool) (m : NetworkMessage)
    (chunks : Nat) : Option WriteResult :=
  let chunks := m.effectiveChunks chunks
  if chunks = 1 then some (m.WriteSingleMsg send) else m.WriteChunkMsg send chunks

/-- The static helper `GetTypeFromData`: the first two bytes as a `uint16_t`. -/
def NetworkMessage.GetTypeFromData (data : List Byte) (size : Nat) : Nat :=
  if size < 2 then 0 else (data.getD 0 0).val + 256 * (data.getD 1 0).val

/-! ## Matchmaking (`matchmaking_manager.hpp`, `gameserver_manager.hpp`,
`matchmaking_manager_improved_sample.cpp`) -/

/-- The enumeration `MatchState`. -/
inductive MatchState
  | QUEUED
  | WAITING_FOR_CONFIRMATION
  | IN_PROGRESS
  | COMPLETED
  | ABANDONED
deriving DecidableEq, Repr

/-- The structure `MatchmakingConfig` with its default member values; durations are
kept in the unit the header gives them (seconds, seconds, minutes). -/
structure MatchmakingConfig where
  playersPerTeam : Nat := 5
  maxSkillDifference : Nat := 3
  readyUpTime : Nat := 30
  queueCheckInterval : Nat := 5
  matchCleanupAge : Nat := 5
  baseMMRSpread : Nat := 300
  mmrSpreadPerWaitTime : Nat := 100
  mapPool : List String :=
    ["de_dust2", "de_mirage", "de_inferno", "de_nuke", "de_overpass", "de_cache",
     "de_train", "de_vertigo", "de_ancient"]
deriving DecidableEq, Repr

/-- The structure `PlayerSkillRating` with its default member values. -/
structure PlayerSkillRating where
  rank : Nat := 0
  wins : Nat := 0
  mmr : Nat := 1000
  level : Nat := 1
deriving DecidableEq, Repr

/-- The class `QueueEntry`. Queues and matches hold `shared_ptr<QueueEntry>`; every
pointer stored by the code below comes from `make_shared`, so an entry is a value
and the `entry && ...` null tests of the source are always true. -/
structure QueueEntry where
  steamId : Nat
  accountId : Nat
  socket : Nat
  queueTime : Nat
  skillRating : PlayerSkillRating := {}
  preferredMaps : List String := []
  isPrime : Bool := false
  acceptedMatch : Bool := false
  region : String := "na"
deriving DecidableEq, Repr

/-- The constructor `QueueEntry(id, sock)`; `now` is the reading of the steady clock. -/
def QueueEntry.create (id sock now : Nat) : QueueEntry :=
  { steamId := id, accountId := id &&& 0xFFFFFFFF, socket := sock, queueTime := now }

/-- The class `Match`. -/
structure Match where
  matchId : Nat := 0
  matchToken : String := ""
  teamA : List QueueEntry := []
  teamB : List QueueEntry := []
  state : MatchState := MatchState.QUEUED
  mapName : String := ""
  serverAddress : String := ""
  serverPort : Nat := 0
  createdTime : Nat := 0
  readyUpDeadline : Nat := 0
  avgMMR : Nat := 1000
deriving DecidableEq, Repr

/-- The structure `GameServerManager::ServerInfo`. -/
structure ServerInfo where
  address : String := ""
  port : Nat := 0
  serverSteamId : Nat := 0
  socket : Nat := 0
  isAvailable : Bool := false
  currentMatchId : Nat := 0
  maxPlayers : Nat := 10
  currentPlayers : Nat := 0
  currentMap : String := ""
  lastHeartbeat : Nat := 0
  isAuthenticated : Bool := false
deriving DecidableEq, Repr

/-- The registry `GameServerManager`: `m_servers`, a `std::map` keyed by
`serverSteamId`, listed in key order. -/
structure GameServerManager where
  m_servers : List ServerInfo := []
deriving DecidableEq, Repr

/-- Modelled from the spec: `GameServerManager::FindAvailableServer` is declared in
`gameserver_manager.hpp` (under "Server queries") but its definition is not among the
sources. The spec: "`findAvailableServer()` returns any server with
`isAvailable=true AND isAuthenticated=true` (selection policy: first-seen wins)".
It is a query: the spec gives the transition `isAvailable→false` to
`assignMatchToServer`, declared separately under "Match assignment". -/
def GameServerManager.FindAvailableServer (g : GameServerManager) : Option ServerInfo :=
  g.m_servers.find? (fun s => s.isAvailable && s.isAuthenticated)

/-- Lookup in an `unordered_map` with integer keys, kept as an association list in
iteration order. -/
def umFind {β : Type} (k : Nat) : List (Nat × β) → Option β
  | [] => none
  | (k', v) :: rest => if k' = k then some v else umFind k rest

/-- The assignment `m[k] = v` on an `unordered_map`: overwrite the value of an
existing key, otherwise add the key. -/
def umInsert {β : Type} (k : Nat) (v : β) : List (Nat × β) → List (Nat × β)
  | [] => [(k, v)]
  | (k', v') :: rest => if k' = k then (k, v) :: rest else (k', v') :: umInsert k v rest

/-- The members of `MatchmakingManager` the functions below read or write. The
mutexes, the database handle and the two timestamps are left out. -/
structure MatchmakingManager where
  m_config : MatchmakingConfig := {}
  m_queuesBySkill : List (Nat × List QueueEntry) := []
  m_activeMatches : List (Nat × Match) := []
  m_playerToMatch : List (Nat × Nat) := []
  m_nextMatchId : Nat := 1
deriving DecidableEq, Repr

/-- What the translation unit takes from outside: the standard library routines whose
result the language leaves partly open, and the member functions that are declared in
`matchmaking_manager.hpp` but defined in no source file.
* `sort` is `std::sort` with the comparator `a->skillRating.mmr < b->skillRating.mmr`
  (the order of entries with equal mmr is unspecified);
* `rehash` is the iteration order the hash table gives `m_queuesBySkill` after a new
  key was added;
* `GetSkillBracket`, `ArePlayersCompatible` and `CreateMatch` are the absent member
  functions; `CreateMatch` returns the new match (or null) and the new value of the
  id counter. -/
structure Env where
  sort : List QueueEntry → List QueueEntry
  rehash : List (Nat × List QueueEntry) → List (Nat × List QueueEntry)
  GetSkillBracket : Nat → Nat
  ArePlayersCompatible : MatchmakingManager → QueueEntry → QueueEntry → Bool
  CreateMatch : MatchmakingManager → List QueueEntry → Option Match × Nat

/-- The contract of the two library routines: `std::sort` returns a permutation of its
input in which no element compares below an earlier one, and a rehash only reorders
the buckets. -/
def Env.Valid (env : Env) : Prop :=
  (∀ l, (env.sort l).Perm l ∧
      (env.sort l).Pairwise (fun a b => a.skillRating.mmr ≤ b.skillRating.mmr)) ∧
  (∀ qs, (env.rehash qs).Perm qs)

/-- The number of entries over all buckets. -/
def queueSize (qs : List (Nat × List QueueEntry)) : Nat :=
  (qs.map (fun b => b.2.length)).sum

/-- The steam ids of all queued entries, bucket after bucket. -/
def queuedIds (qs : List (Nat × List QueueEntry)) : List Nat :=
  qs.flatMap (fun b => b.2.map (fun e => e.steamId))

/-- The statement `m_queuesBySkill[bracket].push_back(entry)` on an existing key. -/
def pushExisting (bracket : Nat) (entry : QueueEntry) :
    List (Nat × List QueueEntry) → List (Nat × List QueueEntry)
  | [] => []
  | (b, q) :: rest =>
    if b = bracket then (b, q ++ [entry]) :: rest
    else (b, q) :: pushExisting bracket entry rest

/-- The statement `m_queuesBySkill[bracket].push_back(entry)`: `operator[]` creates an
empty bucket for a new key, wherever the hash table puts it. -/
def bucketPush (env : Env) (bracket : Nat) (entry : QueueEntry)
    (qs : List (Nat × List QueueEntry)) : List (Nat × List QueueEntry) :=
  if (umFind bracket qs).isSome then pushExisting bracket entry qs
  else env.rehash ((bracket, [entry]) :: qs)

/-- The loop of `RemovePlayerFromQueue` over the buckets: the first bucket that holds
an entry of `steamId` loses all of them and the function returns `true` at once. -/
def removeLoop (steamId : Nat) :
    List (Nat × List QueueEntry) → List (Nat × List QueueEntry) × Bool
  | [] => ([], false)
  | (b, queue) :: rest =>
    if queue.any (fun e => e.steamId == steamId) then
      ((b, queue.filter (fun e => !(e.steamId == steamId))) :: rest, true)
    else
      ((b, queue) :: (removeLoop steamId rest).1, (removeLoop steamId rest).2)

/-- The method `MatchmakingManager::RemovePlayerFromQueue`. -/
def MatchmakingManager.RemovePlayerFromQueue (mm : MatchmakingManager) (steamId : Nat) :
    MatchmakingManager × Bool :=
  ({ mm with m_queuesBySkill := (removeLoop steamId mm.m_queuesBySkill).1 },
   (removeLoop steamId mm.m_queuesBySkill).2)

/-- The first loop of `FindMatchCandidates`: a bucket is appended to `allPlayers` only
if the running total, this bucket included, has reached `matchSize`, the `size_t`
product `playersPerTeam * 2`. -/
def collectPlayers (matchSize : Nat) :
    List (Nat × List QueueEntry) → Nat → List QueueEntry → List QueueEntry
  | [], _, allPlayers => allPlayers
  | (_, queue) :: rest, totalPlayers, allPlayers =>
    if totalPlayers + queue.length ≥ matchSize then
      collectPlayers matchSize rest (totalPlayers + queue.length) (allPlayers ++ queue)
    else
      collectPlayers matchSize rest (totalPlayers + queue.length) allPlayers

/-- The nested `j < k` loops of the detailed compatibility check. -/
def allCompatible (compat : QueueEntry → QueueEntry → Bool) : List QueueEntry → Bool
  | [] => true
  | c :: rest => rest.all (fun d => compat c d) && allCompatible compat rest

/-- The sliding-window loop of `FindMatchCandidates`, with `n` iterations left and loop
variable `i`. `front()` or `back()` of an empty window is undefined behaviour
(`none`). The mmr difference and the doubled spread are `uint32_t` expressions. -/
def slideWindow (mm : MatchmakingManager) (env : Env) (allPlayers : List QueueEntry)
    (matchSize : Nat) : Nat → Nat → Option (Option (List QueueEntry))
  | 0, _ => some none
  | n + 1, i =>
    let candidates := (allPlayers.drop i).take matchSize
    match candidates.head?, candidates.getLast? with
    | some front, some back =>
      let minMMR := front.skillRating.mmr
      let maxMMR := back.skillRating.mmr
      if (maxMMR + 2 ^ 32 - minMMR) % 2 ^ 32 > mm.m_config.baseMMRSpread * 2 % 2 ^ 32 then
        slideWindow mm env allPlayers matchSize n (i + 1)
      else if allCompatible (env.ArePlayersCompatible mm) candidates then
        some (some candidates)
      else
        slideWindow mm env allPlayers matchSize n (i + 1)
    | _, _ => none

/-- The method `MatchmakingManager::FindMatchCandidates`. The outer `Option` is `none`
on undefined behaviour, the inner one is the returned `std::optional`. `matchSize` is
the product `m_config.playersPerTeam * 2` of two `size_t` values, which wraps at
2^64. -/
def MatchmakingManager.FindMatchCandidates (env : Env) (mm : MatchmakingManager) :
    Option (Option (List QueueEntry)) :=
  let matchSize := mm.m_config.playersPerTeam * 2 % 2 ^ 64
  let allPlayers := collectPlayers matchSize mm.m_queuesBySkill 0 []
  if allPlayers.length < matchSize then some none
  else
    let sorted := env.sort allPlayers
    slideWindow mm env sorted matchSize (allPlayers.length - matchSize + 1) 0

/-- The reference for candidate selection, following the spec's words: "collect all
entries from all buckets if their combined size ≥ 2·playersPerTeam; sort ascending by
mmr; slide a window of size matchSize = 2·playersPerTeam; accept the first window where
(max.mmr − min.mmr) ≤ 2·baseMMRSpread AND every pair is compatible. Return the first
accepted window; if none, yield none". -/
def FindMatchCandidatesRef (env : Env) (mm : MatchmakingManager) : Option (List QueueEntry) :=
  let matchSize := 2 * mm.m_config.playersPerTeam
  let everyone := mm.m_queuesBySkill.flatMap (fun b => b.2)
  if everyone.length < matchSize then none
  else
    let sorted := env.sort everyone
    ((List.range (sorted.length - matchSize + 1)).map
        (fun i => (sorted.drop i).take matchSize)).find?
      (fun w =>
        let mmrs := w.map (fun e => e.skillRating.mmr)
        decide (mmrs.foldl max 0 - mmrs.foldl min (mmrs.headD 0) ≤ 2 * mm.m_config.baseMMRSpread)
          && allCompatible (env.ArePlayersCompatible mm) w)

/-- The two objects `ProcessMatchmakingQueue` works on: the matchmaking manager and the
game-server registry behind `GameServerManager::GetInstance()`. -/
structure World where
  mm : MatchmakingManager := {}
  gsm : GameServerManager := {}
deriving DecidableEq, Repr

/-- Why a run of the embedding has no result: the source has undefined behaviour there,
or the recursion budget of the embedding ran out. -/
inductive Fault
  | undefinedBehaviour
  | outOfFuel
deriving DecidableEq, Repr

/-- The loop `for player in candidates: m_playerToMatch[player->steamId] = matchId`. -/
def mapPlayersToMatch (candidates : List QueueEntry) (matchId : Nat)
    (index : List (Nat × Nat)) : List (Nat × Nat) :=
  candidates.foldl (fun idx player => umInsert player.steamId matchId idx) index

/-- The loop "Remove players from queue": for every candidate, every bucket erases the
entries that carry the candidate's steam id (`erase(remove_if(...))`). -/
def eraseCandidates (candidates : List QueueEntry)
    (qs : List (Nat × List QueueEntry)) : List (Nat × List QueueEntry) :=
  candidates.foldl
    (fun qs player => qs.map (fun b => (b.1, b.2.filter (fun e => !(e.steamId == player.steamId)))))
    qs

/-- The block of `ProcessMatchmakingQueue` that runs once a server was found, up to the
recursive call: record address and port, store the match, index the players, erase
them from the buckets. Notification and match logging talk to the sockets and to the
database only. -/
def commitMatch (w : World) (candidates : List QueueEntry) (m : Match) (nextId : Nat)
    (server : ServerInfo) : World :=
  let stored : Match := { m with serverAddress := server.address, serverPort := server.port }
  { w with mm :=
    { w.mm with
      m_nextMatchId := nextId
      m_activeMatches := umInsert stored.matchId stored w.mm.m_activeMatches
      m_playerToMatch := mapPlayersToMatch candidates stored.matchId w.mm.m_playerToMatch
      m_queuesBySkill := eraseCandidates candidates w.mm.m_queuesBySkill } }

/-- The method `MatchmakingManager::ProcessMatchmakingQueue`, with a budget for the
depth of its self-recursion. -/
def ProcessMatchmakingQueueFuel (env : Env) : Nat → World → Except Fault World
  | 0, _ => Except.error Fault.outOfFuel
  | fuel + 1, w =>
    match w.mm.FindMatchCandidates env with
    | none => Except.error Fault.undefinedBehaviour
    | some none => Except.ok w
    | some (some candidates) =>
      match (env.CreateMatch w.mm candidates).1 with
      | none =>
        Except.ok { w with mm := { w.mm with m_nextMatchId := (env.CreateMatch w.mm candidates).2 } }
      | some m =>
        match w.gsm.FindAvailableServer with
        | none =>
          -- "Match ready but no servers available"
          Except.ok { w with mm := { w.mm with m_nextMatchId := (env.CreateMatch w.mm candidates).2 } }
        | some server =>
          ProcessMatchmakingQueueFuel env fuel
            (commitMatch w candidates m (env.CreateMatch w.mm candidates).2 server)

/-- The method `MatchmakingManager::ProcessMatchmakingQueue`. Every recursive call comes
after a non-empty window was erased from the buckets, so one more call than there are
queued entries is budget enough (`ProcessMatchmakingQueue_total`). -/
def ProcessMatchmakingQueue (env : Env) (w : World) : Except Fault World :=
  ProcessMatchmakingQueueFuel env (queueSize w.mm.m_queuesBySkill + 1) w

/-- The method `MatchmakingManager::AddPlayerToQueue`; `now` is the clock reading the
new entry records. The result is the new state and the returned flag. -/
def AddPlayerToQueue (env : Env) (w : World) (now steamId socket : Nat)
    (rating : PlayerSkillRating) (preferredMaps : List String) : Except Fault (World × Bool) :=
  if steamId = 0 then Except.ok (w, false)
  else
    let mm1 := (w.mm.RemovePlayerFromQueue steamId).1
    let chosen := if preferredMaps.isEmpty then mm1.m_config.mapPool else preferredMaps
    let entry : QueueEntry :=
      { QueueEntry.create steamId socket now with
        skillRating := rating
        preferredMaps := chosen.filter (fun map => mm1.m_config.mapPool.contains map) }
    let bracket := env.GetSkillBracket rating.mmr
    let mm2 := { mm1 with m_queuesBySkill := bucketPush env bracket entry mm1.m_queuesBySkill }
    match ProcessMatchmakingQueue env { w with mm := mm2 } with
    | Except.error f => Except.error f
    | Except.ok w2 => Except.ok (w2, true)

/-- One call on the queue interface. -/
inductive QueueOp
  | add (now steamId socket : Nat) (rating : PlayerSkillRating) (preferredMaps : List String)
  | remove (steamId : Nat)
deriving DecidableEq, Repr

/-- Run a sequence of queue calls from a state. -/
def runOps (env : Env) : List QueueOp → World → Except Fault World
  | [], w => Except.ok w
  | QueueOp.add now steamId socket rating maps :: ops, w =>
    match AddPlayerToQueue env w now steamId socket rating maps with
    | Except.error f => Except.error f
    | Except.ok r => runOps env ops r.1
  | QueueOp.remove steamId :: ops, w =>
    runOps env ops { w with mm := (w.mm.RemovePlayerFromQueue steamId).1 }

/-- Modelled from the spec: `MatchmakingManager::GetSkillBracket` is declared in
`matchmaking_manager.hpp` but defined in no source file. The spec:
"`bracket(mmr) = mmr / 100` (integer division)". -/
def GetSkillBracket (mmr : Nat) : Nat := mmr / 100

/-- Modelled from the spec: `MatchmakingManager::CreateMatch` is declared in
`matchmaking_manager.hpp` but defined in no source file. The spec: "allocate
`matchId = ++counter`; compute `avgMMR`; ...; distribute players to `teamA`/`teamB` by
snake-draft on sorted MMR; set `state = WAITING_FOR_CONFIRMATION`". The map, the token
and the two time stamps (random or clock values in the spec) keep their defaults. -/
def CreateMatchSpec (mm : MatchmakingManager) (players : List QueueEntry) : Option Match × Nat :=
  let ranked := players.enum
  (some
    { matchId := mm.m_nextMatchId + 1
      teamA := (ranked.filter (fun p => p.1 % 4 == 0 || p.1 % 4 == 3)).map (fun p => p.2)
      teamB := (ranked.filter (fun p => p.1 % 4 == 1 || p.1 % 4 == 2)).map (fun p => p.2)
      state := MatchState.WAITING_FOR_CONFIRMATION
      avgMMR := (players.map (fun e => e.skillRating.mmr)).sum / players.length },
   mm.m_nextMatchId + 1)

/-- A concrete environment on which the definitions can be evaluated: insertion sort by
mmr, a hash table that keeps its order, the spec's bracket function, every pair of
players compatible, and `CreateMatchSpec`. -/
def sampleEnv : Env where
  sort := List.insertionSort (fun a b => a.skillRating.mmr ≤ b.skillRating.mmr)
  rehash := fun qs => qs
  GetSkillBracket := GetSkillBracket
  ArePlayersCompatible := fun _ _ _ => true
  CreateMatch := CreateMatchSpec

/-- A queue entry with the given steam id and mmr, as `AddPlayerToQueue` builds it for
socket 0 at clock reading 0 with the default map pool. -/
def samplePlayer (steamId mmr : Nat) : QueueEntry :=
  { QueueEntry.create steamId 0 0 with
    skillRating := { mmr := mmr }
    preferredMaps := ({} : MatchmakingConfig).mapPool }

/-- The queue of the spec's "happy match" scenario: ten players with mmrs 980 to 1070,
two of them in bucket 9 and eight in bucket 10. -/
def happyQueue : List (Nat × List QueueEntry) :=
  [(9, [samplePlayer 1 980, samplePlayer 2 990]),
   (10, [samplePlayer 3 1000, samplePlayer 4 1010, samplePlayer 5 1020, samplePlayer 6 1030,
         samplePlayer 7 1040, samplePlayer 8 1050, samplePlayer 9 1060, samplePlayer 10 1070])]

/-- The queue of the spec's "MMR spread reject" scenario: five players in bucket 8 and
five in bucket 16. -/
def spreadQueue : List (Nat × List QueueEntry) :=
  [(8, [samplePlayer 1 800, samplePlayer 2 810, samplePlayer 3 820, samplePlayer 4 830,
        samplePlayer 5 840]),
   (16, [samplePlayer 6 1600, samplePlayer 7 1610, samplePlayer 8 1620, samplePlayer 9 1630,
         samplePlayer 10 1640])]

/-- A state with teams of one, four players of mmr 1000 in bucket 10 and a single
registered game server, available and authenticated. -/
def oneServerWorld : World :=
  { mm :=
      { m_config := { playersPerTeam := 1 }
        m_queuesBySkill :=
          [(10, [samplePlayer 1 1000, samplePlayer 2 1000, samplePlayer 3 1000,
                 samplePlayer 4 1000])] }
    gsm :=
      { m_servers :=
          [{ address := "10.0.0.1", port := 27015, serverSteamId := 77, isAvailable := true,
             isAuthenticated := true }] } }

/-- The state `oneServerWorld` with an empty server registry. -/
def noServerWorld : World := { oneServerWorld with gsm := {} }

/-- A short run on the queue interface: player 1 queues, player 2 queues, player 1
queues again with another rating, player 2 leaves. -/
def sampleOps : List QueueOp :=
  [QueueOp.add 0 1 0 { mmr := 1000 } [], QueueOp.add 0 2 0 { mmr := 1100 } [],
   QueueOp.add 0 1 0 { mmr := 1200 } [], QueueOp.remove 2]

/-- The first two players of `oneServerWorld`, the window its queue yields. -/
def samplePair : List QueueEntry := [samplePlayer 1 1000, samplePlayer 2 1000]

/-- The match `CreateMatchSpec` builds from `samplePair` in `oneServerWorld`. -/
def sampleMatch : Match :=
  { matchId := 2, teamA := [samplePlayer 1 1000], teamB := [samplePlayer 2 1000],
    state := MatchState.WAITING_FOR_CONFIRMATION, avgMMR := 1000 }

/-- The only server of `oneServerWorld`. -/
def sampleServer : ServerInfo :=
  { address := "10.0.0.1", port := 27015, serverSteamId := 77, isAvailable := true,
    isAuthenticated := true }

/-! ## Match cleanup (`matchmaking_manager_improved_sample.cpp`) -/

/-- The method `Match::GetAllPlayerIds`: the steam ids of team A, then of team B. -/
def Match.GetAllPlayerIds (m : Match) : List Nat :=
  m.teamA.map (fun player => player.steamId) ++ m.teamB.map (fun player => player.steamId)

/-- The method `Match::HasPlayer`. -/
def Match.HasPlayer (m : Match) (steamId : Nat) : Bool :=
  m.teamA.any (fun player => player.steamId == steamId)
    || m.teamB.any (fun player => player.steamId == steamId)

/-- The number of ticks of `std::chrono::steady_clock` in one minute; the clock counts
nanoseconds. Time points (`createdTime`, `now`) are tick counts. -/
def ticksPerMinute : Nat := 60 * 1000000000

/-- The test of the first loop of `CleanupAbandonedMatches`: the state is `COMPLETED`
or `ABANDONED` and `now - createdTime` (a signed duration) is greater than
`matchCleanupAge` (minutes). -/
def cleanupDue (config : MatchmakingConfig) (now : Nat) (m : Match) : Bool :=
  (m.state == MatchState.COMPLETED || m.state == MatchState.ABANDONED)
    && decide ((now : Int) - (m.createdTime : Int)
        > ((config.matchCleanupAge * ticksPerMinute : Nat) : Int))

/-- The call `m.erase(k)` on an `unordered_map`. -/
def umErase {β : Type} (k : Nat) (l : List (Nat × β)) : List (Nat × β) :=
  l.filter (fun entry => !(entry.1 == k))

/-- The first loop of `CleanupAbandonedMatches`: the ids of the matches to remove, in
iteration order. -/
def matchesToRemove (config : MatchmakingConfig) (now : Nat)
    (active : List (Nat × Match)) : List Nat :=
  (active.filter (fun entry => cleanupDue config now entry.2)).map (fun entry => entry.1)

/-- One round of the second loop of `CleanupAbandonedMatches`: if the id is still in
the table, erase the index entries of all its players, then the match. -/
def cleanupStep (tables : List (Nat × Match) × List (Nat × Nat)) (matchId : Nat) :
    List (Nat × Match) × List (Nat × Nat) :=
  match umFind matchId tables.1 with
  | none => tables
  | some m =>
    (umErase matchId tables.1,
     m.GetAllPlayerIds.foldl (fun index playerId => umErase playerId index) tables.2)

/-- The method `MatchmakingManager::CleanupAbandonedMatches`; `now` is the reading of
the steady clock taken on entry. -/
def MatchmakingManager.CleanupAbandonedMatches (mm : MatchmakingManager) (now : Nat) :
    MatchmakingManager :=
  let tables := (matchesToRemove mm.m_config now mm.m_activeMatches).foldl cleanupStep
    (mm.m_activeMatches, mm.m_playerToMatch)
  { mm with m_activeMatches := tables.1, m_playerToMatch := tables.2 }

/-- A manager with three stored matches: a completed one created at tick 0, an
abandoned one created at tick 0, and one in progress; the index has an entry for each
of their players. -/
def cleanupManager : MatchmakingManager :=
  { m_activeMatches :=
      [(1, { matchId := 1, teamA := [samplePlayer 11 1000], teamB := [samplePlayer 12 1000],
             state := MatchState.COMPLETED }),
       (2, { matchId := 2, teamA := [samplePlayer 21 1000], teamB := [samplePlayer 22 1000],
             state := MatchState.IN_PROGRESS }),
       (3, { matchId := 3, teamA := [samplePlayer 31 1000], teamB := [samplePlayer 32 1000],
             state := MatchState.ABANDONED })]
    m_playerToMatch := [(11, 1), (12, 1), (21, 2), (22, 2), (31, 3), (32, 3)] }

/-! ## Player social service (`networking_users.cpp`, `discord_notifier.hpp`,
`discord_notifier.cpp`) -/

/-- Modelled from the spec: a row of table `player_commends`. The table definition is
not among the sources; the columns are those the statements of `networking_users.cpp`
name, and `created_at` (the spec's `CommendRecord` has it) is given no value by the
`INSERT` statements, so a row carries the time of its insertion, in seconds. -/
structure CommendRow where
  sender_steamid64 : Nat
  receiver_steamid64 : Nat
  type : Nat
  created_at : Int
deriving DecidableEq, Repr

/-- Modelled from the spec: a row of table `player_reports` (see `CommendRow`). -/
structure ReportRow where
  sender_steamid64 : Nat
  receiver_steamid64 : Nat
  type : Nat
  match_id : Nat
  created_at : Int
deriving DecidableEq, Repr

/-- The two tables behind the `MYSQL* inventory_db` handle. -/
structure Database where
  player_commends : List CommendRow := []
  player_reports : List ReportRow := []
deriving DecidableEq, Repr

/-- What the database server's clock gives the statements of one handler call: `NOW()`
in seconds, and `DATE_SUB(NOW(), INTERVAL 3 MONTH)`, which is calendar arithmetic and
kept as a value of its own. One day is 86400 seconds, one week 604800. -/
structure SqlClock where
  now : Int
  threeMonthsAgo : Int
deriving DecidableEq, Repr

/-- The statements the commend and report handlers send with `mysql_query`. -/
inductive Stmt
  | selectCommendTypes (sender receiver : Nat)
  | countCommendReceivers (sender : Nat)
  | insertCommend (sender receiver type : Nat)
  | deleteCommend (sender receiver type : Nat)
  | countReportReceivers (sender : Nat)
  | countReports (sender receiver : Nat)
  | insertReport (sender receiver type matchId : Nat)
deriving DecidableEq, Repr

/-- The rows of `SELECT type FROM player_commends WHERE sender_steamid64 = s AND
receiver_steamid64 = r AND created_at > DATE_SUB(NOW(), INTERVAL 3 MONTH)`. -/
def Database.commendTypes (db : Database) (clock : SqlClock) (sender receiver : Nat) : List Nat :=
  (db.player_commends.filter (fun row =>
      row.sender_steamid64 == sender && row.receiver_steamid64 == receiver
        && decide (row.created_at > clock.threeMonthsAgo))).map (fun row => row.type)

/-- The value of `SELECT COUNT(DISTINCT receiver_steamid64) FROM player_commends WHERE
sender_steamid64 = s AND created_at > DATE_SUB(NOW(), INTERVAL 1 DAY)`. -/
def Database.commendReceivers (db : Database) (clock : SqlClock) (sender : Nat) : Nat :=
  ((db.player_commends.filter (fun row =>
      row.sender_steamid64 == sender && decide (row.created_at > clock.now - 86400))).map
    (fun row => row.receiver_steamid64)).dedup.length

/-- The value of `SELECT COUNT(DISTINCT receiver_steamid64) FROM player_reports WHERE
sender_steamid64 = s AND created_at > DATE_SUB(NOW(), INTERVAL 1 WEEK)`. -/
def Database.reportReceivers (db : Database) (clock : SqlClock) (sender : Nat) : Nat :=
  ((db.player_reports.filter (fun row =>
      row.sender_steamid64 == sender && decide (row.created_at > clock.now - 604800))).map
    (fun row => row.receiver_steamid64)).dedup.length

/-- The value of `SELECT COUNT(*) FROM player_reports WHERE sender_steamid64 = s AND
receiver_steamid64 = r AND created_at > DATE_SUB(NOW(), INTERVAL 1 WEEK)`. -/
def Database.reportCount (db : Database) (clock : SqlClock) (sender receiver : Nat) : Nat :=
  (db.player_reports.filter (fun row =>
      row.sender_steamid64 == sender && row.receiver_steamid64 == receiver
        && decide (row.created_at > clock.now - 604800))).length

/-- The effect of a statement that succeeds on the tables: an `INSERT` appends a row
stamped with `NOW()`, a `DELETE` (which has no time condition) drops every row of the
sender, receiver and type, a `SELECT` changes nothing. -/
def Database.apply (db : Database) (clock : SqlClock) : Stmt → Database
  | Stmt.insertCommend sender receiver type =>
    { db with player_commends := db.player_commends ++
        [{ sender_steamid64 := sender, receiver_steamid64 := receiver, type := type,
           created_at := clock.now }] }
  | Stmt.deleteCommend sender receiver type =>
    { db with player_commends := db.player_commends.filter (fun row =>
        !(row.sender_steamid64 == sender && row.receiver_steamid64 == receiver
          && row.type == type)) }
  | Stmt.insertReport sender receiver type matchId =>
    { db with player_reports := db.player_reports ++
        [{ sender_steamid64 := sender, receiver_steamid64 := receiver, type := type,
           match_id := matchId, created_at := clock.now }] }
  | _ => db

/-- The message `CMsgGC_CC_GC2CL_ClientReportResponse` as `HandlePlayerReport` fills it. -/
structure ReportResponse where
  account_id : Nat
  confirmation_id : Nat
  server_ip : Option Nat := none
  response_type : Nat := 0
  response_result : Nat := 0
  tokens : Int := 0
deriving DecidableEq, Repr

/-- The structure `ReportData` of `discord_notifier.hpp`. -/
structure ReportData where
  sender_steamid : Nat
  receiver_steamid : Nat
  report_type : Int
  match_id : Nat
  sender_name : String := ""
  receiver_name : String := ""
deriving DecidableEq, Repr

/-- What a handler does to the outside, in order: a statement sent with `mysql_query`
(and whether it succeeded), a response written to the socket, a report handed to
`DiscordNotifier::SendReportNotification`. -/
inductive Effect
  | sql (statement : Stmt) (succeeded : Bool)
  | send (response : ReportResponse)
  | notify (report : ReportData)
deriving DecidableEq, Repr

/-- The tables and the effects so far in a handler call. -/
structure Run where
  db : Database
  effects : List Effect := []
deriving DecidableEq, Repr

/-- A `SELECT` sent with `mysql_query`. `ok s` tells whether the statement `s`
succeeds; for a `SELECT` that covers `mysql_query`, `mysql_store_result` and, for a
`COUNT`, `mysql_fetch_row`, whose failure branches all continue the same way. -/
def Run.query (ok : Stmt → Bool) (r : Run) (s : Stmt) : Run :=
  { r with effects := r.effects ++ [Effect.sql s (ok s)] }

/-- An `INSERT` or `DELETE` sent with `mysql_query`. -/
def Run.write (ok : Stmt → Bool) (clock : SqlClock) (r : Run) (s : Stmt) : Run :=
  { db := if ok s then r.db.apply clock s else r.db
    effects := r.effects ++ [Effect.sql s (ok s)] }

/-- A response written with `WriteToSocket`. -/
def Run.send (r : Run) (response : ReportResponse) : Run :=
  { r with effects := r.effects ++ [Effect.send response] }

/-- The target id the handlers derive from the request's account id:
`(1 << 56) | (1 << 52) | (1 << 32) | targetAccountId` on 64 bits. -/
def targetSteamIdOf (targetAccountId : Nat) : Nat :=
  (1 <<< 56) ||| (1 <<< 52) ||| (1 <<< 32) ||| targetAccountId

/-- The function `GetPlayerCommendTokens`: 3 minus the number of distinct receivers of
the last day, not below 0; 3 when the count cannot be read. -/
def GetPlayerCommendTokens (ok : Stmt → Bool) (clock : SqlClock) (db : Database)
    (steamId : Nat) : Int :=
  if ok (Stmt.countCommendReceivers steamId) then
    max 0 (3 - (db.commendReceivers clock steamId : Int))
  else 3

/-- The function `GetPlayerReportTokens`: 6 minus the number of distinct receivers of
the last week, not below 0; 6 when the count cannot be read. -/
def GetPlayerReportTokens (ok : Stmt → Bool) (clock : SqlClock) (db : Database)
    (steamId : Nat) : Int :=
  if ok (Stmt.countReportReceivers steamId) then
    max 0 (6 - (db.reportReceivers clock steamId : Int))
  else 6

/-- The submessage `commendation` of `CMsgGC_CC_ClientCommendPlayer`. -/
structure PlayerCommendationInfo where
  cmd_friendly : Nat := 0
  cmd_teaching : Nat := 0
  cmd_leader : Nat := 0
deriving DecidableEq, Repr

/-- The message `CMsgGC_CC_ClientCommendPlayer` as far as `HandleCommendPlayer` reads
it; `commendation = none` is `has_commendation() == false`. -/
structure CommendRequest where
  account_id : Nat
  commendation : Option PlayerCommendationInfo := none
deriving DecidableEq, Repr

/-- The flags `newFriendly`, `newTeaching`, `newLeader` (type 1, 2, 3) of
`HandleCommendPlayer`. -/
def commendRequested (request : CommendRequest) (type : Nat) : Bool :=
  match request.commendation with
  | none => false
  | some c =>
    if type = 1 then decide (c.cmd_friendly > 0)
    else if type = 2 then decide (c.cmd_teaching > 0)
    else if type = 3 then decide (c.cmd_leader > 0)
    else false

/-- The rows `HandleCommendPlayer` fetches with its `checkQuery`: none when the
statement fails. -/
def commendRows (ok : Stmt → Bool) (clock : SqlClock) (db : Database)
    (sender target : Nat) : List Nat :=
  if ok (Stmt.selectCommendTypes sender target) then db.commendTypes clock sender target
  else []

/-- The flag `needToken` of `HandleCommendPlayer`, from the request and the fetched
rows: `addingNewCommendations && !existingAny`. -/
def commendNeedToken (request : CommendRequest) (rows : List Nat) : Bool :=
  let existingFriendly := decide (1 ∈ rows)
  let existingTeaching := decide (2 ∈ rows)
  let existingLeader := decide (3 ∈ rows)
  let existingAny := !rows.isEmpty
  let addingNewCommendations :=
    (commendRequested request 1 && !existingFriendly)
      || (commendRequested request 2 && !existingTeaching)
      || (commendRequested request 3 && !existingLeader)
  addingNewCommendations && !existingAny

/-- One of the three blocks "Process friendly / teaching / leader commendation" of
`HandleCommendPlayer`, which differ in the type code only. -/
def commendStep (ok : Stmt → Bool) (clock : SqlClock) (sender target type : Nat)
    (newFlag existingFlag : Bool) (r : Run) : Run :=
  if newFlag != existingFlag then
    if newFlag then r.write ok clock (Stmt.insertCommend sender target type)
    else r.write ok clock (Stmt.deleteCommend sender target type)
  else r

/-- The handler `GCNetwork_Users::HandleCommendPlayer`. `request` is the result of
`ParseTo` (`none` when parsing fails). The handler sends no response. -/
def HandleCommendPlayer (ok : Stmt → Bool) (clock : SqlClock) (db : Database)
    (request : Option CommendRequest) (senderSteamId : Nat) : Run :=
  match request with
  | none => { db := db }
  | some request =>
    let targetSteamId := targetSteamIdOf request.account_id
    if senderSteamId = 0 then { db := db }
    else
      let rows := commendRows ok clock db senderSteamId targetSteamId
      let r0 := Run.query ok { db := db } (Stmt.selectCommendTypes senderSteamId targetSteamId)
      let needToken := commendNeedToken request rows
      let availableTokens : Int :=
        if needToken then GetPlayerCommendTokens ok clock db senderSteamId else 3
      let r1 := if needToken then r0.query ok (Stmt.countCommendReceivers senderSteamId) else r0
      if needToken && decide (availableTokens ≤ 0) then r1
      else
        let r2 := commendStep ok clock senderSteamId targetSteamId 1
          (commendRequested request 1) (decide (1 ∈ rows)) r1
        let r3 := commendStep ok clock senderSteamId targetSteamId 2
          (commendRequested request 2) (decide (2 ∈ rows)) r2
        commendStep ok clock senderSteamId targetSteamId 3
          (commendRequested request 3) (decide (3 ∈ rows)) r3

/-- The message `CMsgGC_CC_CL2GC_ClientReportPlayer` as far as `HandlePlayerReport`
reads it; `match_id = none` is `has_match_id() == false`. -/
structure ReportRequest where
  account_id : Nat
  match_id : Option Nat := none
  rpt_aimbot : Nat := 0
  rpt_wallhack : Nat := 0
  rpt_speedhack : Nat := 0
  rpt_teamharm : Nat := 0
  rpt_textabuse : Nat := 0
  rpt_voiceabuse : Nat := 0
deriving DecidableEq, Repr

/-- The array `reportTypes` of `HandlePlayerReport`: the type code `i + 1` of each
entry with its `submitted` flag. -/
def reportTypes (request : ReportRequest) : List (Nat × Bool) :=
  [(1, decide (request.rpt_aimbot > 0)), (2, decide (request.rpt_wallhack > 0)),
   (3, decide (request.rpt_speedhack > 0)), (4, decide (request.rpt_teamharm > 0)),
   (5, decide (request.rpt_textabuse > 0)), (6, decide (request.rpt_voiceabuse > 0))]

/-- The loop "Process all report types that were selected": the run and the flag
`reportSubmitted`. -/
def reportLoop (ok : Stmt → Bool) (clock : SqlClock) (sender target matchId : Nat) :
    List (Nat × Bool) → Run × Bool → Run × Bool
  | [], state => state
  | (type, submitted) :: rest, state =>
    if submitted then
      let s := Stmt.insertReport sender target type matchId
      reportLoop ok clock sender target matchId rest
        (state.1.write ok clock s, if ok s then true else state.2)
    else reportLoop ok clock sender target matchId rest state

/-- The handler `GCNetwork_Users::HandlePlayerReport`. `request` is the result of
`ParseTo` (`none` when parsing fails), `confirmation` the value of `rand()`. -/
def HandlePlayerReport (ok : Stmt → Bool) (clock : SqlClock) (db : Database)
    (request : Option ReportRequest) (senderSteamId confirmation : Nat) : Run :=
  match request with
  | none => { db := db }
  | some request =>
    let targetSteamId := targetSteamIdOf request.account_id
    let availableTokens := GetPlayerReportTokens ok clock db senderSteamId
    let r0 := Run.query ok { db := db } (Stmt.countReportReceivers senderSteamId)
    let response : ReportResponse :=
      { account_id := request.account_id, confirmation_id := confirmation,
        server_ip := if request.match_id.isSome then some 0 else none }
    if availableTokens ≤ 0 then
      r0.send { response with response_type := 0, response_result := 2, tokens := 0 }
    else
      let checkQuery := Stmt.countReports senderSteamId targetSteamId
      let canReport :=
        if ok checkQuery then db.reportCount clock senderSteamId targetSteamId == 0 else true
      let r1 := r0.query ok checkQuery
      if !canReport then
        r1.send { response with response_type := 0, response_result := 3,
                                tokens := availableTokens }
      else
        let matchId := request.match_id.getD 0
        let reportCount := ((reportTypes request).filter (fun rt => rt.2)).length
        if reportCount = 0 then
          r1.send { response with response_type := 0, response_result := 1,
                                  tokens := availableTokens }
        else
          let done := reportLoop ok clock senderSteamId targetSteamId matchId
            (reportTypes request) (r1, false)
          if done.2 then
            done.1.send { response with response_type := 0, response_result := 0,
                                        tokens := availableTokens - 1 }
          else
            done.1.send { response with response_type := 0, response_result := 1,
                                        tokens := availableTokens }

/-- The static state of `DiscordNotifier`. -/
structure DiscordNotifier where
  m_webhook_url : String := ""
  m_moderator_role_id : String := ""
  m_enabled : Bool := false
deriving DecidableEq, Repr

/-- The function `DiscordNotifier::SendBatchReportNotification`: the returned flag and
the batches posted. `post` stands for `BuildEmbedJSON` followed by `SendWebhook`. -/
def DiscordNotifier.SendBatchReportNotification (d : DiscordNotifier)
    (post : List ReportData → Bool) (reports : List ReportData) :
    Bool × List (List ReportData) :=
  if !d.m_enabled || reports.isEmpty then (false, [])
  else (post reports, [reports])

/-- The function `DiscordNotifier::SendReportNotification`. -/
def DiscordNotifier.SendReportNotification (d : DiscordNotifier)
    (post : List ReportData → Bool) (report : ReportData) : Bool × List (List ReportData) :=
  if !d.m_enabled then (false, [])
  else d.SendBatchReportNotification post [report]

/-- The writes among the effects: the `INSERT` and `DELETE` statements sent. -/
def writesOf (effects : List Effect) : List Stmt :=
  effects.filterMap (fun e =>
    match e with
    | Effect.sql (Stmt.insertCommend s r t) _ => some (Stmt.insertCommend s r t)
    | Effect.sql (Stmt.deleteCommend s r t) _ => some (Stmt.deleteCommend s r t)
    | Effect.sql (Stmt.insertReport s r t m) _ => some (Stmt.insertReport s r t m)
    | _ => none)

/-- The responses among the effects. -/
def responsesOf (effects : List Effect) : List ReportResponse :=
  effects.filterMap (fun e =>
    match e with
    | Effect.send response => some response
    | _ => none)

/-- The reports handed to the notifier among the effects. -/
def notifiedOf (effects : List Effect) : List ReportData :=
  effects.filterMap (fun e =>
    match e with
    | Effect.notify report => some report
    | _ => none)

/-- A database server on which every statement succeeds. -/
def allOk : Stmt → Bool := fun _ => true

/-- A clock reading of 200000 seconds, with the three-month mark 90 days earlier. -/
def sampleClock : SqlClock := { now := 200000, threeMonthsAgo := 200000 - 7776000 }

/-- The request `{friendly: false, teaching: true}` for the target account 5. -/
def swapRequest : CommendRequest :=
  { account_id := 5, commendation := some { cmd_friendly := 0, cmd_teaching := 1 } }

/-- A store in which sender 7 gave a friendly commend to the target of account 5 at
second 0, more than a day and less than three months before `sampleClock`. -/
def swapStore : Database :=
  { player_commends :=
      [{ sender_steamid64 := 7, receiver_steamid64 := targetSteamIdOf 5, type := 1,
         created_at := 0 }] }

/-- The effect one "Process ... commendation" block adds: the `INSERT` when the type is
newly requested, the `DELETE` when it is no longer requested, nothing otherwise. -/
def commendStepEffects (ok : Stmt → Bool) (sender target type : Nat)
    (newFlag existingFlag : Bool) : List Effect :=
  if newFlag != existingFlag then
    if newFlag then
      [Effect.sql (Stmt.insertCommend sender target type)
        (ok (Stmt.insertCommend sender target type))]
    else
      [Effect.sql (Stmt.deleteCommend sender target type)
        (ok (Stmt.deleteCommend sender target type))]
  else []

/-- The per-type rule in the spec's words: for each of the types 1, 2, 3 an insert iff
the type is requested and not existing, a delete iff it is existing and not requested,
nothing when requested and existing agree. -/
def commendDeltaRef (sender target : Nat) (requested existing : Nat → Bool) : List Stmt :=
  [1, 2, 3].flatMap (fun type =>
    if requested type && !existing type then [Stmt.insertCommend sender target type]
    else if existing type && !requested type then [Stmt.deleteCommend sender target type]
    else [])

/-- A database server on which the `SELECT` of the existing commends fails and every
other statement succeeds. -/
def selectFails : Stmt → Bool
  | Stmt.selectCommendTypes _ _ => false
  | _ => true

/-- A database server on which the two `COUNT(DISTINCT ...)` token lookups fail and
every other statement succeeds. -/
def countFails : Stmt → Bool
  | Stmt.countCommendReceivers _ => false
  | Stmt.countReportReceivers _ => false
  | _ => true

/-- A database server on which the `COUNT(*)` of existing reports fails and every other
statement succeeds. -/
def checkFails : Stmt → Bool
  | Stmt.countReports _ _ => false
  | _ => true

/-- The request `{friendly: true}` for the target account 5. -/
def friendlyRequest : CommendRequest :=
  { account_id := 5, commendation := some { cmd_friendly := 1 } }

/-- A store in which sender 7 commended the targets of accounts 1, 2 and 3 at second
150000, inside the last day of `sampleClock`. -/
def spentStore : Database :=
  { player_commends :=
      [{ sender_steamid64 := 7, receiver_steamid64 := targetSteamIdOf 1, type := 1,
         created_at := 150000 },
       { sender_steamid64 := 7, receiver_steamid64 := targetSteamIdOf 2, type := 1,
         created_at := 150000 },
       { sender_steamid64 := 7, receiver_steamid64 := targetSteamIdOf 3, type := 1,
         created_at := 150000 }] }

/-- The token lookups among the effects: the `COUNT(DISTINCT ...)` statements that
`GetPlayerCommendTokens` and `GetPlayerReportTokens` send. -/
def tokenLookupsOf (effects : List Effect) : List Stmt :=
  effects.filterMap (fun e =>
    match e with
    | Effect.sql (Stmt.countCommendReceivers s) _ => some (Stmt.countCommendReceivers s)
    | Effect.sql (Stmt.countReportReceivers s) _ => some (Stmt.countReportReceivers s)
    | _ => none)

/-- The request of a report for aim hacking against the target account 5 in match 9. -/
def aimbotReport : ReportRequest := { account_id := 5, match_id := some 9, rpt_aimbot := 1 }

/-- A store in which sender 7 reported the targets of accounts 11 to 16 at second 150000,
inside the last week of `sampleClock`. -/
def sixReportsStore : Database :=
  { player_reports :=
      [11, 12, 13, 14, 15, 16].map (fun account =>
        { sender_steamid64 := 7, receiver_steamid64 := targetSteamIdOf account, type := 4,
          match_id := 0, created_at := 150000 }) }

/-- A store in which sender 7 reported the target of account 5 at second 150000, inside
the last week of `sampleClock`. -/
def reportedStore : Database :=
  { player_reports :=
      [{ sender_steamid64 := 7, receiver_steamid64 := targetSteamIdOf 5, type := 4,
         match_id := 0, created_at := 150000 }] }

/-! ## Rank and id conversions (`networking_users.cpp`), process entry (`main.cpp`) -/

/-- The enumeration `RankId`. Its declaration is not among the sources; the enumerators
are the values `ScoreToRankId` returns, in the order the function lists them. -/
inductive RankId
  | RankNone
  | RankSilver1
  | RankSilver2
  | RankSilver3
  | RankSilver4
  | RankSilverElite
  | RankSilverEliteMaster
  | RankGoldNova1
  | RankGoldNova2
  | RankGoldNova3
  | RankGoldNovaMaster
  | RankMasterGuardian1
  | RankMasterGuardian2
  | RankMasterGuardianElite
  | RankDistinguishedMasterGuardian
  | RankLegendaryEagle
  | RankLegendaryEagleMaster
  | RankSupremeMasterFirstClass
  | RankGlobalElite
deriving DecidableEq, Repr

/-- The position of a rank in the order in which `ScoreToRankId` lists the ranks:
0 for `RankNone`, 1 for `RankSilver1`, up to 18 for `RankGlobalElite`. -/
def RankId.index : RankId → Nat
  | RankNone => 0
  | RankSilver1 => 1
  | RankSilver2 => 2
  | RankSilver3 => 3
  | RankSilver4 => 4
  | RankSilverElite => 5
  | RankSilverEliteMaster => 6
  | RankGoldNova1 => 7
  | RankGoldNova2 => 8
  | RankGoldNova3 => 9
  | RankGoldNovaMaster => 10
  | RankMasterGuardian1 => 11
  | RankMasterGuardian2 => 12
  | RankMasterGuardianElite => 13
  | RankDistinguishedMasterGuardian => 14
  | RankLegendaryEagle => 15
  | RankLegendaryEagleMaster => 16
  | RankSupremeMasterFirstClass => 17
  | RankGlobalElite => 18

/-- The function `ScoreToRankId(int score)`. -/
def ScoreToRankId (score : Int) : RankId :=
  if score < 100 then RankId.RankNone
  else if score < 150 then RankId.RankSilver1
  else if score < 200 then RankId.RankSilver2
  else if score < 300 then RankId.RankSilver3
  else if score < 400 then RankId.RankSilver4
  else if score < 500 then RankId.RankSilverElite
  else if score < 600 then RankId.RankSilverEliteMaster
  else if score < 750 then RankId.RankGoldNova1
  else if score < 900 then RankId.RankGoldNova2
  else if score < 1050 then RankId.RankGoldNova3
  else if score < 1200 then RankId.RankGoldNovaMaster
  else if score < 1400 then RankId.RankMasterGuardian1
  else if score < 1600 then RankId.RankMasterGuardian2
  else if score < 1800 then RankId.RankMasterGuardianElite
  else if score < 2000 then RankId.RankDistinguishedMasterGuardian
  else if score < 2200 then RankId.RankLegendaryEagle
  else if score < 2400 then RankId.RankLegendaryEagleMaster
  else if score < 2700 then RankId.RankSupremeMasterFirstClass
  else RankId.RankGlobalElite

/-- The thresholds of the score→rank step function, as the spec lists them. -/
def rankThresholds : List Int :=
  [100, 150, 200, 300, 400, 500, 600, 750, 900, 1050, 1200, 1400, 1600, 1800, 2000, 2200,
   2400, 2700]

/-- The function `GCNetwork_Users::SteamID64ToSteamID2`. `y` and `z` are `uint32_t`,
the subtraction and the division are done on 64 bits; `"STEAM_1:%u:%u"` with two 32-bit
values has at most 30 characters and fits the 32-byte buffer. -/
def SteamID64ToSteamID2 (steamId64 : Nat) : String :=
  let y := (steamId64 &&& 1) % 2 ^ 32
  let z := (((steamId64 &&& 0xFFFFFFFF) + 2 ^ 64 - y) % 2 ^ 64 / 2) % 2 ^ 32
  "STEAM_1:" ++ toString y ++ ":" ++ toString z

/-- The function `main` of `main.cpp`. `steamInit` is what `SteamGameServer_Init`
returns. The result is the value `main` returns, `none` when it does not return: after
a successful initialisation the loop `while (true) m_network.Update();` has no exit,
and the `return 1` behind it is never reached. -/
def main (steamInit : Bool) : Option Int :=
  if !steamInit then
    -- "Failed to initialize Steam!"
    some 0
  else
    none

/-- The id conversion in the spec's words: `"STEAM_1:" + (x & 1) + ":" +
((x − (x & 1)) / 2)`. -/
def steamId2Ref (x : Nat) : String :=
  "STEAM_1:" ++ toString (x &&& 1) ++ ":" ++ toString ((x - (x &&& 1)) / 2)

/-! ## Token lookups and sample reports (`networking_users.cpp`) -/

/-- What the counting query of a token lookup can come to: `mysql_query` fails,
`mysql_store_result` gives no result, `mysql_fetch_row` gives no row, or there is a row
whose first column is `NULL` (`none`) or a number read with `atoi`. -/
inductive CountOutcome
  | queryFailed
  | noResult
  | noRow
  | row (value : Option Int)
deriving DecidableEq, Repr

/-- The body the two token lookups share, for the default budget `DEFAULT_TOKENS`:
`std::max(0, DEFAULT_TOKENS - used_tokens)` when there is a row, `DEFAULT_TOKENS` on
every other path. -/
def tokensLeft (DEFAULT_TOKENS : Int) : CountOutcome → Int
  | CountOutcome.row value =>
    let used_tokens : Int := value.getD 0
    max 0 (DEFAULT_TOKENS - used_tokens)
  | _ => DEFAULT_TOKENS

/-- The outcome of a counting query in the terms of `Run.query`: a row holding the count
when the statement succeeds, a failure otherwise. -/
def countOutcome (succeeded : Bool) (count : Nat) : CountOutcome :=
  if succeeded then CountOutcome.row (some (count : Int)) else CountOutcome.queryFailed

/-- The request of a report for aim hacking and wall hacking against the target account
5 in match 9. -/
def twoFlagReport : ReportRequest :=
  { account_id := 5, match_id := some 9, rpt_aimbot := 1, rpt_wallhack := 1 }

/-- A database server on which the `INSERT` of a report of type 2 fails and every other
statement succeeds. -/
def wallhackInsertFails : Stmt → Bool
  | Stmt.insertReport _ _ 2 _ => false
  | _ => true

/-- A database server on which every `INSERT` of a report fails and every other
statement succeeds. -/
def insertsFail : Stmt → Bool
  | Stmt.insertReport _ _ _ _ => false
  | _ => true

/-! ## Recursion of the matchmaking pass and a state for the cleanup
(`matchmaking_manager_improved_sample.cpp`) -/

/-- The method `MatchmakingManager::ProcessMatchmakingQueue` as
`ProcessMatchmakingQueueFuel` gives it, together with the number of recursive calls the
call makes, which is the number of matches it stores: every recursive call follows the
block that stores a match, and that block is followed by a recursive call. -/
def ProcessMatchmakingQueueCalls (env : Env) : Nat → World → Except Fault World × Nat
  | 0, _ => (Except.error Fault.outOfFuel, 0)
  | fuel + 1, w =>
    match w.mm.FindMatchCandidates env with
    | none => (Except.error Fault.undefinedBehaviour, 0)
    | some none => (Except.ok w, 0)
    | some (some candidates) =>
      match (env.CreateMatch w.mm candidates).1 with
      | none =>
        (Except.ok { w with mm := { w.mm with m_nextMatchId := (env.CreateMatch w.mm candidates).2 } },
         0)
      | some m =>
        match w.gsm.FindAvailableServer with
        | none =>
          (Except.ok { w with mm := { w.mm with m_nextMatchId := (env.CreateMatch w.mm candidates).2 } },
           0)
        | some server =>
          ((ProcessMatchmakingQueueCalls env fuel
              (commitMatch w candidates m (env.CreateMatch w.mm candidates).2 server)).1,
           (ProcessMatchmakingQueueCalls env fuel
              (commitMatch w candidates m (env.CreateMatch w.mm candidates).2 server)).2 + 1)

/-- A state with teams of one and one available server in which the completed match 1
of players 11 and 12 is still stored and indexed; nobody is queued. -/
def rejoinWorld : World :=
  { mm :=
      { m_config := { playersPerTeam := 1 }
        m_activeMatches :=
          [(1, { matchId := 1, teamA := [samplePlayer 11 1000], teamB := [samplePlayer 12 1000],
                 state := MatchState.COMPLETED })]
        m_playerToMatch := [(11, 1), (12, 1)] }
    gsm := oneServerWorld.gsm }

/-- Player 11 queues again, then player 13 queues. -/
def rejoinOps : List QueueOp :=
  [QueueOp.add 0 11 0 { mmr := 1000 } [], QueueOp.add 0 13 0 { mmr := 1000 } []]

/-! ## TCP transport (`tcp_networking.hpp`, `tcp_networking.cpp`) -/

/-- The structure `TCPNetworking::ClientConnection`, as far as the send and receive
paths use it: the socket is the key under which the connection is stored; the address,
the port and `lastActivity` (written on every receive, read by `CleanupInactiveClients`
only) are left out. -/
structure ClientConnection where
  steamId : Nat := 0
  authenticated : Bool := false
  receiveBuffer : List Byte := []
deriving DecidableEq, Repr

/-- The structure `TCPNetworking::QueuedMessage`. -/
structure QueuedMessage where
  clientSocket : Nat
  data : List Byte
deriving DecidableEq, Repr

/-- The members of `TCPNetworking` the send and receive paths read or write;
`m_clients` is a `std::map` keyed by socket. The two mutexes serialise the accesses of
the receive threads and of the main thread, so each function below is one step. -/
structure TCPNetworking where
  m_running : Bool := false
  m_clients : List (Nat × ClientConnection) := []
  m_messageQueue : List QueuedMessage := []
deriving DecidableEq, Repr

/-- The packet `SendToClient` builds: the size as a `uint32_t` in memory order, then
the data. -/
def packetOf (data : List Byte) : List Byte :=
  u32Bytes (data.length % 2 ^ 32) ++ data

/-- The method `TCPNetworking::SendToClient` on a socket that takes every byte: the
bytes put on the stream (the send loop goes on until the whole packet is sent), `none`
when the client is unknown and the method returns false. -/
def TCPNetworking.SendToClient (net : TCPNetworking) (clientSocket : Nat)
    (data : List Byte) : Option (List Byte) :=
  match umFind clientSocket net.m_clients with
  | none => none
  | some _ => some (packetOf data)

/-- The loop `while (receiveBuffer.size() >= sizeof(uint32_t))` of `ReceiveFromClient`,
with a budget of rounds: read the size header, and if the whole message is there,
queue it and erase header and message from the buffer, else stop. A round takes at
least four bytes off the buffer, so a budget of `buffer.length` is never used up
(`extractMessages_fuel`). -/
def extractMessages (clientSocket : Nat) :
    Nat → List Byte → List QueuedMessage → List Byte × List QueuedMessage
  | 0, receiveBuffer, queue => (receiveBuffer, queue)
  | fuel + 1, receiveBuffer, queue =>
    if receiveBuffer.length ≥ 4 then
      let messageSize := readU32 receiveBuffer 0
      if receiveBuffer.length ≥ 4 + messageSize then
        let message := (receiveBuffer.drop 4).take messageSize
        extractMessages clientSocket fuel (receiveBuffer.drop (4 + messageSize))
          (queue ++ [{ clientSocket := clientSocket, data := message }])
      else (receiveBuffer, queue)
    else (receiveBuffer, queue)

/-- The branch `received > 0` of `ReceiveFromClient`: append the received bytes to the
client's buffer and extract the complete messages; nothing happens when the client is
no longer in `m_clients`. -/
def TCPNetworking.onReceived (net : TCPNetworking) (clientSocket : Nat)
    (received : List Byte) : TCPNetworking :=
  match umFind clientSocket net.m_clients with
  | none => net
  | some client =>
    let receiveBuffer := client.receiveBuffer ++ received
    let state := extractMessages clientSocket receiveBuffer.length receiveBuffer
      net.m_messageQueue
    { net with
      m_clients := umInsert clientSocket { client with receiveBuffer := state.1 } net.m_clients
      m_messageQueue := state.2 }

/-- The method `TCPNetworking::DisconnectClient`. -/
def TCPNetworking.DisconnectClient (net : TCPNetworking) (clientSocket : Nat) :
    TCPNetworking :=
  { net with m_clients := umErase clientSocket net.m_clients }

/-- What a call of `recv` gives: bytes (`received` is their number; none at all means
the peer closed the connection), nothing for now (`EWOULDBLOCK`), or an error. -/
inductive RecvResult
  | bytes (data : List Byte)
  | wouldBlock
  | error
deriving DecidableEq, Repr

/-- The method `TCPNetworking::ReceiveFromClient`, run over the results of its
successive `recv` calls. -/
def TCPNetworking.ReceiveFromClient (clientSocket : Nat) :
    List RecvResult → TCPNetworking → TCPNetworking
  | [], net => net
  | result :: rest, net =>
    if !net.m_running then net
    else
      match result with
      | RecvResult.bytes data =>
        if data.length > 0 then
          TCPNetworking.ReceiveFromClient clientSocket rest (net.onReceived clientSocket data)
        else
          -- "Client disconnected"
          net.DisconnectClient clientSocket
      | RecvResult.wouldBlock => TCPNetworking.ReceiveFromClient clientSocket rest net
      | RecvResult.error => net.DisconnectClient clientSocket

/-- The method `TCPNetworking::GetNextMessage`: the message taken from the front of the
queue (`none` when the method returns false) and the state left. -/
def TCPNetworking.GetNextMessage (net : TCPNetworking) : Option QueuedMessage × TCPNetworking :=
  match net.m_messageQueue with
  | [] => (none, net)
  | msg :: rest => (some msg, { net with m_messageQueue := rest })

/-- The results of `n` successive calls of `GetNextMessage` and the state left. -/
def getMessages : Nat → TCPNetworking → List (Option QueuedMessage) × TCPNetworking
  | 0, net => ([], net)
  | n + 1, net =>
    ((net.GetNextMessage.1 :: (getMessages n net.GetNextMessage.2).1),
     (getMessages n net.GetNextMessage.2).2)

/-- A running server with one connected client on socket 4, nothing buffered or
queued. -/
def sampleNet : TCPNetworking :=
  { m_running := true, m_clients := [(4, {})] }

/-- Two messages, of three bytes and of no byte. -/
def sampleMessages : List (List Byte) := [[10, 20, 30], []]

/-- The stream of `sampleMessages` (eleven bytes) cut into segments of 2, 6 and 3
bytes. -/
def sampleSegments : List (List Byte) :=
  [[3, 0], [0, 0, 10, 20, 30, 0], [0, 0, 0]]

/-- A state whose configuration asks for 2^63 + 1 players per team, so that the 64-bit
product `playersPerTeam * 2` is 2; two players of mmr 1000 are queued and one server is
available. -/
def wrapWorld : World :=
  { mm :=
      { m_config := { playersPerTeam := 2 ^ 63 + 1 }
        m_queuesBySkill := [(10, [samplePlayer 1 1000, samplePlayer 2 1000])] }
    gsm := oneServerWorld.gsm }

/-- A state whose configuration asks for 2^63 players per team, so that the 64-bit
product `playersPerTeam * 2` is 0; nobody is queued. -/
def zeroSizeWorld : World :=
  { mm := { m_config := { playersPerTeam := 2 ^ 63 } } }

/-! ## Properties of the message codec -/

theorem readU32_u32Bytes (x : Nat) (hx : x < 2 ^ 32) (rest : List Byte) :
    readU32 (u32Bytes x ++ rest) 0 = x := by
  simp only [readU32, u32Bytes, List.cons_append, List.nil_append, List.getD_cons_zero,
    List.getD_cons_succ, Nat.zero_add, Nat.reduceAdd]
  omega

theorem frameHeader_length (m : NetworkMessage) (k : Nat) : (frameHeader m k).length = 12 := by
  simp [frameHeader, u32Bytes]

theorem readU32_frame (m : NetworkMessage) (k : Nat) (chunk : List Byte) :
    readU32 (frameHeader m k ++ chunk) 0 = (m.m_type ||| CCProtoMask) % 2 ^ 32 := by
  unfold frameHeader
  rw [List.append_assoc, List.append_assoc]
  exact readU32_u32Bytes _ (Nat.mod_lt _ (by decide)) _

theorem construct_frame (m : NetworkMessage) (k : Nat) (chunk : List Byte) :
    NetworkMessage.construct (frameHeader m k ++ chunk) (frameHeader m k ++ chunk).length
      = ⟨(m.m_type ||| CCProtoMask) % 2 ^ 32, chunk⟩ := by
  have hl := frameHeader_length m k
  unfold NetworkMessage.construct
  rw [List.length_append, hl]
  have h1 : ¬ (12 + chunk.length < 4) := by omega
  have h2 : ¬ (12 + chunk.length < 4 * 3) := by omega
  simp only [h1, h2, if_false, readU32_frame]
  have h3 : (frameHeader m k ++ chunk).drop (4 * 3) = chunk := by
    rw [show 4 * 3 = (frameHeader m k).length by rw [hl]]
    exact List.drop_left _ _
  rw [h3]
  have h4 : 12 + chunk.length - 4 * 3 = chunk.length := by omega
  rw [h4, List.take_length]
  cases chunk with
  | nil => simp
  | cons b bs => simp

theorem GetType_masked (t : Nat) (ht : t < 2 ^ 32) (p q : List Byte) :
    NetworkMessage.GetType ⟨(t ||| CCProtoMask) % 2 ^ 32, p⟩ = NetworkMessage.GetType ⟨t, q⟩ := by
  have hlt : t ||| CCProtoMask < 2 ^ 32 := Nat.or_lt_two_pow ht (by decide)
  simp only [NetworkMessage.GetType, Nat.mod_eq_of_lt hlt]
  rw [Nat.and_comm, Nat.and_or_distrib_left, Nat.and_comm _ t]
  have : (0xFFFFFFFF ^^^ CCProtoMask) &&& CCProtoMask = 0 := by decide
  rw [this, Nat.or_zero]

theorem GetType_of_lt (t : Nat) (ht : t < 2 ^ 31) (p : List Byte) :
    NetworkMessage.GetType ⟨t, p⟩ = t := by
  simp only [NetworkMessage.GetType]
  have : (0xFFFFFFFF ^^^ CCProtoMask) = 2 ^ 31 - 1 := by decide
  rw [this, Nat.and_pow_two_sub_one_eq_mod, Nat.mod_eq_of_lt ht]

theorem take_chunk_eq (p : List Byte) (s c : Nat) (hs : s ≤ p.length) :
    (p.drop s).take (min (s + c) p.length - s) = (p.drop s).take c := by
  rw [List.take_eq_take, List.length_drop]
  omega

theorem WriteChunkLoop_accepting (send : List Byte → Bool) (hs : ∀ f, send f = true)
    (m : NetworkMessage) (k c : Nat) :
    ∀ n i, (n = 0 ∨ (i + n - 1) * c ≤ m.m_data.length) →
      NetworkMessage.WriteChunkLoop send m k c n i
        = some ⟨(List.range' i n).map
            (fun j => frameHeader m k ++ (m.m_data.drop (j * c)).take c), true⟩ := by
  intro n
  induction n with
  | zero => intro i _; simp [NetworkMessage.WriteChunkLoop]
  | succ n ih =>
    intro i h
    have hb : (i + n) * c ≤ m.m_data.length := by
      rcases h with h | h
      · omega
      · simpa using h
    have hi : i * c ≤ m.m_data.length :=
      le_trans (Nat.mul_le_mul_right c (Nat.le_add_right i n)) hb
    have hrec : n = 0 ∨ (i + 1 + n - 1) * c ≤ m.m_data.length := by
      rcases Nat.eq_zero_or_pos n with h0 | h0
      · exact Or.inl h0
      · right
        have : i + 1 + n - 1 = i + n := by omega
        rw [this]; exact hb
    have hle : i * c ≤ min (i * c + c) m.m_data.length := by
      apply le_min (Nat.le_add_right _ _) hi
    simp only [NetworkMessage.WriteChunkLoop, hle, if_true, hs, ih (i + 1) hrec,
      take_chunk_eq _ _ _ hi, List.range'_succ, List.map_cons]

theorem flatten_chunks (p : List Byte) (c : Nat) :
    ∀ n i, ((List.range' i n).map (fun j => (p.drop (j * c)).take c)).flatten
      = (p.drop (i * c)).take (n * c) := by
  intro n
  induction n with
  | zero => intro i; simp
  | succ n ih =>
    intro i
    rw [List.range'_succ, List.map_cons, List.flatten_cons, ih (i + 1)]
    have h1 : (n + 1) * c = c + n * c := by ring
    have h2 : (i + 1) * c = i * c + c := by ring
    rw [h1, List.take_add, List.drop_drop, h2]

theorem le_mul_ceil_div (N k : Nat) (hk : 0 < k) : N ≤ k * ((N + k - 1) / k) := by
  have h1 := Nat.div_add_mod (N + k - 1) k
  have h2 := Nat.mod_lt (N + k - 1) hk
  omega

theorem ceil_div_1024 (T : ℕ) : ⌈(T : ℚ) / 1024⌉₊ = (T + 1023) / 1024 := by
  apply eq_of_forall_ge_iff
  intro n
  rw [Nat.ceil_le, div_le_iff₀ (by norm_num : (0 : ℚ) < 1024)]
  constructor
  · intro h
    have : T ≤ n * 1024 := by exact_mod_cast h
    omega
  · intro h
    have : T ≤ n * 1024 := by omega
    exact_mod_cast this


/-- The chunk count chosen for a request of 0 is the ceiling of `GetTotalSize() / 1024`,
at least 1. -/
theorem effectiveChunks_zero (m : NetworkMessage) :
    m.effectiveChunks 0 = max 1 ((m.GetTotalSize + 1023) / 1024) := by
  have hT : m.GetTotalSize < 2 ^ 32 := Nat.mod_lt _ (by decide)
  simp only [NetworkMessage.effectiveChunks, MAX_CHUNK_SIZE, if_true]
  have h1 : (m.GetTotalSize + 1024 - 1) / 1024 % 2 ^ 32 = (m.GetTotalSize + 1023) / 1024 := by
    omega
  rw [h1]
  split <;> omega

theorem WriteChunkMsg_accepting (send : List Byte → Bool) (hs : ∀ f, send f = true)
    (m : NetworkMessage) (k : Nat) (hk : 1 ≤ k)
    (hb : (k - 1) * ((m.m_data.length + k - 1) / k) ≤ m.m_data.length) :
    m.WriteChunkMsg send k
      = some ⟨(List.range' 0 k).map (fun j => frameHeader m k ++
          (m.m_data.drop (j * ((m.m_data.length + k - 1) / k))).take
            ((m.m_data.length + k - 1) / k)), true⟩ := by
  have hk0 : k ≠ 0 := by omega
  simp only [NetworkMessage.WriteChunkMsg, hk0, if_false]
  apply WriteChunkLoop_accepting send hs
  right
  simpa using hb

theorem decoded_payloads (m : NetworkMessage) (k c : Nat) (js : List Nat) :
    (js.map (fun j => frameHeader m k ++ (m.m_data.drop (j * c)).take c)).map
        (fun f => (NetworkMessage.construct f f.length).GetData)
      = js.map (fun j => (m.m_data.drop (j * c)).take c) := by
  rw [List.map_map]
  apply List.map_congr_left
  intro j _
  simp only [Function.comp, construct_frame, NetworkMessage.GetData]

/-- C1 (counterexample): a message whose type has the protocol bit set is decoded with
another type (type 0x80000001 comes back as 1), and for a 5-byte payload asked to go
out in 4 chunks the fourth chunk starts past the end of the payload, so no list of
frames is defined. -/
theorem C1_roundtrip_counterexample :
    (NetworkMessage.WriteToSocket (fun _ => true) ⟨0x80000001, []⟩ 1).map
        (fun r => r.frames.map (fun f => (NetworkMessage.construct f f.length).GetType))
      = some [1]
    ∧ NetworkMessage.WriteToSocket (fun _ => true) ⟨1, [1, 2, 3, 4, 5]⟩ 4 = none := by
  decide

/-- C1 (amended): for every 32-bit type `t`, payload `p` and chunk count `k ≥ 1` whose
chunk starts all lie inside the payload, on a socket that accepts every frame,
`WriteToSocket(…, k)` emits frames whose decoded payloads concatenate to `p`, and
`GetType()` of every decoded frame equals `GetType()` of the message sent (`t` without
the protocol bit), which is `t` itself when `t < 2^31`. -/
theorem C1_roundtrip (send : List Byte → Bool) (hs : ∀ f, send f = true)
    (t : Nat) (ht : t < 2 ^ 32) (p : List Byte) (k : Nat) (hk : 1 ≤ k)
    (hb : (k - 1) * ((p.length + k - 1) / k) ≤ p.length) :
    ∃ frames, NetworkMessage.WriteToSocket send ⟨t, p⟩ k = some ⟨frames, true⟩ ∧
      (frames.map (fun f => (NetworkMessage.construct f f.length).GetData)).flatten = p ∧
      (∀ f ∈ frames, (NetworkMessage.construct f f.length).GetType
          = NetworkMessage.GetType ⟨t, p⟩) ∧
      (t < 2 ^ 31 → ∀ f ∈ frames, (NetworkMessage.construct f f.length).GetType = t) := by
  have hk0 : k ≠ 0 := by omega
  have key : ∃ frames, NetworkMessage.WriteToSocket send ⟨t, p⟩ k = some ⟨frames, true⟩ ∧
      (frames.map (fun f => (NetworkMessage.construct f f.length).GetData)).flatten = p ∧
      (∀ f ∈ frames, (NetworkMessage.construct f f.length).GetType
          = NetworkMessage.GetType ⟨t, p⟩) := by
    by_cases h1 : k = 1
    · subst h1
      refine ⟨[frameHeader ⟨t, p⟩ 1 ++ p], ?_, ?_, ?_⟩
      · simp [NetworkMessage.WriteToSocket, NetworkMessage.effectiveChunks,
          NetworkMessage.WriteSingleMsg, hs]
      · simp only [List.map_cons, List.map_nil, construct_frame, NetworkMessage.GetData,
          List.flatten_cons, List.flatten_nil, List.append_nil]
      · intro f hf
        rw [List.mem_singleton] at hf
        subst hf
        rw [construct_frame]
        exact GetType_masked t ht _ _
    · refine ⟨(List.range' 0 k).map (fun j => frameHeader ⟨t, p⟩ k ++
          (p.drop (j * ((p.length + k - 1) / k))).take ((p.length + k - 1) / k)), ?_, ?_, ?_⟩
      · simp only [NetworkMessage.WriteToSocket, NetworkMessage.effectiveChunks, hk0, h1,
          if_false]
        exact WriteChunkMsg_accepting send hs ⟨t, p⟩ k hk hb
      · rw [decoded_payloads ⟨t, p⟩, flatten_chunks]
        simp only [Nat.zero_mul, List.drop_zero]
        apply List.take_of_length_le
        exact le_mul_ceil_div p.length k (by omega)
      · intro f hf
        rw [List.mem_map] at hf
        obtain ⟨j, _, rfl⟩ := hf
        rw [construct_frame]
        exact GetType_masked t ht _ _
  obtain ⟨frames, h1, h2, h3⟩ := key
  refine ⟨frames, h1, h2, h3, ?_⟩
  intro hlt f hf
  rw [h3 f hf]
  exact GetType_of_lt t hlt p

/-- C1 (witness): type 5, the payload `[1, 2, 3, 4, 5]` and 2 chunks. -/
theorem C1_roundtrip_witness :
    ∃ frames, NetworkMessage.WriteToSocket (fun _ => true) ⟨5, [1, 2, 3, 4, 5]⟩ 2
        = some ⟨frames, true⟩ ∧
      (frames.map (fun f => (NetworkMessage.construct f f.length).GetData)).flatten
        = [1, 2, 3, 4, 5] ∧
      (∀ f ∈ frames, (NetworkMessage.construct f f.length).GetType
          = NetworkMessage.GetType ⟨5, [1, 2, 3, 4, 5]⟩) ∧
      ((5 : Nat) < 2 ^ 31 → ∀ f ∈ frames, (NetworkMessage.construct f f.length).GetType = 5) :=
  C1_roundtrip (fun _ => true) (fun _ => rfl) 5 (by decide) [1, 2, 3, 4, 5] 2 (by decide)
    (by decide)

theorem auto_chunks_1024 (p : List Byte) (hp : p.length = 1024) :
    p.length ≤ 1024 ∧
    NetworkMessage.effectiveChunks ⟨1, p⟩ 0 = 2 ∧
    (NetworkMessage.WriteToSocket (fun _ => true) ⟨1, p⟩ 0).map
      (fun r => r.frames.length) = some 2 := by
  have h2 : NetworkMessage.effectiveChunks ⟨1, p⟩ 0 = 2 := by
    rw [effectiveChunks_zero]
    simp [NetworkMessage.GetTotalSize, hp]
  refine ⟨by omega, h2, ?_⟩
  simp only [NetworkMessage.WriteToSocket, h2]
  rw [if_neg (by decide),
    WriteChunkMsg_accepting _ (fun _ => rfl) _ 2 (by decide) (by simp [hp])]
  simp

theorem chunk_sizes_2500 (p : List Byte) (hp : p.length = 2500) :
    (NetworkMessage.WriteChunkMsg (fun _ => true) ⟨1, p⟩ 3).map
      (fun r => r.frames.map List.length) = some [12 + 834, 12 + 834, 12 + 832] := by
  rw [WriteChunkMsg_accepting _ (fun _ => rfl) _ 3 (by decide) (by simp [hp])]
  simp [List.range', frameHeader_length, hp]

/-- C2 (counterexample): a payload of 1024 bytes has `GetTotalSize() = 1032`, so a
request of 0 chunks works with 2 chunks and hands two frames to the socket. -/
theorem C2_default_chunking_counterexample :
    (List.replicate 1024 (0 : Byte)).length ≤ 1024 ∧
    NetworkMessage.effectiveChunks ⟨1, List.replicate 1024 0⟩ 0 = 2 ∧
    (NetworkMessage.WriteToSocket (fun _ => true) ⟨1, List.replicate 1024 0⟩ 0).map
      (fun r => r.frames.length) = some 2 :=
  auto_chunks_1024 _ (List.length_replicate _ _)

/-- C2 (amended): with `chunks = 0` the chunk count used is
`max(1, ⌈GetTotalSize() / 1024⌉)`; every payload of at most 1016 bytes (total size at
most 1024) goes out through `WriteSingleMsg` as one frame, and every payload of 1017 to
1024 bytes is split in 2 chunks. -/
theorem C2_default_chunking (send : List Byte → Bool) (m : NetworkMessage) :
    m.effectiveChunks 0 = max 1 ⌈(m.GetTotalSize : ℚ) / 1024⌉₊ ∧
    (m.m_data.length ≤ 1016 →
      m.effectiveChunks 0 = 1 ∧ m.WriteToSocket send 0 = some (m.WriteSingleMsg send)) ∧
    (1016 < m.m_data.length → m.m_data.length ≤ 1024 → m.effectiveChunks 0 = 2) := by
  refine ⟨by rw [ceil_div_1024, effectiveChunks_zero], ?_, ?_⟩
  · intro h
    have h1 : m.effectiveChunks 0 = 1 := by
      rw [effectiveChunks_zero]
      simp only [NetworkMessage.GetTotalSize]
      omega
    exact ⟨h1, by simp only [NetworkMessage.WriteToSocket, h1, if_true]⟩
  · intro h1 h2
    rw [effectiveChunks_zero]
    simp only [NetworkMessage.GetTotalSize]
    omega

/-- C2 (witness): a 3-byte payload on an accepting socket. -/
theorem C2_default_chunking_witness :
    NetworkMessage.effectiveChunks ⟨1, [1, 2, 3]⟩ 0 = 1 ∧
    NetworkMessage.WriteToSocket (fun _ => true) ⟨1, [1, 2, 3]⟩ 0
      = some (NetworkMessage.WriteSingleMsg (fun _ => true) ⟨1, [1, 2, 3]⟩) :=
  (C2_default_chunking (fun _ => true) ⟨1, [1, 2, 3]⟩).2.1 (by decide)

/-- C3 (failing input): for the 5-byte payload `[1, 2, 3, 4, 5]` and 4 chunks the chunk
size is 2, the fourth chunk would start at offset 6 and end at offset 5, and
`WriteChunkMsg` has no defined list of frames; the spec's own example (2500 bytes in 3
chunks) does give frames of 12+834, 12+834 and 12+832 bytes. -/
theorem C3_chunk_layout_failing_input :
    NetworkMessage.WriteChunkMsg (fun _ => true) ⟨1, [1, 2, 3, 4, 5]⟩ 4 = none ∧
    (3 * ((5 + 4 - 1) / 4) = 6 ∧ min (6 + 2) 5 = 5) ∧
    (NetworkMessage.WriteChunkMsg (fun _ => true) ⟨1, List.replicate 2500 0⟩ 3).map
      (fun r => r.frames.map List.length) = some [12 + 834, 12 + 834, 12 + 832] := by
  exact ⟨by decide, by decide, chunk_sizes_2500 _ (List.length_replicate _ _)⟩

/-- C4 (counterexample): the 4-byte input `05 00 00 00` is shorter than the header, yet
the constructor returns a message whose type, 5, was read from the partial frame. -/
theorem C4_malformed_frame_counterexample :
    ([5, 0, 0, 0] : List Byte).length < 12 ∧
    (NetworkMessage.construct [5, 0, 0, 0] 4).m_type = 5 ∧
    (NetworkMessage.construct [5, 0, 0, 0] 4).GetType = 5 := by
  decide

/-- C4 (amended): for every input shorter than the 12-byte header the constructor
returns a message with an empty payload (it logs an error and has no failure result);
below 4 bytes the type stays at its default 0, and from 4 to 11 bytes the type field is
read from the partial frame. -/
theorem C4_malformed_frame (data : List Byte) (size : Nat) (h : size < 12) :
    (NetworkMessage.construct data size).m_data = [] ∧
    (size < 4 → (NetworkMessage.construct data size).m_type = 0) ∧
    (4 ≤ size → (NetworkMessage.construct data size).m_type = readU32 data 0) := by
  by_cases h4 : size < 4
  · simp [NetworkMessage.construct, h4]
  · have h12 : size < 4 * 3 := by omega
    have h4' : 4 ≤ size := by omega
    simp [NetworkMessage.construct, h4, h12, h4']

/-- C4 (witness): the 7-byte input `05 00 00 00 01 02 03`. -/
theorem C4_malformed_frame_witness :
    (NetworkMessage.construct [5, 0, 0, 0, 1, 2, 3] 7).m_data = [] ∧
    (7 < 4 → (NetworkMessage.construct [5, 0, 0, 0, 1, 2, 3] 7).m_type = 0) ∧
    (4 ≤ 7 → (NetworkMessage.construct [5, 0, 0, 0, 1, 2, 3] 7).m_type
      = readU32 [5, 0, 0, 0, 1, 2, 3] 0) :=
  C4_malformed_frame [5, 0, 0, 0, 1, 2, 3] 7 (by decide)

/-! ## Properties of the matchmaking engine -/

theorem collectPlayers_mem (ms : Nat) :
    ∀ (qs : List (Nat × List QueueEntry)) (t : Nat) (acc : List QueueEntry) (e : QueueEntry),
      e ∈ collectPlayers ms qs t acc → e ∈ acc ∨ ∃ b ∈ qs, e ∈ b.2 := by
  intro qs
  induction qs with
  | nil => intro t acc e h; exact Or.inl h
  | cons b rest ih =>
    intro t acc e h
    obtain ⟨key, queue⟩ := b
    simp only [collectPlayers] at h
    split at h
    · rcases ih _ _ e h with h1 | ⟨b', hb', he⟩
      · rcases List.mem_append.mp h1 with h2 | h2
        · exact Or.inl h2
        · exact Or.inr ⟨(key, queue), List.mem_cons_self _ _, h2⟩
      · exact Or.inr ⟨b', List.mem_cons_of_mem _ hb', he⟩
    · rcases ih _ _ e h with h1 | ⟨b', hb', he⟩
      · exact Or.inl h1
      · exact Or.inr ⟨b', List.mem_cons_of_mem _ hb', he⟩

theorem slideWindow_some (mm : MatchmakingManager) (env : Env) (l : List QueueEntry)
    (ms : Nat) :
    ∀ (n i : Nat) (w : List QueueEntry),
      slideWindow mm env l ms n i = some (some w) →
      ∃ j, i ≤ j ∧ j < i + n ∧ w = (l.drop j).take ms ∧
        ∃ front back, w.head? = some front ∧ w.getLast? = some back ∧
          (back.skillRating.mmr + 2 ^ 32 - front.skillRating.mmr) % 2 ^ 32
            ≤ mm.m_config.baseMMRSpread * 2 % 2 ^ 32 ∧
          allCompatible (env.ArePlayersCompatible mm) w = true := by
  intro n
  induction n with
  | zero => intro i w h; simp [slideWindow] at h
  | succ n ih =>
    intro i w h
    unfold slideWindow at h
    simp only at h
    split at h
    · rename_i front back hf hb
      split at h
      · obtain ⟨j, h1, h2, h3⟩ := ih (i + 1) w h
        exact ⟨j, by omega, by omega, h3⟩
      · rename_i hspread
        split at h
        · rename_i hcompat
          simp only [Option.some.injEq] at h
          subst h
          exact ⟨i, le_refl _, by omega, rfl, front, back, hf, hb, by omega, hcompat⟩
        · obtain ⟨j, h1, h2, h3⟩ := ih (i + 1) w h
          exact ⟨j, by omega, by omega, h3⟩
    · simp at h

theorem sorted_head_le (l : List QueueEntry)
    (h : l.Pairwise (fun a b => a.skillRating.mmr ≤ b.skillRating.mmr)) (f : QueueEntry)
    (hf : l.head? = some f) : ∀ a ∈ l, f.skillRating.mmr ≤ a.skillRating.mmr := by
  cases l with
  | nil => simp at hf
  | cons x xs =>
    simp only [List.head?_cons, Option.some.injEq] at hf
    subst hf
    intro a ha
    rcases List.mem_cons.mp ha with rfl | ha
    · exact le_refl _
    · exact (List.pairwise_cons.mp h).1 a ha

theorem sorted_le_last (l : List QueueEntry)
    (h : l.Pairwise (fun a b => a.skillRating.mmr ≤ b.skillRating.mmr)) (b : QueueEntry)
    (hb : l.getLast? = some b) : ∀ a ∈ l, a.skillRating.mmr ≤ b.skillRating.mmr := by
  induction l with
  | nil => simp at hb
  | cons x xs ih =>
    intro a ha
    have hbmem : b ∈ x :: xs := List.mem_of_getLast?_eq_some hb
    cases xs with
    | nil =>
      simp only [List.getLast?_singleton, Option.some.injEq] at hb
      simp only [List.mem_singleton] at ha
      subst hb; subst ha; exact le_refl _
    | cons y ys =>
      rw [List.getLast?_cons_cons] at hb
      rcases List.mem_cons.mp ha with rfl | ha
      · exact (List.pairwise_cons.mp h).1 b (List.mem_of_getLast?_eq_some hb)
      · exact ih (List.pairwise_cons.mp h).2 hb a ha

theorem FindMatchCandidates_some (env : Env) (mm : MatchmakingManager) (w : List QueueEntry)
    (h : mm.FindMatchCandidates env = some (some w)) :
    ∃ j, j + mm.m_config.playersPerTeam * 2 % 2 ^ 64
          ≤ (collectPlayers (mm.m_config.playersPerTeam * 2 % 2 ^ 64)
              mm.m_queuesBySkill 0 []).length ∧
      w = ((env.sort (collectPlayers (mm.m_config.playersPerTeam * 2 % 2 ^ 64)
              mm.m_queuesBySkill 0 [])).drop j).take
            (mm.m_config.playersPerTeam * 2 % 2 ^ 64) ∧
      ∃ front back, w.head? = some front ∧ w.getLast? = some back ∧
        (back.skillRating.mmr + 2 ^ 32 - front.skillRating.mmr) % 2 ^ 32
          ≤ mm.m_config.baseMMRSpread * 2 % 2 ^ 32 ∧
        allCompatible (env.ArePlayersCompatible mm) w = true := by
  unfold MatchmakingManager.FindMatchCandidates at h
  simp only at h
  split at h
  · simp at h
  · rename_i hlen
    obtain ⟨j, _, h2, h3, h4⟩ := slideWindow_some mm env _ _ _ _ w h
    exact ⟨j, by omega, h3, h4⟩

theorem candidates_mem_queue (env : Env) (hv : env.Valid) (mm : MatchmakingManager)
    (w : List QueueEntry) (h : mm.FindMatchCandidates env = some (some w)) :
    ∀ e ∈ w, ∃ b ∈ mm.m_queuesBySkill, e ∈ b.2 := by
  obtain ⟨j, _, hw, _⟩ := FindMatchCandidates_some env mm w h
  intro e he
  rw [hw] at he
  have h1 : e ∈ env.sort (collectPlayers (mm.m_config.playersPerTeam * 2 % 2 ^ 64)
      mm.m_queuesBySkill 0 []) := List.mem_of_mem_drop (List.mem_of_mem_take he)
  have h2 := ((hv.1 _).1.mem_iff).mp h1
  rcases collectPlayers_mem _ _ _ _ e h2 with h3 | h3
  · simp at h3
  · exact h3

theorem candidates_length (env : Env) (hv : env.Valid) (mm : MatchmakingManager)
    (w : List QueueEntry) (h : mm.FindMatchCandidates env = some (some w)) :
    w.length = mm.m_config.playersPerTeam * 2 % 2 ^ 64 := by
  obtain ⟨j, hj, hw, _⟩ := FindMatchCandidates_some env mm w h
  have hl := (hv.1 (collectPlayers (mm.m_config.playersPerTeam * 2 % 2 ^ 64)
      mm.m_queuesBySkill 0 [])).1.length_eq
  rw [hw, List.length_take, List.length_drop, hl]
  omega

theorem candidates_spread (env : Env) (hv : env.Valid) (mm : MatchmakingManager)
    (hmmr : ∀ b ∈ mm.m_queuesBySkill, ∀ e ∈ b.2, e.skillRating.mmr < 2 ^ 32)
    (w : List QueueEntry) (h : mm.FindMatchCandidates env = some (some w)) :
    ∀ a ∈ w, ∀ b ∈ w,
      a.skillRating.mmr - b.skillRating.mmr ≤ 2 * mm.m_config.baseMMRSpread := by
  obtain ⟨j, hj, hw, front, back, hf, hb, hsp, _⟩ := FindMatchCandidates_some env mm w h
  have hsorted : w.Pairwise (fun a b => a.skillRating.mmr ≤ b.skillRating.mmr) := by
    rw [hw]
    exact ((hv.1 _).2.sublist (List.drop_sublist _ _)).sublist (List.take_sublist _ _)
  have hmem := candidates_mem_queue env hv mm w h
  have hfront := sorted_head_le w hsorted front hf
  have hback := sorted_le_last w hsorted back hb
  have hbm : back ∈ w := List.mem_of_getLast?_eq_some hb
  have hb32 : back.skillRating.mmr < 2 ^ 32 := by
    obtain ⟨b, hb1, hb2⟩ := hmem back hbm
    exact hmmr b hb1 back hb2
  have hfb : front.skillRating.mmr ≤ back.skillRating.mmr := hfront back hbm
  have hmod : mm.m_config.baseMMRSpread * 2 % 2 ^ 32 ≤ mm.m_config.baseMMRSpread * 2 :=
    Nat.mod_le _ _
  intro a ha b hb'
  have h1 := hfront b hb'
  have h2 := hback a ha
  have h3 : (back.skillRating.mmr + 2 ^ 32 - front.skillRating.mmr) % 2 ^ 32
      = back.skillRating.mmr - front.skillRating.mmr := by
    have : back.skillRating.mmr + 2 ^ 32 - front.skillRating.mmr
        = (back.skillRating.mmr - front.skillRating.mmr) + 2 ^ 32 := by omega
    rw [this, Nat.add_mod_right, Nat.mod_eq_of_lt (by omega)]
  omega

/-- C6 (counterexample): with 2^63 + 1 players per team the 64-bit product
`playersPerTeam * 2` is 2, and on a queue of two players of mmr 1000
`FindMatchCandidates` returns the window of these two, which has not
`2 * playersPerTeam` entries. -/
theorem C6_window_spread_counterexample :
    wrapWorld.mm.m_config.playersPerTeam * 2 % 2 ^ 64 = 2 ∧
    wrapWorld.mm.FindMatchCandidates sampleEnv
      = some (some [samplePlayer 1 1000, samplePlayer 2 1000]) ∧
    [samplePlayer 1 1000, samplePlayer 2 1000].length
      ≠ 2 * wrapWorld.mm.m_config.playersPerTeam := by
  decide

/-- C6 (amended): every window `FindMatchCandidates` returns has exactly
`playersPerTeam * 2` entries, the product taken on 64 bits as the code does, which is
`2 * playersPerTeam` whenever that is below 2^64; and any two of its members differ in
mmr by at most `2 * baseMMRSpread` (`std::sort` meeting its contract, mmr values being
`uint32_t`); and in the scenario of five players at 800 to 840 and five at 1600 to 1640
no window is returned (in either order of the two buckets) and
`ProcessMatchmakingQueue` leaves the state as it was, all ten still queued. -/
theorem C6_window_spread :
    (∀ (env : Env) (mm : MatchmakingManager) (w : List QueueEntry),
      env.Valid →
      (∀ b ∈ mm.m_queuesBySkill, ∀ e ∈ b.2, e.skillRating.mmr < 2 ^ 32) →
      mm.FindMatchCandidates env = some (some w) →
      w.length = mm.m_config.playersPerTeam * 2 % 2 ^ 64 ∧
      (2 * mm.m_config.playersPerTeam < 2 ^ 64 →
        w.length = 2 * mm.m_config.playersPerTeam) ∧
      ∀ a ∈ w, ∀ b ∈ w,
        a.skillRating.mmr - b.skillRating.mmr ≤ 2 * mm.m_config.baseMMRSpread) ∧
    (∀ (env : Env) (gsm : GameServerManager),
      MatchmakingManager.FindMatchCandidates env { m_queuesBySkill := spreadQueue } = some none ∧
      MatchmakingManager.FindMatchCandidates env { m_queuesBySkill := spreadQueue.reverse }
        = some none ∧
      ProcessMatchmakingQueue env { mm := { m_queuesBySkill := spreadQueue }, gsm := gsm }
        = Except.ok { mm := { m_queuesBySkill := spreadQueue }, gsm := gsm } ∧
      queuedIds spreadQueue = [1, 2, 3, 4, 5, 6, 7, 8, 9, 10]) := by
  refine ⟨fun env mm w hv hmmr h =>
    ⟨candidates_length env hv mm w h, ?_, candidates_spread env hv mm hmmr w h⟩, ?_⟩
  · intro hb
    rw [candidates_length env hv mm w h]
    omega
  intro env gsm
  exact ⟨rfl, rfl, rfl, by decide⟩

theorem queuedIds_cons (b : Nat × List QueueEntry) (qs : List (Nat × List QueueEntry)) :
    queuedIds (b :: qs) = b.2.map (fun e => e.steamId) ++ queuedIds qs := by
  simp [queuedIds]

theorem removeLoop_sublist (steamId : Nat) (qs : List (Nat × List QueueEntry)) :
    (queuedIds (removeLoop steamId qs).1).Sublist (queuedIds qs) := by
  induction qs with
  | nil => simp [removeLoop]
  | cons b rest ih =>
    obtain ⟨key, queue⟩ := b
    simp only [removeLoop]
    split
    · rw [queuedIds_cons, queuedIds_cons]
      exact List.Sublist.append ((List.filter_sublist _).map _) (List.Sublist.refl _)
    · rw [queuedIds_cons, queuedIds_cons]
      exact List.Sublist.append (List.Sublist.refl _) ih

theorem removeLoop_not_mem (steamId : Nat) (qs : List (Nat × List QueueEntry))
    (h : (queuedIds qs).Nodup) : steamId ∉ queuedIds (removeLoop steamId qs).1 := by
  induction qs with
  | nil => simp [removeLoop, queuedIds]
  | cons b rest ih =>
    obtain ⟨key, queue⟩ := b
    rw [queuedIds_cons] at h
    have hparts := List.nodup_append.mp h
    simp only [removeLoop]
    split
    · rename_i hany
      rw [queuedIds_cons, List.mem_append]
      rintro (h1 | h1)
      · simp only [List.mem_map, List.mem_filter] at h1
        obtain ⟨e, ⟨_, he⟩, rfl⟩ := h1
        simp at he
      · obtain ⟨e, he, heq⟩ := List.any_eq_true.mp hany
        have : steamId ∈ queue.map (fun e => e.steamId) :=
          List.mem_map.mpr ⟨e, he, by simpa using heq⟩
        exact hparts.2.2 this h1
    · rename_i hany
      rw [queuedIds_cons, List.mem_append]
      rintro (h1 | h1)
      · apply hany
        obtain ⟨e, he, heq⟩ := List.mem_map.mp h1
        exact List.any_eq_true.mpr ⟨e, he, by simpa using heq⟩
      · exact ih hparts.2.1 h1

theorem pushExisting_perm (bracket : Nat) (entry : QueueEntry) :
    ∀ qs : List (Nat × List QueueEntry), (umFind bracket qs).isSome = true →
      (queuedIds (pushExisting bracket entry qs)).Perm (entry.steamId :: queuedIds qs) := by
  intro qs
  induction qs with
  | nil => intro h; simp [umFind] at h
  | cons b rest ih =>
    obtain ⟨key, queue⟩ := b
    intro h
    simp only [pushExisting]
    split
    · rw [queuedIds_cons, queuedIds_cons]
      simp only [List.map_append, List.map_cons, List.map_nil, List.append_assoc,
        List.singleton_append]
      exact List.perm_middle
    · rename_i hne
      simp only [umFind, hne, if_false] at h
      rw [queuedIds_cons, queuedIds_cons]
      exact ((ih h).append_left _).trans List.perm_middle

theorem bucketPush_perm (env : Env) (hv : env.Valid) (bracket : Nat) (entry : QueueEntry)
    (qs : List (Nat × List QueueEntry)) :
    (queuedIds (bucketPush env bracket entry qs)).Perm (entry.steamId :: queuedIds qs) := by
  unfold bucketPush
  split
  · rename_i h
    exact pushExisting_perm bracket entry qs h
  · have h1 : (queuedIds (env.rehash ((bracket, [entry]) :: qs))).Perm
        (queuedIds ((bracket, [entry]) :: qs)) := List.Perm.flatMap_right _ (hv.2 _)
    rw [queuedIds_cons] at h1
    simpa using h1

theorem eraseStep_sublist (p : QueueEntry → Bool) (qs : List (Nat × List QueueEntry)) :
    (queuedIds (qs.map (fun b => (b.1, b.2.filter p)))).Sublist (queuedIds qs) := by
  induction qs with
  | nil => simp [queuedIds]
  | cons b rest ih =>
    rw [List.map_cons, queuedIds_cons, queuedIds_cons]
    exact List.Sublist.append ((List.filter_sublist _).map _) ih

theorem eraseCandidates_sublist (candidates : List QueueEntry) :
    ∀ qs : List (Nat × List QueueEntry),
      (queuedIds (eraseCandidates candidates qs)).Sublist (queuedIds qs) := by
  induction candidates with
  | nil => intro qs; exact List.Sublist.refl _
  | cons c cs ih =>
    intro qs
    simp only [eraseCandidates, List.foldl_cons]
    exact (ih _).trans (eraseStep_sublist _ qs)

theorem queueSize_cons (b : Nat × List QueueEntry) (qs : List (Nat × List QueueEntry)) :
    queueSize (b :: qs) = b.2.length + queueSize qs := by
  simp [queueSize]

theorem eraseStep_size_le (p : QueueEntry → Bool) (qs : List (Nat × List QueueEntry)) :
    queueSize (qs.map (fun b => (b.1, b.2.filter p))) ≤ queueSize qs := by
  induction qs with
  | nil => simp [queueSize]
  | cons b rest ih =>
    rw [List.map_cons, queueSize_cons, queueSize_cons]
    have := List.length_filter_le p b.2
    simp only
    omega

theorem eraseStep_size_lt (p : QueueEntry → Bool) (qs : List (Nat × List QueueEntry))
    (h : ∃ b ∈ qs, ∃ e ∈ b.2, p e = false) :
    queueSize (qs.map (fun b => (b.1, b.2.filter p))) < queueSize qs := by
  induction qs with
  | nil => obtain ⟨b, hb, _⟩ := h; simp at hb
  | cons b rest ih =>
    rw [List.map_cons, queueSize_cons, queueSize_cons]
    obtain ⟨b', hb', e, he, hpe⟩ := h
    rcases List.mem_cons.mp hb' with rfl | hb'
    · have h1 : (b'.2.filter p).length < b'.2.length := by
        apply List.length_filter_lt_length_iff_exists.mpr
        exact ⟨e, he, by simp [hpe]⟩
      have h2 := eraseStep_size_le p rest
      simp only
      omega
    · have h1 := List.length_filter_le p b.2
      have h2 := ih ⟨b', hb', e, he, hpe⟩
      simp only
      omega

theorem eraseCandidates_size_le (candidates : List QueueEntry) :
    ∀ qs : List (Nat × List QueueEntry),
      queueSize (eraseCandidates candidates qs) ≤ queueSize qs := by
  induction candidates with
  | nil => intro qs; exact le_refl _
  | cons c cs ih =>
    intro qs
    simp only [eraseCandidates, List.foldl_cons]
    exact le_trans (ih _) (eraseStep_size_le _ qs)

theorem eraseCandidates_size_lt (c : QueueEntry) (cs : List QueueEntry)
    (qs : List (Nat × List QueueEntry)) (h : ∃ b ∈ qs, c ∈ b.2) :
    queueSize (eraseCandidates (c :: cs) qs) < queueSize qs := by
  simp only [eraseCandidates, List.foldl_cons]
  apply lt_of_le_of_lt (eraseCandidates_size_le cs _)
  apply eraseStep_size_lt
  obtain ⟨b, hb, hc⟩ := h
  exact ⟨b, hb, c, hc, by simp⟩

theorem slideWindow_defined (mm : MatchmakingManager) (env : Env) (l : List QueueEntry)
    (ms : Nat) (hms : 1 ≤ ms) :
    ∀ n i, i + n + ms ≤ l.length + 1 → ∃ r, slideWindow mm env l ms n i = some r := by
  intro n
  induction n with
  | zero => intro i _; exact ⟨none, rfl⟩
  | succ n ih =>
    intro i hi
    have hne : (l.drop i).take ms ≠ [] := by
      intro h
      have := congrArg List.length h
      rw [List.length_take, List.length_drop] at this
      simp only [List.length_nil] at this
      omega
    unfold slideWindow
    simp only
    cases h1 : ((l.drop i).take ms).head? with
    | none => exact absurd (List.head?_eq_none_iff.mp h1) hne
    | some front =>
      cases h2 : ((l.drop i).take ms).getLast? with
      | none => exact absurd (List.getLast?_eq_none_iff.mp h2) hne
      | some back =>
        simp only
        split
        · exact ih (i + 1) (by omega)
        · split
          · exact ⟨_, rfl⟩
          · exact ih (i + 1) (by omega)

theorem FindMatchCandidates_defined (env : Env) (hv : env.Valid) (mm : MatchmakingManager)
    (hp : 1 ≤ mm.m_config.playersPerTeam * 2 % 2 ^ 64) :
    ∃ r, mm.FindMatchCandidates env = some r := by
  unfold MatchmakingManager.FindMatchCandidates
  simp only
  split
  · exact ⟨none, rfl⟩
  · rename_i hlen
    apply slideWindow_defined mm env _ _ (by omega)
    rw [(hv.1 _).1.length_eq]
    omega

theorem ProcessFuel_preserves (env : Env) :
    ∀ (fuel : Nat) (w w' : World), ProcessMatchmakingQueueFuel env fuel w = Except.ok w' →
      w'.mm.m_config = w.mm.m_config ∧ w'.gsm = w.gsm ∧
      (queuedIds w'.mm.m_queuesBySkill).Sublist (queuedIds w.mm.m_queuesBySkill) := by
  intro fuel
  induction fuel with
  | zero => intro w w' h; simp [ProcessMatchmakingQueueFuel] at h
  | succ fuel ih =>
    intro w w' h
    unfold ProcessMatchmakingQueueFuel at h
    split at h
    · simp at h
    · simp only [Except.ok.injEq] at h
      subst h
      exact ⟨rfl, rfl, List.Sublist.refl _⟩
    · rename_i candidates hfind
      split at h
      · simp only [Except.ok.injEq] at h
        subst h
        exact ⟨rfl, rfl, List.Sublist.refl _⟩
      · rename_i m hcreate
        split at h
        · simp only [Except.ok.injEq] at h
          subst h
          exact ⟨rfl, rfl, List.Sublist.refl _⟩
        · rename_i server hserver
          obtain ⟨h1, h2, h3⟩ := ih _ _ h
          exact ⟨h1, h2, h3.trans (eraseCandidates_sublist candidates _)⟩

theorem ProcessFuel_total (env : Env) (hv : env.Valid) :
    ∀ (fuel : Nat) (w : World), 1 ≤ w.mm.m_config.playersPerTeam * 2 % 2 ^ 64 →
      queueSize w.mm.m_queuesBySkill < fuel →
      ∃ w', ProcessMatchmakingQueueFuel env fuel w = Except.ok w' := by
  intro fuel
  induction fuel with
  | zero => intro w _ h; omega
  | succ fuel ih =>
    intro w hp hsize
    obtain ⟨r, hr⟩ := FindMatchCandidates_defined env hv w.mm hp
    unfold ProcessMatchmakingQueueFuel
    rw [hr]
    cases r with
    | none => exact ⟨w, rfl⟩
    | some candidates =>
      simp only
      split
      · exact ⟨_, rfl⟩
      · rename_i m hcreate
        split
        · exact ⟨_, rfl⟩
        · rename_i server hserver
          apply ih
          · exact hp
          · obtain ⟨j, _, _, front, back, hf, _⟩ := FindMatchCandidates_some env w.mm candidates hr
            have hmem := candidates_mem_queue env hv w.mm candidates hr
            cases candidates with
            | nil => simp at hf
            | cons c cs =>
              have hlt := eraseCandidates_size_lt c cs w.mm.m_queuesBySkill
                (hmem c (List.mem_cons_self _ _))
              simp only [commitMatch]
              omega

/-- The recursion budget of `ProcessMatchmakingQueue` is never used up: with a match
size (`playersPerTeam * 2` on 64 bits) of at least 1 and `std::sort` meeting its
contract the call returns a state. -/
theorem ProcessMatchmakingQueue_total (env : Env) (hv : env.Valid) (w : World)
    (hp : 1 ≤ w.mm.m_config.playersPerTeam * 2 % 2 ^ 64) :
    ∃ w', ProcessMatchmakingQueue env w = Except.ok w' :=
  ProcessFuel_total env hv _ w hp (Nat.lt_succ_self _)

theorem AddPlayerToQueue_ok (env : Env) (hv : env.Valid) (w : World)
    (now steamId socket : Nat) (rating : PlayerSkillRating) (maps : List String)
    (hinv : (queuedIds w.mm.m_queuesBySkill).Nodup) :
    (1 ≤ w.mm.m_config.playersPerTeam * 2 % 2 ^ 64 →
      ∃ r, AddPlayerToQueue env w now steamId socket rating maps = Except.ok r) ∧
    (∀ r, AddPlayerToQueue env w now steamId socket rating maps = Except.ok r →
      r.1.mm.m_config = w.mm.m_config ∧ r.1.gsm = w.gsm ∧
      (queuedIds r.1.mm.m_queuesBySkill).Nodup) := by
  unfold AddPlayerToQueue
  by_cases h0 : steamId = 0
  · simp only [h0, if_true]
    refine ⟨fun _ => ⟨_, rfl⟩, ?_⟩
    intro r hr
    simp only [Except.ok.injEq] at hr
    subst hr
    exact ⟨rfl, rfl, hinv⟩
  · simp only [h0, if_false]
    have hnodup : (queuedIds (bucketPush env (env.GetSkillBracket rating.mmr)
        { QueueEntry.create steamId socket now with
          skillRating := rating
          preferredMaps :=
            (if maps.isEmpty then (w.mm.RemovePlayerFromQueue steamId).1.m_config.mapPool
              else maps).filter
              (fun map => (w.mm.RemovePlayerFromQueue steamId).1.m_config.mapPool.contains map) }
        (w.mm.RemovePlayerFromQueue steamId).1.m_queuesBySkill)).Nodup := by
      rw [(bucketPush_perm env hv _ _ _).nodup_iff, List.nodup_cons]
      refine ⟨?_, hinv.sublist (removeLoop_sublist steamId _)⟩
      exact removeLoop_not_mem steamId _ hinv
    constructor
    · intro hp
      obtain ⟨w', hw'⟩ := ProcessMatchmakingQueue_total env hv
        { w with mm := { (w.mm.RemovePlayerFromQueue steamId).1 with
            m_queuesBySkill := bucketPush env (env.GetSkillBracket rating.mmr)
              { QueueEntry.create steamId socket now with
                skillRating := rating
                preferredMaps :=
                  (if maps.isEmpty then (w.mm.RemovePlayerFromQueue steamId).1.m_config.mapPool
                    else maps).filter
                    (fun map =>
                      (w.mm.RemovePlayerFromQueue steamId).1.m_config.mapPool.contains map) }
              (w.mm.RemovePlayerFromQueue steamId).1.m_queuesBySkill } } hp
      simp only [hw']
      exact ⟨_, rfl⟩
    · intro r hr
      split at hr
      · simp at hr
      · rename_i w2 hw2
        simp only [Except.ok.injEq] at hr
        subst hr
        obtain ⟨h1, h2, h3⟩ := ProcessFuel_preserves env _ _ _ hw2
        exact ⟨h1, h2, hnodup.sublist h3⟩

theorem sampleEnv_valid : sampleEnv.Valid := by
  haveI : IsTotal QueueEntry (fun a b => a.skillRating.mmr ≤ b.skillRating.mmr) :=
    ⟨fun a b => Nat.le_total _ _⟩
  haveI : IsTrans QueueEntry (fun a b => a.skillRating.mmr ≤ b.skillRating.mmr) :=
    ⟨fun a b c h1 h2 => Nat.le_trans h1 h2⟩
  refine ⟨fun l => ⟨List.perm_insertionSort _ l, ?_⟩, fun qs => List.Perm.refl _⟩
  exact List.sorted_insertionSort (fun a b => a.skillRating.mmr ≤ b.skillRating.mmr) l

/-- C5 (failing input): on the queue of the "happy match" scenario (ten players, mmrs
980 to 1070, buckets 9 and 10, five per team, spread 300) `FindMatchCandidates`
returns no window, whichever of the two buckets the hash table lists first and
whatever sort and compatibility test are used, while the reference selection returns
the ten players. -/
theorem C5_candidate_selection_failing_input :
    (∀ env : Env,
      MatchmakingManager.FindMatchCandidates env { m_queuesBySkill := happyQueue } = some none) ∧
    (∀ env : Env,
      MatchmakingManager.FindMatchCandidates env { m_queuesBySkill := happyQueue.reverse }
        = some none) ∧
    (FindMatchCandidatesRef sampleEnv { m_queuesBySkill := happyQueue }).map
        (fun w => w.map (fun e => (e.steamId, e.skillRating.mmr)))
      = some [(1, 980), (2, 990), (3, 1000), (4, 1010), (5, 1020), (6, 1030), (7, 1040),
          (8, 1050), (9, 1060), (10, 1070)] := by
  refine ⟨fun env => rfl, fun env => rfl, by decide⟩

/-- C6 (witness): teams of one and four players of mmr 1000 in one bucket; the window
returned is the first two of them. -/
theorem C6_window_spread_witness :
    [samplePlayer 1 1000, samplePlayer 2 1000].length
        = 2 * oneServerWorld.mm.m_config.playersPerTeam ∧
    ∀ a ∈ [samplePlayer 1 1000, samplePlayer 2 1000],
      ∀ b ∈ [samplePlayer 1 1000, samplePlayer 2 1000],
        a.skillRating.mmr - b.skillRating.mmr
          ≤ 2 * oneServerWorld.mm.m_config.baseMMRSpread :=
  ⟨(C6_window_spread.1 sampleEnv oneServerWorld.mm [samplePlayer 1 1000, samplePlayer 2 1000]
      sampleEnv_valid (by decide) (by decide)).2.1 (by decide),
   (C6_window_spread.1 sampleEnv oneServerWorld.mm [samplePlayer 1 1000, samplePlayer 2 1000]
      sampleEnv_valid (by decide) (by decide)).2.2⟩

theorem runOps_ok (env : Env) (hv : env.Valid) :
    ∀ (ops : List QueueOp) (w : World), (queuedIds w.mm.m_queuesBySkill).Nodup →
      (1 ≤ w.mm.m_config.playersPerTeam * 2 % 2 ^ 64 →
        ∃ w', runOps env ops w = Except.ok w') ∧
      (∀ w', runOps env ops w = Except.ok w' → (queuedIds w'.mm.m_queuesBySkill).Nodup) := by
  intro ops
  induction ops with
  | nil =>
    intro w hinv
    refine ⟨fun _ => ⟨w, rfl⟩, ?_⟩
    intro w' h
    simp only [runOps, Except.ok.injEq] at h
    subst h
    exact hinv
  | cons op ops ih =>
    intro w hinv
    cases op with
    | add now steamId socket rating maps =>
      obtain ⟨hex, hpres⟩ := AddPlayerToQueue_ok env hv w now steamId socket rating maps hinv
      constructor
      · intro hp
        obtain ⟨r, hr⟩ := hex hp
        obtain ⟨hcfg, _, hnd⟩ := hpres r hr
        simp only [runOps, hr]
        exact (ih r.1 hnd).1 (by rw [hcfg]; exact hp)
      · intro w' h
        simp only [runOps] at h
        split at h
        · simp at h
        · rename_i r hr
          exact (ih r.1 (hpres r hr).2.2).2 w' h
    | remove steamId =>
      have hnd : (queuedIds (w.mm.RemovePlayerFromQueue steamId).1.m_queuesBySkill).Nodup :=
        hinv.sublist (removeLoop_sublist steamId _)
      constructor
      · intro hp
        simp only [runOps]
        exact (ih _ hnd).1 hp
      · intro w' h
        simp only [runOps] at h
        exact (ih _ hnd).2 w' h

/-- C7: starting from an empty queue, after every sequence of `AddPlayerToQueue` and
`RemovePlayerFromQueue` calls each steam id has at most one entry across all skill
buckets; and whenever the match size, the 64-bit product `playersPerTeam * 2`, is not
0, every such sequence runs to a state (`std::sort` and the hash table meeting their
contracts). -/
theorem C7_queue_uniqueness (env : Env) (hv : env.Valid) (cfg : MatchmakingConfig)
    (gsm : GameServerManager) (ops : List QueueOp) :
    (∀ w, runOps env ops { mm := { m_config := cfg }, gsm := gsm } = Except.ok w →
      ∀ id, (queuedIds w.mm.m_queuesBySkill).count id ≤ 1) ∧
    (1 ≤ cfg.playersPerTeam * 2 % 2 ^ 64 →
      ∃ w, runOps env ops { mm := { m_config := cfg }, gsm := gsm } = Except.ok w) := by
  have h := runOps_ok env hv ops { mm := { m_config := cfg }, gsm := gsm }
    (by simp [queuedIds])
  exact ⟨fun w hw => List.nodup_iff_count_le_one.mp (h.2 w hw), h.1⟩

/-- C7 (witness): the run `sampleOps` from the empty queue with the default
configuration ends with player 1 alone in bucket 12. -/
theorem C7_queue_uniqueness_witness :
    (∀ id, (queuedIds [(12, [samplePlayer 1 1200]), (11, []), (10, [])]).count id ≤ 1) ∧
    ∃ w, runOps sampleEnv sampleOps { mm := { m_config := {} }, gsm := {} } = Except.ok w :=
  ⟨(C7_queue_uniqueness sampleEnv sampleEnv_valid {} {} sampleOps).1
      { mm := { m_queuesBySkill := [(12, [samplePlayer 1 1200]), (11, []), (10, [])] } }
      rfl,
   (C7_queue_uniqueness sampleEnv sampleEnv_valid {} {} sampleOps).2 (by decide)⟩

theorem umFind_umInsert_self {β : Type} (k : Nat) (v : β) (l : List (Nat × β)) :
    umFind k (umInsert k v l) = some v := by
  induction l with
  | nil => simp [umInsert, umFind]
  | cons x xs ih =>
    obtain ⟨k', v'⟩ := x
    by_cases h : k' = k
    · simp [umInsert, umFind, h]
    · simp [umInsert, umFind, h, ih]

theorem umFind_umInsert_ne {β : Type} (k k' : Nat) (v : β) (l : List (Nat × β))
    (hne : k' ≠ k) : umFind k' (umInsert k v l) = umFind k' l := by
  induction l with
  | nil => simp [umInsert, umFind, hne.symm]
  | cons x xs ih =>
    obtain ⟨k'', v''⟩ := x
    by_cases h : k'' = k
    · subst h
      simp [umInsert, umFind, hne.symm]
    · by_cases h' : k'' = k'
      · subst h'
        simp [umInsert, umFind, h]
      · simp [umInsert, umFind, h, h', ih]

theorem mapPlayersToMatch_find (matchId k : Nat) :
    ∀ (candidates : List QueueEntry) (index : List (Nat × Nat)),
      (k ∈ candidates.map (fun c => c.steamId) ∨ umFind k index = some matchId) →
      umFind k (mapPlayersToMatch candidates matchId index) = some matchId := by
  intro candidates
  induction candidates with
  | nil =>
    intro index h
    rcases h with h | h
    · simp at h
    · exact h
  | cons c cs ih =>
    intro index h
    simp only [mapPlayersToMatch, List.foldl_cons]
    apply ih
    by_cases hk : k = c.steamId
    · right
      rw [hk]
      exact umFind_umInsert_self _ _ _
    · rcases h with h | h
      · left
        simp only [List.map_cons, List.mem_cons] at h
        rcases h with h | h
        · exact absurd h hk
        · exact h
      · right
        rw [umFind_umInsert_ne _ _ _ _ hk]
        exact h

theorem eraseCandidates_eq (candidates : List QueueEntry) :
    ∀ qs : List (Nat × List QueueEntry),
      eraseCandidates candidates qs
        = qs.map (fun b =>
            (b.1, b.2.filter (fun e => decide (∀ c ∈ candidates, e.steamId ≠ c.steamId)))) := by
  induction candidates with
  | nil =>
    intro qs
    simp [eraseCandidates]
  | cons c cs ih =>
    intro qs
    simp only [eraseCandidates, List.foldl_cons]
    have := ih (qs.map (fun b => (b.1, b.2.filter (fun e => !(e.steamId == c.steamId)))))
    simp only [eraseCandidates] at this
    rw [this, List.map_map]
    apply List.map_congr_left
    intro b _
    simp only [Function.comp, List.filter_filter, Prod.mk.injEq, true_and]
    apply List.filter_congr
    intro e _
    simp only [List.forall_mem_cons, Bool.decide_and]
    cases h : (e.steamId == c.steamId) <;> simp_all [Bool.and_comm]

/-- C8: when `FindMatchCandidates` returns a window but `FindAvailableServer` returns
no server, `ProcessMatchmakingQueue` returns with the skill buckets, the active-match
table, the player→match index and the server registry exactly as before, and every
candidate is still queued. -/
theorem C8_no_server_available (env : Env) (hv : env.Valid) (w : World)
    (candidates : List QueueEntry)
    (hc : w.mm.FindMatchCandidates env = some (some candidates))
    (hs : w.gsm.FindAvailableServer = none) :
    ∃ w', ProcessMatchmakingQueue env w = Except.ok w' ∧
      w'.mm.m_queuesBySkill = w.mm.m_queuesBySkill ∧
      w'.mm.m_activeMatches = w.mm.m_activeMatches ∧
      w'.mm.m_playerToMatch = w.mm.m_playerToMatch ∧
      w'.gsm = w.gsm ∧
      ∀ c ∈ candidates, ∃ b ∈ w'.mm.m_queuesBySkill, c ∈ b.2 := by
  have hmem := candidates_mem_queue env hv w.mm candidates hc
  unfold ProcessMatchmakingQueue ProcessMatchmakingQueueFuel
  rw [hc]
  simp only [hs]
  split
  · exact ⟨_, rfl, rfl, rfl, rfl, rfl, hmem⟩
  · exact ⟨_, rfl, rfl, rfl, rfl, rfl, hmem⟩

/-- C8 (witness): teams of one, four queued players and an empty server registry. -/
theorem C8_no_server_available_witness :
    ∃ w', ProcessMatchmakingQueue sampleEnv noServerWorld = Except.ok w' ∧
      w'.mm.m_queuesBySkill = noServerWorld.mm.m_queuesBySkill ∧
      w'.mm.m_activeMatches = noServerWorld.mm.m_activeMatches ∧
      w'.mm.m_playerToMatch = noServerWorld.mm.m_playerToMatch ∧
      w'.gsm = noServerWorld.gsm ∧
      ∀ c ∈ [samplePlayer 1 1000, samplePlayer 2 1000],
        ∃ b ∈ w'.mm.m_queuesBySkill, c ∈ b.2 :=
  C8_no_server_available sampleEnv sampleEnv_valid noServerWorld
    [samplePlayer 1 1000, samplePlayer 2 1000] (by decide) (by decide)

/-- C9 (failing input): the commit step never writes to the server registry, and with
teams of one, four queued players and a single available server
`ProcessMatchmakingQueue` stores two matches, both on that server, which is still
marked available afterwards. -/
theorem C9_server_reservation_failing_input :
    (∀ (w : World) (candidates : List QueueEntry) (m : Match) (nextId : Nat)
        (server : ServerInfo), (commitMatch w candidates m nextId server).gsm = w.gsm) ∧
    (ProcessMatchmakingQueue sampleEnv oneServerWorld).toOption.map
        (fun w =>
          (w.mm.m_activeMatches.map (fun p => (p.1, p.2.serverAddress, p.2.serverPort)),
           w.gsm.m_servers.map (fun s => (s.serverSteamId, s.isAvailable, s.currentMatchId))))
      = some ([(2, "10.0.0.1", 27015), (3, "10.0.0.1", 27015)], [(77, true, 0)]) := by
  refine ⟨fun _ _ _ _ _ => rfl, by decide⟩

/-- C10: when `ProcessMatchmakingQueue` has a window, a match from `CreateMatch` and an
available server, it goes on from the committed state, in which the active-match table
holds the match under its id with the server's address and port, no bucket holds an
entry with a candidate's steam id, the player→match index maps every candidate's steam
id to the match id, and every bucket is its former self without those entries, in the
former order. -/
theorem C10_match_commit (env : Env) (w : World) (fuel : Nat) (candidates : List QueueEntry)
    (m : Match) (server : ServerInfo)
    (hc : w.mm.FindMatchCandidates env = some (some candidates))
    (hm : (env.CreateMatch w.mm candidates).1 = some m)
    (hs : w.gsm.FindAvailableServer = some server) :
    ProcessMatchmakingQueueFuel env (fuel + 1) w
      = ProcessMatchmakingQueueFuel env fuel
          (commitMatch w candidates m (env.CreateMatch w.mm candidates).2 server) ∧
    umFind m.matchId
        (commitMatch w candidates m (env.CreateMatch w.mm candidates).2 server).mm.m_activeMatches
      = some { m with serverAddress := server.address, serverPort := server.port } ∧
    (∀ b ∈ (commitMatch w candidates m (env.CreateMatch w.mm candidates).2
          server).mm.m_queuesBySkill,
      ∀ e ∈ b.2, ∀ c ∈ candidates, e.steamId ≠ c.steamId) ∧
    (∀ c ∈ candidates,
      umFind c.steamId
          (commitMatch w candidates m (env.CreateMatch w.mm candidates).2
            server).mm.m_playerToMatch
        = some m.matchId) ∧
    (commitMatch w candidates m (env.CreateMatch w.mm candidates).2 server).mm.m_queuesBySkill
      = w.mm.m_queuesBySkill.map (fun b =>
          (b.1, b.2.filter (fun e => decide (∀ c ∈ candidates, e.steamId ≠ c.steamId)))) := by
  refine ⟨?_, ?_, ?_, ?_, ?_⟩
  · conv_lhs => unfold ProcessMatchmakingQueueFuel
    rw [hc]
    simp only [hm, hs]
  · simp only [commitMatch]
    exact umFind_umInsert_self _ _ _
  · intro b hb e he c hcand
    simp only [commitMatch, eraseCandidates_eq] at hb
    obtain ⟨b0, _, rfl⟩ := List.mem_map.mp hb
    simp only [List.mem_filter, decide_eq_true_eq] at he
    exact he.2 c hcand
  · intro c hcand
    simp only [commitMatch]
    exact mapPlayersToMatch_find _ _ _ _ (Or.inl (List.mem_map.mpr ⟨c, hcand, rfl⟩))
  · simp only [commitMatch, eraseCandidates_eq]

/-- C10 (witness): teams of one, four queued players of mmr 1000 and one available
server; the window is the first two players. -/
theorem C10_match_commit_witness :
    ProcessMatchmakingQueueFuel sampleEnv (2 + 1) oneServerWorld
      = ProcessMatchmakingQueueFuel sampleEnv 2
          (commitMatch oneServerWorld samplePair sampleMatch
            (sampleEnv.CreateMatch oneServerWorld.mm samplePair).2 sampleServer) ∧
    umFind sampleMatch.matchId
        (commitMatch oneServerWorld samplePair sampleMatch
          (sampleEnv.CreateMatch oneServerWorld.mm samplePair).2 sampleServer).mm.m_activeMatches
      = some { sampleMatch with
          serverAddress := sampleServer.address, serverPort := sampleServer.port } ∧
    (∀ b ∈ (commitMatch oneServerWorld samplePair sampleMatch
          (sampleEnv.CreateMatch oneServerWorld.mm samplePair).2
          sampleServer).mm.m_queuesBySkill,
      ∀ e ∈ b.2, ∀ c ∈ samplePair, e.steamId ≠ c.steamId) ∧
    (∀ c ∈ samplePair,
      umFind c.steamId
          (commitMatch oneServerWorld samplePair sampleMatch
            (sampleEnv.CreateMatch oneServerWorld.mm samplePair).2
            sampleServer).mm.m_playerToMatch
        = some sampleMatch.matchId) ∧
    (commitMatch oneServerWorld samplePair sampleMatch
        (sampleEnv.CreateMatch oneServerWorld.mm samplePair).2 sampleServer).mm.m_queuesBySkill
      = oneServerWorld.mm.m_queuesBySkill.map (fun b =>
          (b.1, b.2.filter (fun e => decide (∀ c ∈ samplePair, e.steamId ≠ c.steamId)))) :=
  C10_match_commit sampleEnv oneServerWorld 2 samplePair sampleMatch sampleServer
    (by decide) (by decide) (by decide)

/-! ## Properties of the match cleanup -/

theorem umFind_umErase_self {β : Type} (k : Nat) (l : List (Nat × β)) :
    umFind k (umErase k l) = none := by
  induction l with
  | nil => rfl
  | cons x xs ih =>
    obtain ⟨k', v⟩ := x
    by_cases h : k' = k
    · subst h
      simpa [umErase] using ih
    · have : umErase k ((k', v) :: xs) = (k', v) :: umErase k xs := by
        simp [umErase, h]
      rw [this]
      simp [umFind, h, ih]

theorem umFind_umErase_ne {β : Type} (k k' : Nat) (l : List (Nat × β)) (hne : k' ≠ k) :
    umFind k' (umErase k l) = umFind k' l := by
  induction l with
  | nil => rfl
  | cons x xs ih =>
    obtain ⟨k'', v⟩ := x
    by_cases h : k'' = k
    · subst h
      have : umErase k'' ((k'', v) :: xs) = umErase k'' xs := by simp [umErase]
      rw [this, ih]
      simp [umFind, hne.symm]
    · have : umErase k ((k'', v) :: xs) = (k'', v) :: umErase k xs := by
        simp [umErase, h]
      rw [this]
      by_cases h' : k'' = k'
      · simp [umFind, h']
      · simp [umFind, h', ih]

theorem umFind_umErase_none {β : Type} (k k' : Nat) (l : List (Nat × β))
    (h : umFind k' l = none) : umFind k' (umErase k l) = none := by
  by_cases hk : k' = k
  · subst hk; exact umFind_umErase_self _ _
  · rw [umFind_umErase_ne _ _ _ hk]; exact h

theorem umFind_of_mem {β : Type} (l : List (Nat × β)) (h : (l.map Prod.fst).Nodup)
    (e : Nat × β) (he : e ∈ l) : umFind e.1 l = some e.2 := by
  induction l with
  | nil => simp at he
  | cons x xs ih =>
    obtain ⟨k, v⟩ := x
    simp only [List.map_cons, List.nodup_cons] at h
    rcases List.mem_cons.mp he with rfl | he
    · simp [umFind]
    · have hne : k ≠ e.1 := by
        intro hk
        apply h.1
        rw [hk]
        exact List.mem_map_of_mem Prod.fst he
      simp [umFind, hne, ih h.2 he]

theorem umErase_of_find_none {β : Type} (k : Nat) (l : List (Nat × β))
    (h : umFind k l = none) : umErase k l = l := by
  induction l with
  | nil => rfl
  | cons x xs ih =>
    obtain ⟨k', v⟩ := x
    by_cases hk : k' = k
    · simp [umFind, hk] at h
    · simp only [umFind, hk, if_false] at h
      have : umErase k ((k', v) :: xs) = (k', v) :: umErase k xs := by
        simp [umErase, hk]
      rw [this, ih h]

theorem cleanupStep_active (tables : List (Nat × Match) × List (Nat × Nat)) (matchId : Nat) :
    (cleanupStep tables matchId).1 = umErase matchId tables.1 := by
  unfold cleanupStep
  split
  · rename_i h
    exact (umErase_of_find_none _ _ h).symm
  · rfl

theorem cleanup_fold_active (ids : List Nat) :
    ∀ tables : List (Nat × Match) × List (Nat × Nat),
      (ids.foldl cleanupStep tables).1
        = tables.1.filter (fun entry => decide (entry.1 ∉ ids)) := by
  induction ids with
  | nil => intro tables; simp
  | cons i rest ih =>
    intro tables
    rw [List.foldl_cons, ih, cleanupStep_active]
    simp only [umErase, List.filter_filter]
    apply List.filter_congr
    intro entry _
    by_cases h : entry.1 = i <;> simp [h]

theorem eraseIds_none (ids : List Nat) (p : Nat) :
    ∀ index : List (Nat × Nat), (p ∈ ids ∨ umFind p index = none) →
      umFind p (ids.foldl (fun index playerId => umErase playerId index) index) = none := by
  induction ids with
  | nil =>
    intro index h
    rcases h with h | h
    · simp at h
    · exact h
  | cons i rest ih =>
    intro index h
    rw [List.foldl_cons]
    apply ih
    by_cases hp : p = i
    · right; rw [hp]; exact umFind_umErase_self _ _
    · rcases h with h | h
      · left
        rcases List.mem_cons.mp h with h | h
        · exact absurd h hp
        · exact h
      · right; exact umFind_umErase_none _ _ _ h

theorem cleanupStep_index_none (tables : List (Nat × Match) × List (Nat × Nat))
    (matchId p : Nat) (h : umFind p tables.2 = none) :
    umFind p (cleanupStep tables matchId).2 = none := by
  unfold cleanupStep
  split
  · exact h
  · exact eraseIds_none _ p _ (Or.inr h)

theorem cleanup_fold_index_none (ids : List Nat) (p : Nat) :
    ∀ tables : List (Nat × Match) × List (Nat × Nat), umFind p tables.2 = none →
      umFind p (ids.foldl cleanupStep tables).2 = none := by
  induction ids with
  | nil => intro tables h; exact h
  | cons i rest ih =>
    intro tables h
    rw [List.foldl_cons]
    exact ih _ (cleanupStep_index_none tables i p h)

theorem cleanup_fold_index (ids : List Nat) (matchId p : Nat) (m : Match)
    (hp : p ∈ m.GetAllPlayerIds) :
    ∀ tables : List (Nat × Match) × List (Nat × Nat), matchId ∈ ids →
      umFind matchId tables.1 = some m →
      umFind p (ids.foldl cleanupStep tables).2 = none := by
  induction ids with
  | nil => intro tables h; simp at h
  | cons i rest ih =>
    intro tables hmem hfind
    rw [List.foldl_cons]
    by_cases hi : i = matchId
    · subst hi
      apply cleanup_fold_index_none
      simp only [cleanupStep, hfind]
      exact eraseIds_none _ p _ (Or.inl hp)
    · apply ih
      · rcases List.mem_cons.mp hmem with h | h
        · exact absurd h.symm hi
        · exact h
      · rw [cleanupStep_active, umFind_umErase_ne _ _ _ (Ne.symm hi)]
        exact hfind

theorem mem_matchesToRemove (config : MatchmakingConfig) (now : Nat)
    (active : List (Nat × Match)) (hkeys : (active.map Prod.fst).Nodup)
    (entry : Nat × Match) (he : entry ∈ active) :
    entry.1 ∈ matchesToRemove config now active ↔ cleanupDue config now entry.2 = true := by
  unfold matchesToRemove
  constructor
  · intro h
    obtain ⟨e', he', hk⟩ := List.mem_map.mp h
    rw [List.mem_filter] at he'
    have h1 := umFind_of_mem active hkeys e' he'.1
    have h2 := umFind_of_mem active hkeys entry he
    rw [hk, h2] at h1
    have : entry.2 = e'.2 := by simpa using h1
    rw [this]
    exact he'.2
  · intro h
    exact List.mem_map.mpr ⟨entry, List.mem_filter.mpr ⟨he, h⟩, rfl⟩

/-- C11: with `now` the clock reading, `CleanupAbandonedMatches` leaves in the active
table exactly the entries that are not both terminal (`COMPLETED` or `ABANDONED`) and
older than `matchCleanupAge`, each unchanged and in the former order, and afterwards no
player id of a removed match is a key of the player→match index (the table being a
map, its keys are distinct). -/
theorem C11_cleanup (mm : MatchmakingManager) (now : Nat)
    (hkeys : (mm.m_activeMatches.map Prod.fst).Nodup) :
    (mm.CleanupAbandonedMatches now).m_activeMatches
      = mm.m_activeMatches.filter (fun entry =>
          !decide ((entry.2.state = MatchState.COMPLETED ∨ entry.2.state = MatchState.ABANDONED)
            ∧ (now : Int) - (entry.2.createdTime : Int)
                > ((mm.m_config.matchCleanupAge * ticksPerMinute : Nat) : Int))) ∧
    ∀ entry ∈ mm.m_activeMatches,
      (entry.2.state = MatchState.COMPLETED ∨ entry.2.state = MatchState.ABANDONED) →
      (now : Int) - (entry.2.createdTime : Int)
        > ((mm.m_config.matchCleanupAge * ticksPerMinute : Nat) : Int) →
      ∀ p ∈ entry.2.GetAllPlayerIds,
        umFind p (mm.CleanupAbandonedMatches now).m_playerToMatch = none := by
  constructor
  · simp only [MatchmakingManager.CleanupAbandonedMatches, cleanup_fold_active]
    apply List.filter_congr
    intro entry he
    have h := mem_matchesToRemove mm.m_config now mm.m_activeMatches hkeys entry he
    have hP : cleanupDue mm.m_config now entry.2 = true ↔
        ((entry.2.state = MatchState.COMPLETED ∨ entry.2.state = MatchState.ABANDONED)
          ∧ (now : Int) - (entry.2.createdTime : Int)
              > ((mm.m_config.matchCleanupAge * ticksPerMinute : Nat) : Int)) := by
      simp only [cleanupDue, Bool.and_eq_true, Bool.or_eq_true, beq_iff_eq,
        decide_eq_true_eq]
    rw [Bool.eq_iff_iff]
    simp only [decide_eq_true_eq, Bool.not_eq_true', decide_eq_false_iff_not]
    exact not_congr (h.trans hP)
  · intro entry he hstate hage p hp
    simp only [MatchmakingManager.CleanupAbandonedMatches]
    apply cleanup_fold_index _ entry.1 p entry.2 hp
    · apply (mem_matchesToRemove mm.m_config now mm.m_activeMatches hkeys entry he).mpr
      simp only [cleanupDue, Bool.and_eq_true, Bool.or_eq_true, beq_iff_eq,
        decide_eq_true_eq]
      exact ⟨hstate, hage⟩
    · exact umFind_of_mem _ hkeys entry he

/-- C11 (witness): three stored matches at six minutes on the clock; the completed and
the abandoned one go, the one in progress stays. -/
theorem C11_cleanup_witness :
    (cleanupManager.CleanupAbandonedMatches (6 * ticksPerMinute)).m_activeMatches
      = cleanupManager.m_activeMatches.filter (fun entry =>
          !decide ((entry.2.state = MatchState.COMPLETED ∨ entry.2.state = MatchState.ABANDONED)
            ∧ ((6 * ticksPerMinute : Nat) : Int) - (entry.2.createdTime : Int)
                > ((cleanupManager.m_config.matchCleanupAge * ticksPerMinute : Nat) : Int))) ∧
    ∀ entry ∈ cleanupManager.m_activeMatches,
      (entry.2.state = MatchState.COMPLETED ∨ entry.2.state = MatchState.ABANDONED) →
      ((6 * ticksPerMinute : Nat) : Int) - (entry.2.createdTime : Int)
        > ((cleanupManager.m_config.matchCleanupAge * ticksPerMinute : Nat) : Int) →
      ∀ p ∈ entry.2.GetAllPlayerIds,
        umFind p (cleanupManager.CleanupAbandonedMatches (6 * ticksPerMinute)).m_playerToMatch
          = none :=
  C11_cleanup cleanupManager (6 * ticksPerMinute) (by decide)

/-! ## Properties of the player social service -/

theorem commendStep_effects (ok : Stmt → Bool) (clock : SqlClock) (sender target type : Nat)
    (newFlag existingFlag : Bool) (r : Run) :
    (commendStep ok clock sender target type newFlag existingFlag r).effects
      = r.effects ++ commendStepEffects ok sender target type newFlag existingFlag := by
  unfold commendStep commendStepEffects
  cases newFlag <;> cases existingFlag <;> simp [Run.write]

theorem HandleCommendPlayer_effects (ok : Stmt → Bool) (clock : SqlClock) (db : Database)
    (request : CommendRequest) (sender : Nat) (hs : sender ≠ 0) :
    (HandleCommendPlayer ok clock db (some request) sender).effects
      = [Effect.sql (Stmt.selectCommendTypes sender (targetSteamIdOf request.account_id))
          (ok (Stmt.selectCommendTypes sender (targetSteamIdOf request.account_id)))]
        ++ (if commendNeedToken request
              (commendRows ok clock db sender (targetSteamIdOf request.account_id)) then
            [Effect.sql (Stmt.countCommendReceivers sender)
              (ok (Stmt.countCommendReceivers sender))]
          else [])
        ++ (if commendNeedToken request
                (commendRows ok clock db sender (targetSteamIdOf request.account_id))
              && decide (GetPlayerCommendTokens ok clock db sender ≤ 0) then []
          else
            commendStepEffects ok sender (targetSteamIdOf request.account_id) 1
                (commendRequested request 1)
                (decide (1 ∈ commendRows ok clock db sender (targetSteamIdOf request.account_id)))
              ++ commendStepEffects ok sender (targetSteamIdOf request.account_id) 2
                (commendRequested request 2)
                (decide (2 ∈ commendRows ok clock db sender (targetSteamIdOf request.account_id)))
              ++ commendStepEffects ok sender (targetSteamIdOf request.account_id) 3
                (commendRequested request 3)
                (decide (3 ∈ commendRows ok clock db sender
                  (targetSteamIdOf request.account_id)))) := by
  unfold HandleCommendPlayer
  simp only [hs, if_false]
  cases hn : commendNeedToken request
      (commendRows ok clock db sender (targetSteamIdOf request.account_id))
  · simp [commendStep_effects, Run.query]
  · by_cases ht : GetPlayerCommendTokens ok clock db sender ≤ 0
    · simp [ht, Run.query]
    · simp [ht, commendStep_effects, Run.query]

theorem writesOf_append (a b : List Effect) : writesOf (a ++ b) = writesOf a ++ writesOf b := by
  simp [writesOf, List.filterMap_append]

theorem writesOf_commendStepEffects (ok : Stmt → Bool) (sender target type : Nat)
    (newFlag existingFlag : Bool) :
    writesOf (commendStepEffects ok sender target type newFlag existingFlag)
      = if newFlag && !existingFlag then [Stmt.insertCommend sender target type]
        else if existingFlag && !newFlag then [Stmt.deleteCommend sender target type]
        else [] := by
  cases newFlag <;> cases existingFlag <;> simp [commendStepEffects, writesOf]

theorem HandleCommendPlayer_writes (ok : Stmt → Bool) (clock : SqlClock) (db : Database)
    (request : CommendRequest) (sender : Nat) (hs : sender ≠ 0) :
    writesOf (HandleCommendPlayer ok clock db (some request) sender).effects
      = if commendNeedToken request
            (commendRows ok clock db sender (targetSteamIdOf request.account_id))
          && decide (GetPlayerCommendTokens ok clock db sender ≤ 0) then []
        else commendDeltaRef sender (targetSteamIdOf request.account_id)
          (commendRequested request)
          (fun type => decide (type ∈ commendRows ok clock db sender
            (targetSteamIdOf request.account_id))) := by
  rw [HandleCommendPlayer_effects ok clock db request sender hs]
  simp only [writesOf_append]
  have h1 : writesOf [Effect.sql (Stmt.selectCommendTypes sender
      (targetSteamIdOf request.account_id))
      (ok (Stmt.selectCommendTypes sender (targetSteamIdOf request.account_id)))] = [] := rfl
  have h2 : ∀ b : Bool, writesOf (if b then
      [Effect.sql (Stmt.countCommendReceivers sender) (ok (Stmt.countCommendReceivers sender))]
      else []) = [] := by
    intro b; cases b <;> rfl
  rw [h1, h2]
  split
  · rfl
  · simp only [writesOf_append, writesOf_commendStepEffects, commendDeltaRef,
      List.flatMap_cons, List.flatMap_nil, List.nil_append, List.append_nil,
      List.append_assoc]

theorem tokenLookupsOf_append (a b : List Effect) :
    tokenLookupsOf (a ++ b) = tokenLookupsOf a ++ tokenLookupsOf b := by
  simp [tokenLookupsOf, List.filterMap_append]

theorem tokenLookupsOf_commendStepEffects (ok : Stmt → Bool) (sender target type : Nat)
    (newFlag existingFlag : Bool) :
    tokenLookupsOf (commendStepEffects ok sender target type newFlag existingFlag) = [] := by
  cases newFlag <;> cases existingFlag <;> simp [commendStepEffects, tokenLookupsOf]

theorem HandleCommendPlayer_lookups (ok : Stmt → Bool) (clock : SqlClock) (db : Database)
    (request : CommendRequest) (sender : Nat) (hs : sender ≠ 0) :
    tokenLookupsOf (HandleCommendPlayer ok clock db (some request) sender).effects
      = if commendNeedToken request
            (commendRows ok clock db sender (targetSteamIdOf request.account_id)) then
          [Stmt.countCommendReceivers sender]
        else [] := by
  rw [HandleCommendPlayer_effects ok clock db request sender hs]
  simp only [tokenLookupsOf_append]
  have h1 : tokenLookupsOf [Effect.sql (Stmt.selectCommendTypes sender
      (targetSteamIdOf request.account_id))
      (ok (Stmt.selectCommendTypes sender (targetSteamIdOf request.account_id)))] = [] := rfl
  have h3 : tokenLookupsOf (if commendNeedToken request
        (commendRows ok clock db sender (targetSteamIdOf request.account_id))
        && decide (GetPlayerCommendTokens ok clock db sender ≤ 0) then []
      else
        commendStepEffects ok sender (targetSteamIdOf request.account_id) 1
            (commendRequested request 1)
            (decide (1 ∈ commendRows ok clock db sender (targetSteamIdOf request.account_id)))
          ++ commendStepEffects ok sender (targetSteamIdOf request.account_id) 2
            (commendRequested request 2)
            (decide (2 ∈ commendRows ok clock db sender (targetSteamIdOf request.account_id)))
          ++ commendStepEffects ok sender (targetSteamIdOf request.account_id) 3
            (commendRequested request 3)
            (decide (3 ∈ commendRows ok clock db sender
              (targetSteamIdOf request.account_id)))) = [] := by
    split
    · rfl
    · simp only [tokenLookupsOf_append, tokenLookupsOf_commendStepEffects, List.append_nil]
  rw [h1, h3]
  cases commendNeedToken request
      (commendRows ok clock db sender (targetSteamIdOf request.account_id)) <;> rfl

theorem commendNeedToken_iff (request : CommendRequest) (rows : List Nat) :
    commendNeedToken request rows = true ↔
      (∃ type ∈ [1, 2, 3], commendRequested request type = true ∧ type ∉ rows) ∧ rows = [] := by
  unfold commendNeedToken
  simp only [Bool.and_eq_true, Bool.or_eq_true, Bool.not_eq_true', decide_eq_false_iff_not,
    List.isEmpty_eq_false, List.mem_cons, List.mem_singleton, List.not_mem_nil, or_false,
    exists_eq_or_imp, exists_eq_left, Decidable.not_not, Bool.not_eq_true, or_assoc]
  constructor
  · rintro ⟨h, hr⟩
    exact ⟨h, by simpa using hr⟩
  · rintro ⟨h, hr⟩
    exact ⟨h, by simpa using hr⟩

/-- C12 (counterexample): with a friendly commend from sender 7 to the target in the
window, the request `{teaching: true}` consults a token when the `SELECT` of the
existing rows fails; and a request that adds a type with no prior row consults none
when the sender id of the session is 0. -/
theorem C12_token_rule_counterexample :
    swapStore.commendTypes sampleClock 7 (targetSteamIdOf 5) = [1] ∧
    tokenLookupsOf (HandleCommendPlayer selectFails sampleClock swapStore (some swapRequest)
      7).effects = [Stmt.countCommendReceivers 7] ∧
    commendRequested friendlyRequest 1 = true ∧
    ({} : Database).commendTypes sampleClock 0 (targetSteamIdOf 5) = [] ∧
    tokenLookupsOf (HandleCommendPlayer allOk sampleClock {} (some friendlyRequest) 0).effects
      = [] := by
  decide

/-- C12 (amended): for every commend request of a session with a non-zero sender id,
when the `SELECT` of the existing sender→target rows of the 3-month window succeeds,
`HandleCommendPlayer` consults a token if and only if the request adds at least one
type that is not present among those rows and there is no such row at all; so removing
types, or adding a type when a prior row exists, consults none. -/
theorem C12_token_rule (ok : Stmt → Bool) (clock : SqlClock) (db : Database)
    (request : CommendRequest) (sender : Nat) (hs : sender ≠ 0)
    (hok : ok (Stmt.selectCommendTypes sender (targetSteamIdOf request.account_id)) = true) :
    (Stmt.countCommendReceivers sender
        ∈ tokenLookupsOf (HandleCommendPlayer ok clock db (some request) sender).effects ↔
      (∃ type ∈ [1, 2, 3], commendRequested request type = true ∧
          type ∉ db.commendTypes clock sender (targetSteamIdOf request.account_id)) ∧
        db.commendTypes clock sender (targetSteamIdOf request.account_id) = []) ∧
    (db.commendTypes clock sender (targetSteamIdOf request.account_id) ≠ [] →
      tokenLookupsOf (HandleCommendPlayer ok clock db (some request) sender).effects = []) ∧
    ((∀ type ∈ [1, 2, 3], commendRequested request type = true →
        type ∈ db.commendTypes clock sender (targetSteamIdOf request.account_id)) →
      tokenLookupsOf (HandleCommendPlayer ok clock db (some request) sender).effects = []) := by
  have hrows : commendRows ok clock db sender (targetSteamIdOf request.account_id)
      = db.commendTypes clock sender (targetSteamIdOf request.account_id) := by
    simp [commendRows, hok]
  have hl := HandleCommendPlayer_lookups ok clock db request sender hs
  rw [hrows] at hl
  have hiff := commendNeedToken_iff request
    (db.commendTypes clock sender (targetSteamIdOf request.account_id))
  refine ⟨?_, ?_, ?_⟩
  · rw [hl, ← hiff]
    split <;> simp_all
  · intro hne
    rw [hl]
    have : commendNeedToken request
        (db.commendTypes clock sender (targetSteamIdOf request.account_id)) = false := by
      rw [Bool.eq_false_iff]
      intro h
      exact hne (hiff.mp h).2
    simp [this]
  · intro hall
    rw [hl]
    have : commendNeedToken request
        (db.commendTypes clock sender (targetSteamIdOf request.account_id)) = false := by
      rw [Bool.eq_false_iff]
      intro h
      obtain ⟨⟨type, ht, hreq, hnot⟩, _⟩ := hiff.mp h
      exact hnot (hall type ht hreq)
    simp [this]

/-- C12 (witness): the swap request of sender 7 on a store with a friendly commend in
the window, every statement succeeding. -/
theorem C12_token_rule_witness :
    (Stmt.countCommendReceivers 7
        ∈ tokenLookupsOf (HandleCommendPlayer allOk sampleClock swapStore (some swapRequest)
            7).effects ↔
      (∃ type ∈ [1, 2, 3], commendRequested swapRequest type = true ∧
          type ∉ swapStore.commendTypes sampleClock 7 (targetSteamIdOf swapRequest.account_id)) ∧
        swapStore.commendTypes sampleClock 7 (targetSteamIdOf swapRequest.account_id) = []) ∧
    (swapStore.commendTypes sampleClock 7 (targetSteamIdOf swapRequest.account_id) ≠ [] →
      tokenLookupsOf (HandleCommendPlayer allOk sampleClock swapStore (some swapRequest)
        7).effects = []) ∧
    ((∀ type ∈ [1, 2, 3], commendRequested swapRequest type = true →
        type ∈ swapStore.commendTypes sampleClock 7 (targetSteamIdOf swapRequest.account_id)) →
      tokenLookupsOf (HandleCommendPlayer allOk sampleClock swapStore (some swapRequest)
        7).effects = []) :=
  C12_token_rule allOk sampleClock swapStore swapRequest 7 (by decide) rfl

/-- C13 (counterexample): with a friendly commend from sender 7 to the target in the
window, the request `{friendly: true}` is processed and, when the `SELECT` of the
existing rows fails, sends an `INSERT` of type 1, where the per-type rule asks for
nothing. -/
theorem C13_per_type_deltas_counterexample :
    swapStore.commendTypes sampleClock 7 (targetSteamIdOf 5) = [1] ∧
    commendRequested friendlyRequest 1 = true ∧
    writesOf (HandleCommendPlayer selectFails sampleClock swapStore (some friendlyRequest)
      7).effects = [Stmt.insertCommend 7 (targetSteamIdOf 5) 1] ∧
    commendDeltaRef 7 (targetSteamIdOf 5) (commendRequested friendlyRequest)
      (fun type => decide (type ∈ swapStore.commendTypes sampleClock 7 (targetSteamIdOf 5)))
      = [] := by
  decide

/-- C13 (amended): when a commend request of a session with a non-zero sender id is not
rejected for lack of tokens and the `SELECT` of the existing rows succeeds, the
`INSERT` and `DELETE` statements `HandleCommendPlayer` sends are, for the types 1, 2, 3
in this order, an insert iff the type is requested and not existing, a delete iff it is
existing and not requested, and nothing when requested and existing agree. -/
theorem C13_per_type_deltas (ok : Stmt → Bool) (clock : SqlClock) (db : Database)
    (request : CommendRequest) (sender : Nat) (hs : sender ≠ 0)
    (hok : ok (Stmt.selectCommendTypes sender (targetSteamIdOf request.account_id)) = true)
    (hproc : ¬(commendNeedToken request
          (db.commendTypes clock sender (targetSteamIdOf request.account_id)) = true
        ∧ GetPlayerCommendTokens ok clock db sender ≤ 0)) :
    writesOf (HandleCommendPlayer ok clock db (some request) sender).effects
      = commendDeltaRef sender (targetSteamIdOf request.account_id) (commendRequested request)
          (fun type =>
            decide (type ∈ db.commendTypes clock sender (targetSteamIdOf request.account_id))) := by
  have hrows : commendRows ok clock db sender (targetSteamIdOf request.account_id)
      = db.commendTypes clock sender (targetSteamIdOf request.account_id) := by
    simp [commendRows, hok]
  rw [HandleCommendPlayer_writes ok clock db request sender hs, hrows]
  rw [if_neg]
  simpa using hproc

/-- C13 (witness): existing `{friendly}`, request `{friendly: false, teaching: true}`:
exactly one delete (type 1) and one insert (type 2). -/
theorem C13_per_type_deltas_witness :
    writesOf (HandleCommendPlayer allOk sampleClock swapStore (some swapRequest) 7).effects
      = commendDeltaRef 7 (targetSteamIdOf swapRequest.account_id)
          (commendRequested swapRequest)
          (fun type => decide (type ∈
            swapStore.commendTypes sampleClock 7 (targetSteamIdOf swapRequest.account_id))) ∧
    commendDeltaRef 7 (targetSteamIdOf swapRequest.account_id) (commendRequested swapRequest)
        (fun type => decide (type ∈
          swapStore.commendTypes sampleClock 7 (targetSteamIdOf swapRequest.account_id)))
      = [Stmt.deleteCommend 7 (targetSteamIdOf 5) 1, Stmt.insertCommend 7 (targetSteamIdOf 5) 2] :=
  ⟨C13_per_type_deltas allOk sampleClock swapStore swapRequest 7 (by decide) rfl (by decide),
   by decide⟩

/-- C14 (failing input): sender 7 gave the target a friendly commend more than a day
(and less than three months) ago and commended nobody since; the request
`{friendly: false, teaching: true}` runs one delete and one insert, all statements
succeeding, and `GetPlayerCommendTokens` of the sender goes from 3 to 2, the inserted
row being stamped with the time of the request. -/
theorem C14_token_preserved_failing_input :
    swapStore.commendTypes sampleClock 7 (targetSteamIdOf 5) = [1] ∧
    GetPlayerCommendTokens allOk sampleClock swapStore 7 = 3 ∧
    (HandleCommendPlayer allOk sampleClock swapStore (some swapRequest) 7).effects
      = [Effect.sql (Stmt.selectCommendTypes 7 (targetSteamIdOf 5)) true,
         Effect.sql (Stmt.deleteCommend 7 (targetSteamIdOf 5) 1) true,
         Effect.sql (Stmt.insertCommend 7 (targetSteamIdOf 5) 2) true] ∧
    (HandleCommendPlayer allOk sampleClock swapStore (some swapRequest) 7).db.player_commends
      = [{ sender_steamid64 := 7, receiver_steamid64 := targetSteamIdOf 5, type := 2,
           created_at := 200000 }] ∧
    GetPlayerCommendTokens allOk sampleClock
      (HandleCommendPlayer allOk sampleClock swapStore (some swapRequest) 7).db 7 = 2 := by
  decide

theorem commendDeltaRef_ne_nil (sender target : Nat) (request : CommendRequest)
    (rows : List Nat) (h : commendNeedToken request rows = true) :
    commendDeltaRef sender target (commendRequested request) (fun type => decide (type ∈ rows))
      ≠ [] := by
  obtain ⟨⟨type, ht, hreq, hnot⟩, _⟩ := (commendNeedToken_iff request rows).mp h
  simp only [List.mem_cons, List.mem_singleton, List.not_mem_nil, or_false] at ht
  rcases ht with rfl | rfl | rfl <;>
    simp [commendDeltaRef, hreq, hnot]

theorem GetPlayerCommendTokens_nonneg (ok : Stmt → Bool) (clock : SqlClock) (db : Database)
    (sender : Nat) : 0 ≤ GetPlayerCommendTokens ok clock db sender := by
  unfold GetPlayerCommendTokens
  split
  · exact le_max_left _ _
  · decide

theorem GetPlayerCommendTokens_eq_zero (ok : Stmt → Bool) (clock : SqlClock) (db : Database)
    (sender : Nat) :
    GetPlayerCommendTokens ok clock db sender = 0 ↔
      ok (Stmt.countCommendReceivers sender) = true ∧ 3 ≤ db.commendReceivers clock sender := by
  unfold GetPlayerCommendTokens
  split
  · rename_i h
    simp only [h, true_and]
    omega
  · rename_i h
    simp [h]

theorem responsesOf_append (a b : List Effect) :
    responsesOf (a ++ b) = responsesOf a ++ responsesOf b := by
  simp [responsesOf, List.filterMap_append]

theorem notifiedOf_append (a b : List Effect) :
    notifiedOf (a ++ b) = notifiedOf a ++ notifiedOf b := by
  simp [notifiedOf, List.filterMap_append]

theorem commendStepEffects_quiet (ok : Stmt → Bool) (sender target type : Nat)
    (newFlag existingFlag : Bool) :
    responsesOf (commendStepEffects ok sender target type newFlag existingFlag) = [] ∧
    notifiedOf (commendStepEffects ok sender target type newFlag existingFlag) = [] := by
  cases newFlag <;> cases existingFlag <;> simp [commendStepEffects, responsesOf, notifiedOf]

theorem HandleCommendPlayer_responses (ok : Stmt → Bool) (clock : SqlClock) (db : Database)
    (request : Option CommendRequest) (sender : Nat) :
    responsesOf (HandleCommendPlayer ok clock db request sender).effects = [] ∧
    notifiedOf (HandleCommendPlayer ok clock db request sender).effects = [] := by
  cases request with
  | none => exact ⟨rfl, rfl⟩
  | some request =>
    by_cases hs : sender = 0
    · subst hs; exact ⟨rfl, rfl⟩
    · rw [HandleCommendPlayer_effects ok clock db request sender hs]
      constructor
      · simp only [responsesOf_append]
        split <;> split <;>
          first
            | rfl
            | (simp only [responsesOf_append, (commendStepEffects_quiet _ _ _ _ _ _).1]; rfl)
      · simp only [notifiedOf_append]
        split <;> split <;>
          first
            | rfl
            | (simp only [notifiedOf_append, (commendStepEffects_quiet _ _ _ _ _ _).2]; rfl)

theorem HandleCommendPlayer_rejected_db (ok : Stmt → Bool) (clock : SqlClock) (db : Database)
    (request : CommendRequest) (sender : Nat)
    (h : commendNeedToken request
          (commendRows ok clock db sender (targetSteamIdOf request.account_id)) = true
        ∧ GetPlayerCommendTokens ok clock db sender ≤ 0) :
    (HandleCommendPlayer ok clock db (some request) sender).db = db := by
  unfold HandleCommendPlayer
  by_cases hs : sender = 0
  · simp [hs]
  · simp [hs, h.1, h.2, Run.query]

/-- C16 (counterexample): sender 7 commended three distinct receivers in the last day
(n = 3) and asks for a first commend of a fourth target, which requires a token; when
the counting query fails the request is processed and the `INSERT` is sent. -/
theorem C16_commend_rejection_counterexample :
    spentStore.commendReceivers sampleClock 7 = 3 ∧
    tokenLookupsOf (HandleCommendPlayer countFails sampleClock spentStore (some friendlyRequest)
      7).effects = [Stmt.countCommendReceivers 7] ∧
    GetPlayerCommendTokens countFails sampleClock spentStore 7 = 3 ∧
    writesOf (HandleCommendPlayer countFails sampleClock spentStore (some friendlyRequest)
      7).effects = [Stmt.insertCommend 7 (targetSteamIdOf 5) 1] := by
  decide

theorem consults_token_iff (ok : Stmt → Bool) (clock : SqlClock) (db : Database)
    (request : Option CommendRequest) (sender : Nat) :
    Stmt.countCommendReceivers sender
        ∈ tokenLookupsOf (HandleCommendPlayer ok clock db request sender).effects ↔
      ∃ r, request = some r ∧ sender ≠ 0 ∧
        commendNeedToken r (commendRows ok clock db sender (targetSteamIdOf r.account_id))
          = true := by
  cases request with
  | none => simp [HandleCommendPlayer, tokenLookupsOf]
  | some r =>
    by_cases hs : sender = 0
    · simp [HandleCommendPlayer, tokenLookupsOf, hs]
    · rw [HandleCommendPlayer_lookups ok clock db r sender hs]
      constructor
      · intro h
        refine ⟨r, rfl, hs, ?_⟩
        by_contra hn
        rw [if_neg hn] at h
        exact absurd h (List.not_mem_nil _)
      · rintro ⟨r2, hr, -, hn⟩
        cases hr
        rw [if_pos hn]
        exact List.mem_singleton_self _

/-- C16 (amended): with n the number of distinct receivers the sender commended in the
last 24 h, the available tokens are `max(0, 3 - n)` when the counting query succeeds
(and 3 when it fails); a commend request for which the handler consults a token is
rejected silently (no `INSERT`, no `DELETE`, no response, tables unchanged) if and only
if the available tokens are 0, that is, iff the counting query succeeds and n ≥ 3; when
n < 3 it is processed. -/
theorem C16_commend_rejection (ok : Stmt → Bool) (clock : SqlClock) (db : Database)
    (request : Option CommendRequest) (sender : Nat)
    (hneed : Stmt.countCommendReceivers sender
      ∈ tokenLookupsOf (HandleCommendPlayer ok clock db request sender).effects) :
    (ok (Stmt.countCommendReceivers sender) = true →
      GetPlayerCommendTokens ok clock db sender
        = max 0 (3 - (db.commendReceivers clock sender : Int))) ∧
    (ok (Stmt.countCommendReceivers sender) = false →
      GetPlayerCommendTokens ok clock db sender = 3) ∧
    (writesOf (HandleCommendPlayer ok clock db request sender).effects = [] ↔
      GetPlayerCommendTokens ok clock db sender = 0) ∧
    (GetPlayerCommendTokens ok clock db sender = 0 ↔
      ok (Stmt.countCommendReceivers sender) = true ∧ 3 ≤ db.commendReceivers clock sender) ∧
    (db.commendReceivers clock sender < 3 →
      writesOf (HandleCommendPlayer ok clock db request sender).effects ≠ []) ∧
    responsesOf (HandleCommendPlayer ok clock db request sender).effects = [] ∧
    (GetPlayerCommendTokens ok clock db sender = 0 →
      (HandleCommendPlayer ok clock db request sender).db = db) := by
  obtain ⟨r, rfl, hs, hneed⟩ := (consults_token_iff ok clock db request sender).mp hneed
  have hnn := GetPlayerCommendTokens_nonneg ok clock db sender
  have hz := GetPlayerCommendTokens_eq_zero ok clock db sender
  have hw := HandleCommendPlayer_writes ok clock db r sender hs
  have hne := commendDeltaRef_ne_nil sender (targetSteamIdOf r.account_id) r _ hneed
  have hiff : writesOf (HandleCommendPlayer ok clock db (some r) sender).effects = [] ↔
      GetPlayerCommendTokens ok clock db sender = 0 := by
    rw [hw, hneed]
    by_cases ht : GetPlayerCommendTokens ok clock db sender ≤ 0
    · simp only [Bool.true_and, decide_eq_true ht, if_true, true_iff]
      omega
    · simp only [Bool.true_and, decide_eq_false ht, Bool.false_eq_true, if_false]
      constructor
      · intro h; exact absurd h hne
      · intro h; omega
  refine ⟨?_, ?_, hiff, hz, ?_, (HandleCommendPlayer_responses ok clock db _ sender).1, ?_⟩
  · intro hok
    simp [GetPlayerCommendTokens, hok]
  · intro hok
    simp [GetPlayerCommendTokens, hok]
  · intro hn hnil
    have := hz.mp (hiff.mp hnil)
    omega
  · intro h0
    exact HandleCommendPlayer_rejected_db ok clock db r sender ⟨hneed, by omega⟩

/-- C16 (witness): sender 7 with three distinct receivers in the last day asks for a
first commend of a fourth target, every statement succeeding: rejected. -/
theorem C16_commend_rejection_witness :
    (allOk (Stmt.countCommendReceivers 7) = true →
      GetPlayerCommendTokens allOk sampleClock spentStore 7
        = max 0 (3 - (spentStore.commendReceivers sampleClock 7 : Int))) ∧
    (allOk (Stmt.countCommendReceivers 7) = false →
      GetPlayerCommendTokens allOk sampleClock spentStore 7 = 3) ∧
    (writesOf (HandleCommendPlayer allOk sampleClock spentStore (some friendlyRequest)
        7).effects = [] ↔
      GetPlayerCommendTokens allOk sampleClock spentStore 7 = 0) ∧
    (GetPlayerCommendTokens allOk sampleClock spentStore 7 = 0 ↔
      allOk (Stmt.countCommendReceivers 7) = true ∧
        3 ≤ spentStore.commendReceivers sampleClock 7) ∧
    (spentStore.commendReceivers sampleClock 7 < 3 →
      writesOf (HandleCommendPlayer allOk sampleClock spentStore (some friendlyRequest)
        7).effects ≠ []) ∧
    responsesOf (HandleCommendPlayer allOk sampleClock spentStore (some friendlyRequest)
      7).effects = [] ∧
    (GetPlayerCommendTokens allOk sampleClock spentStore 7 = 0 →
      (HandleCommendPlayer allOk sampleClock spentStore (some friendlyRequest) 7).db
        = spentStore) :=
  C16_commend_rejection allOk sampleClock spentStore (some friendlyRequest) 7 (by decide)

theorem mem_types_insert (db : Database) (clock : SqlClock)
    (hclock : clock.threeMonthsAgo < clock.now) (sender target type t : Nat) :
    t ∈ (db.apply clock (Stmt.insertCommend sender target type)).commendTypes clock sender target
      ↔ t ∈ db.commendTypes clock sender target ∨ t = type := by
  simp only [Database.apply, Database.commendTypes, List.filter_append, List.map_append,
    List.mem_append]
  have : t ∈ List.map (fun row => row.type) (List.filter (fun row : CommendRow =>
        row.sender_steamid64 == sender && row.receiver_steamid64 == target
          && decide (row.created_at > clock.threeMonthsAgo))
        [{ sender_steamid64 := sender, receiver_steamid64 := target, type := type,
           created_at := clock.now }]) ↔ t = type := by
    simp [List.filter, hclock]
  rw [this]

theorem mem_types_delete (db : Database) (clock : SqlClock) (sender target type t : Nat) :
    t ∈ (db.apply clock (Stmt.deleteCommend sender target type)).commendTypes clock sender target
      ↔ t ∈ db.commendTypes clock sender target ∧ t ≠ type := by
  simp only [Database.apply, Database.commendTypes, List.mem_map, List.mem_filter,
    Bool.and_eq_true, beq_iff_eq, decide_eq_true_eq, Bool.not_eq_true', Bool.and_eq_false_iff,
    beq_eq_false_iff_ne, ne_eq]
  constructor
  · rintro ⟨row, ⟨⟨hmem, hnot⟩, ⟨hs, hr⟩, hc⟩, rfl⟩
    refine ⟨⟨row, ⟨hmem, ⟨hs, hr⟩, hc⟩, rfl⟩, ?_⟩
    rcases hnot with (h | h) | h
    · exact absurd hs h
    · exact absurd hr h
    · exact h
  · rintro ⟨⟨row, ⟨hmem, ⟨hs, hr⟩, hc⟩, rfl⟩, hne⟩
    exact ⟨row, ⟨⟨hmem, Or.inr hne⟩, ⟨hs, hr⟩, hc⟩, rfl⟩

theorem commendStep_mem (ok : Stmt → Bool) (hall : ∀ s, ok s = true) (clock : SqlClock)
    (hclock : clock.threeMonthsAgo < clock.now) (sender target type : Nat)
    (newFlag existingFlag : Bool) (r : Run) (t : Nat) :
    t ∈ (commendStep ok clock sender target type newFlag existingFlag r).db.commendTypes
          clock sender target ↔
      if t = type then
        (if newFlag = existingFlag then t ∈ r.db.commendTypes clock sender target
          else newFlag = true)
      else t ∈ r.db.commendTypes clock sender target := by
  unfold commendStep
  cases newFlag <;> cases existingFlag <;>
    simp only [bne_self_eq_false, Bool.false_eq_true, if_false, if_true, Run.write, hall,
      mem_types_insert _ _ hclock, mem_types_delete, Bool.true_bne, Bool.false_bne,
      Bool.not_false, Bool.not_true, bne_iff_ne, ne_eq, not_true_eq_false, not_false_eq_true,
      reduceCtorEq] <;>
    by_cases h : t = type <;> simp [h]

theorem commendStep_same (ok : Stmt → Bool) (clock : SqlClock) (sender target type : Nat)
    (flag : Bool) (r : Run) : commendStep ok clock sender target type flag flag r = r := by
  simp [commendStep]

theorem HandleCommendPlayer_settled (ok : Stmt → Bool) (clock : SqlClock) (db : Database)
    (request : CommendRequest) (sender : Nat) (hs : sender ≠ 0)
    (hok : ok (Stmt.selectCommendTypes sender (targetSteamIdOf request.account_id)) = true)
    (h1 : decide (1 ∈ db.commendTypes clock sender (targetSteamIdOf request.account_id))
      = commendRequested request 1)
    (h2 : decide (2 ∈ db.commendTypes clock sender (targetSteamIdOf request.account_id))
      = commendRequested request 2)
    (h3 : decide (3 ∈ db.commendTypes clock sender (targetSteamIdOf request.account_id))
      = commendRequested request 3) :
    (HandleCommendPlayer ok clock db (some request) sender).db = db ∧
    writesOf (HandleCommendPlayer ok clock db (some request) sender).effects = [] := by
  have hrows : commendRows ok clock db sender (targetSteamIdOf request.account_id)
      = db.commendTypes clock sender (targetSteamIdOf request.account_id) := by
    simp [commendRows, hok]
  have hneed : commendNeedToken request
      (db.commendTypes clock sender (targetSteamIdOf request.account_id)) = false := by
    simp [commendNeedToken, h1, h2, h3]
  constructor
  · unfold HandleCommendPlayer
    simp only [hs, if_false, hrows, hneed, h1, h2, h3, commendStep_same, Bool.false_and,
      Bool.false_eq_true, if_false, Run.query]
  · rw [HandleCommendPlayer_writes ok clock db request sender hs, hrows, hneed]
    simp only [Bool.false_and, Bool.false_eq_true, if_false, commendDeltaRef,
      List.flatMap_cons, List.flatMap_nil, h1, h2, h3]
    cases commendRequested request 1 <;> cases commendRequested request 2 <;>
      cases commendRequested request 3 <;> rfl

theorem HandleCommendPlayer_processed_types (ok : Stmt → Bool) (hall : ∀ s, ok s = true)
    (clock : SqlClock) (hclock : clock.threeMonthsAgo < clock.now) (db : Database)
    (request : CommendRequest) (sender : Nat) (hs : sender ≠ 0)
    (hproc : ¬(commendNeedToken request
          (db.commendTypes clock sender (targetSteamIdOf request.account_id)) = true
        ∧ GetPlayerCommendTokens ok clock db sender ≤ 0)) :
    ∀ t ∈ [1, 2, 3],
      decide (t ∈ (HandleCommendPlayer ok clock db (some request) sender).db.commendTypes clock
        sender (targetSteamIdOf request.account_id)) = commendRequested request t := by
  have hrows : commendRows ok clock db sender (targetSteamIdOf request.account_id)
      = db.commendTypes clock sender (targetSteamIdOf request.account_id) := by
    simp [commendRows, hall]
  have hbody : (HandleCommendPlayer ok clock db (some request) sender).db
      = (commendStep ok clock sender (targetSteamIdOf request.account_id) 3
          (commendRequested request 3)
          (decide (3 ∈ db.commendTypes clock sender (targetSteamIdOf request.account_id)))
          (commendStep ok clock sender (targetSteamIdOf request.account_id) 2
            (commendRequested request 2)
            (decide (2 ∈ db.commendTypes clock sender (targetSteamIdOf request.account_id)))
            (commendStep ok clock sender (targetSteamIdOf request.account_id) 1
              (commendRequested request 1)
              (decide (1 ∈ db.commendTypes clock sender (targetSteamIdOf request.account_id)))
              { db := db }))).db := by
    unfold HandleCommendPlayer
    simp only [hs, if_false, hrows]
    have hcond : (commendNeedToken request
          (db.commendTypes clock sender (targetSteamIdOf request.account_id))
        && decide ((if commendNeedToken request
            (db.commendTypes clock sender (targetSteamIdOf request.account_id)) = true
          then GetPlayerCommendTokens ok clock db sender else 3) ≤ 0)) = false := by
      cases hn : commendNeedToken request
          (db.commendTypes clock sender (targetSteamIdOf request.account_id))
      · rfl
      · have : ¬ GetPlayerCommendTokens ok clock db sender ≤ 0 := fun h => hproc ⟨hn, h⟩
        simp [this]
    simp only [hcond, Bool.false_eq_true, if_false]
    have hdb : ∀ (t : Nat) (nw ex : Bool) (r r' : Run), r.db = r'.db →
        (commendStep ok clock sender (targetSteamIdOf request.account_id) t nw ex r).db
          = (commendStep ok clock sender (targetSteamIdOf request.account_id) t nw ex r').db := by
      intro t nw ex r r' h
      unfold commendStep
      cases nw <;> cases ex <;> simp [Run.write, h]
    apply hdb
    apply hdb
    apply hdb
    split <;> rfl
  intro t ht
  rw [hbody]
  simp only [List.mem_cons, List.mem_singleton, List.not_mem_nil, or_false] at ht
  have key := fun (ty : Nat) (nw ex : Bool) (r : Run) (t : Nat) =>
    commendStep_mem ok hall clock hclock sender (targetSteamIdOf request.account_id) ty nw ex r t
  rw [Bool.eq_iff_iff, decide_eq_true_eq]
  rcases ht with rfl | rfl | rfl
  · rw [key, key, key]
    simp only [show (1 : Nat) ≠ 3 by decide, show (1 : Nat) ≠ 2 by decide, if_false, if_true]
    cases hreq : commendRequested request 1 <;>
      by_cases hin : 1 ∈ db.commendTypes clock sender (targetSteamIdOf request.account_id) <;>
      simp [hin]
  · rw [key, key, key]
    simp only [show (2 : Nat) ≠ 3 by decide, show (2 : Nat) ≠ 1 by decide, if_false, if_true]
    cases hreq : commendRequested request 2 <;>
      by_cases hin : 2 ∈ db.commendTypes clock sender (targetSteamIdOf request.account_id) <;>
      simp [hin]
  · rw [key, key, key]
    simp only [show (3 : Nat) ≠ 2 by decide, show (3 : Nat) ≠ 1 by decide, if_false, if_true]
    cases hreq : commendRequested request 3 <;>
      by_cases hin : 3 ∈ db.commendTypes clock sender (targetSteamIdOf request.account_id) <;>
      simp [hin]

/-- C15: with every database statement succeeding and the clock standing still,
handling the same commend request a second time right after the first leaves the tables
as the first handling left them, so the stored commend types of sender→target in the
3-month window are the same, and the second handling sends no `INSERT` and no
`DELETE`. -/
theorem C15_commend_idempotent (ok : Stmt → Bool) (hall : ∀ s, ok s = true)
    (clock : SqlClock) (hclock : clock.threeMonthsAgo < clock.now) (db : Database)
    (request : Option CommendRequest) (sender : Nat) :
    (HandleCommendPlayer ok clock (HandleCommendPlayer ok clock db request sender).db request
        sender).db
      = (HandleCommendPlayer ok clock db request sender).db ∧
    writesOf (HandleCommendPlayer ok clock (HandleCommendPlayer ok clock db request sender).db
      request sender).effects = [] ∧
    ∀ target,
      (HandleCommendPlayer ok clock (HandleCommendPlayer ok clock db request sender).db request
          sender).db.commendTypes clock sender target
        = (HandleCommendPlayer ok clock db request sender).db.commendTypes clock sender
            target := by
  have main : (HandleCommendPlayer ok clock (HandleCommendPlayer ok clock db request sender).db
        request sender).db
      = (HandleCommendPlayer ok clock db request sender).db ∧
      writesOf (HandleCommendPlayer ok clock
        (HandleCommendPlayer ok clock db request sender).db request sender).effects = [] := by
    cases request with
    | none => exact ⟨rfl, rfl⟩
    | some request =>
      by_cases hs : sender = 0
      · subst hs; exact ⟨rfl, rfl⟩
      · have hrows : commendRows ok clock db sender (targetSteamIdOf request.account_id)
            = db.commendTypes clock sender (targetSteamIdOf request.account_id) := by
          simp [commendRows, hall]
        by_cases hrej : commendNeedToken request
              (db.commendTypes clock sender (targetSteamIdOf request.account_id)) = true
            ∧ GetPlayerCommendTokens ok clock db sender ≤ 0
        · have hdb := HandleCommendPlayer_rejected_db ok clock db request sender
            (by rw [hrows]; exact hrej)
          rw [hdb]
          refine ⟨hdb, ?_⟩
          rw [HandleCommendPlayer_writes ok clock db request sender hs, hrows]
          simp [hrej.1, hrej.2]
        · have ht := HandleCommendPlayer_processed_types ok hall clock hclock db request sender
            hs hrej
          exact HandleCommendPlayer_settled ok clock _ request sender hs (hall _)
            (ht 1 (by simp)) (ht 2 (by simp)) (ht 3 (by simp))
  exact ⟨main.1, main.2, fun target => by rw [main.1]⟩

/-- C15 (witness): the swap request of sender 7, handled twice on `swapStore`. -/
theorem C15_commend_idempotent_witness :
    (HandleCommendPlayer allOk sampleClock
        (HandleCommendPlayer allOk sampleClock swapStore (some swapRequest) 7).db
        (some swapRequest) 7).db
      = (HandleCommendPlayer allOk sampleClock swapStore (some swapRequest) 7).db ∧
    writesOf (HandleCommendPlayer allOk sampleClock
      (HandleCommendPlayer allOk sampleClock swapStore (some swapRequest) 7).db
      (some swapRequest) 7).effects = [] ∧
    ∀ target,
      (HandleCommendPlayer allOk sampleClock
          (HandleCommendPlayer allOk sampleClock swapStore (some swapRequest) 7).db
          (some swapRequest) 7).db.commendTypes sampleClock 7 target
        = (HandleCommendPlayer allOk sampleClock swapStore (some swapRequest) 7).db.commendTypes
            sampleClock 7 target :=
  C15_commend_idempotent allOk (fun _ => rfl) sampleClock (by decide) swapStore
    (some swapRequest) 7

theorem GetPlayerReportTokens_nonneg (ok : Stmt → Bool) (clock : SqlClock) (db : Database)
    (sender : Nat) : 0 ≤ GetPlayerReportTokens ok clock db sender := by
  unfold GetPlayerReportTokens
  split
  · exact le_max_left _ _
  · decide

theorem GetPlayerReportTokens_eq_zero (ok : Stmt → Bool) (clock : SqlClock) (db : Database)
    (sender : Nat) :
    GetPlayerReportTokens ok clock db sender = 0 ↔
      ok (Stmt.countReportReceivers sender) = true ∧ 6 ≤ db.reportReceivers clock sender := by
  unfold GetPlayerReportTokens
  split
  · rename_i h
    simp only [h, true_and]
    omega
  · rename_i h
    simp [h]

theorem HandlePlayerReport_no_tokens (ok : Stmt → Bool) (clock : SqlClock) (db : Database)
    (request : ReportRequest) (sender confirmation : Nat)
    (h : GetPlayerReportTokens ok clock db sender ≤ 0) :
    HandlePlayerReport ok clock db (some request) sender confirmation
      = { db := db
          effects :=
            [Effect.sql (Stmt.countReportReceivers sender)
               (ok (Stmt.countReportReceivers sender)),
             Effect.send
               { account_id := request.account_id, confirmation_id := confirmation,
                 server_ip := if request.match_id.isSome then some 0 else none,
                 response_type := 0, response_result := 2, tokens := 0 }] } := by
  unfold HandlePlayerReport
  simp [h, Run.query, Run.send]

theorem HandlePlayerReport_already (ok : Stmt → Bool) (clock : SqlClock) (db : Database)
    (request : ReportRequest) (sender confirmation : Nat)
    (ht : 0 < GetPlayerReportTokens ok clock db sender)
    (hok : ok (Stmt.countReports sender (targetSteamIdOf request.account_id)) = true)
    (hrow : 0 < db.reportCount clock sender (targetSteamIdOf request.account_id)) :
    HandlePlayerReport ok clock db (some request) sender confirmation
      = { db := db
          effects :=
            [Effect.sql (Stmt.countReportReceivers sender)
               (ok (Stmt.countReportReceivers sender)),
             Effect.sql (Stmt.countReports sender (targetSteamIdOf request.account_id)) true,
             Effect.send
               { account_id := request.account_id, confirmation_id := confirmation,
                 server_ip := if request.match_id.isSome then some 0 else none,
                 response_type := 0, response_result := 3,
                 tokens := GetPlayerReportTokens ok clock db sender }] } := by
  unfold HandlePlayerReport
  have h1 : ¬ GetPlayerReportTokens ok clock db sender ≤ 0 := by omega
  have h2 : db.reportCount clock sender (targetSteamIdOf request.account_id) ≠ 0 := by omega
  simp [h1, hok, h2, Run.query, Run.send]

/-- C17 (counterexample): sender 7 reported six distinct receivers in the last week
(n = 6); when the counting query fails the report for aim hacking is accepted: the
response carries result 0 and 5 tokens, and a row is inserted. -/
theorem C17_report_no_tokens_counterexample :
    sixReportsStore.reportReceivers sampleClock 7 = 6 ∧
    responsesOf (HandlePlayerReport countFails sampleClock sixReportsStore (some aimbotReport)
      7 42).effects
      = [{ account_id := 5, confirmation_id := 42, server_ip := some 0, response_type := 0,
           response_result := 0, tokens := 5 }] ∧
    writesOf (HandlePlayerReport countFails sampleClock sixReportsStore (some aimbotReport)
      7 42).effects = [Stmt.insertReport 7 (targetSteamIdOf 5) 1 9] := by
  decide

/-- C17 (amended): with n the number of distinct receivers the sender reported in the
last 7 days, the report budget is `max(0, 6 - n)` when the counting query succeeds (and
6 when it fails); whenever the budget is 0, that is, whenever the counting query
succeeds and n ≥ 6, `HandlePlayerReport` responds with result 2 (no tokens) and
tokens = 0 and inserts no report row, whatever report types are flagged. -/
theorem C17_report_no_tokens (ok : Stmt → Bool) (clock : SqlClock) (db : Database)
    (request : ReportRequest) (sender confirmation : Nat) :
    (ok (Stmt.countReportReceivers sender) = true →
      GetPlayerReportTokens ok clock db sender
        = max 0 (6 - (db.reportReceivers clock sender : Int))) ∧
    (ok (Stmt.countReportReceivers sender) = false →
      GetPlayerReportTokens ok clock db sender = 6) ∧
    (GetPlayerReportTokens ok clock db sender = 0 ↔
      ok (Stmt.countReportReceivers sender) = true ∧ 6 ≤ db.reportReceivers clock sender) ∧
    (GetPlayerReportTokens ok clock db sender = 0 →
      responsesOf (HandlePlayerReport ok clock db (some request) sender confirmation).effects
        = [{ account_id := request.account_id, confirmation_id := confirmation,
             server_ip := if request.match_id.isSome then some 0 else none,
             response_type := 0, response_result := 2, tokens := 0 }] ∧
      writesOf (HandlePlayerReport ok clock db (some request) sender confirmation).effects = [] ∧
      (HandlePlayerReport ok clock db (some request) sender confirmation).db = db) := by
  refine ⟨?_, ?_, GetPlayerReportTokens_eq_zero ok clock db sender, ?_⟩
  · intro hok
    simp [GetPlayerReportTokens, hok]
  · intro hok
    simp [GetPlayerReportTokens, hok]
  · intro h0
    rw [HandlePlayerReport_no_tokens ok clock db request sender confirmation (by omega)]
    exact ⟨rfl, rfl, rfl⟩

/-- C17 (witness): sender 7 with six distinct receivers in the last week, every
statement succeeding. -/
theorem C17_report_no_tokens_witness :
    responsesOf (HandlePlayerReport allOk sampleClock sixReportsStore (some aimbotReport)
        7 42).effects
      = [{ account_id := aimbotReport.account_id, confirmation_id := 42,
           server_ip := if aimbotReport.match_id.isSome then some 0 else none,
           response_type := 0, response_result := 2, tokens := 0 }] ∧
    writesOf (HandlePlayerReport allOk sampleClock sixReportsStore (some aimbotReport)
      7 42).effects = [] ∧
    (HandlePlayerReport allOk sampleClock sixReportsStore (some aimbotReport) 7 42).db
      = sixReportsStore :=
  (C17_report_no_tokens allOk sampleClock sixReportsStore aimbotReport 7 42).2.2.2 (by decide)

/-- C18 (counterexample): sender 7 has tokens and reported the target in the last week;
when the `COUNT(*)` of the existing reports fails the new report is accepted: a row is
inserted and the response carries result 0 and one token less. -/
theorem C18_already_reported_counterexample :
    GetPlayerReportTokens checkFails sampleClock reportedStore 7 = 5 ∧
    reportedStore.reportCount sampleClock 7 (targetSteamIdOf 5) = 1 ∧
    writesOf (HandlePlayerReport checkFails sampleClock reportedStore (some aimbotReport)
      7 42).effects = [Stmt.insertReport 7 (targetSteamIdOf 5) 1 9] ∧
    responsesOf (HandlePlayerReport checkFails sampleClock reportedStore (some aimbotReport)
      7 42).effects
      = [{ account_id := 5, confirmation_id := 42, server_ip := some 0, response_type := 0,
           response_result := 0, tokens := 4 }] := by
  decide

/-- C18 (amended): whenever the sender has at least one token, at least one report row
sender→target exists within the last 7 days and the `COUNT(*)` of those rows succeeds,
`HandlePlayerReport` answers with result 3 (already reported) and the token count
undecremented, and inserts no row. -/
theorem C18_already_reported (ok : Stmt → Bool) (clock : SqlClock) (db : Database)
    (request : ReportRequest) (sender confirmation : Nat)
    (ht : 0 < GetPlayerReportTokens ok clock db sender)
    (hrow : 0 < db.reportCount clock sender (targetSteamIdOf request.account_id))
    (hok : ok (Stmt.countReports sender (targetSteamIdOf request.account_id)) = true) :
    responsesOf (HandlePlayerReport ok clock db (some request) sender confirmation).effects
      = [{ account_id := request.account_id, confirmation_id := confirmation,
           server_ip := if request.match_id.isSome then some 0 else none,
           response_type := 0, response_result := 3,
           tokens := GetPlayerReportTokens ok clock db sender }] ∧
    writesOf (HandlePlayerReport ok clock db (some request) sender confirmation).effects = [] ∧
    (HandlePlayerReport ok clock db (some request) sender confirmation).db = db := by
  rw [HandlePlayerReport_already ok clock db request sender confirmation ht hok hrow]
  exact ⟨rfl, rfl, rfl⟩

/-- C18 (witness): sender 7 reports again the target reported at second 150000, every
statement succeeding. -/
theorem C18_already_reported_witness :
    responsesOf (HandlePlayerReport allOk sampleClock reportedStore (some aimbotReport)
        7 42).effects
      = [{ account_id := aimbotReport.account_id, confirmation_id := 42,
           server_ip := if aimbotReport.match_id.isSome then some 0 else none,
           response_type := 0, response_result := 3,
           tokens := GetPlayerReportTokens allOk sampleClock reportedStore 7 }] ∧
    writesOf (HandlePlayerReport allOk sampleClock reportedStore (some aimbotReport)
      7 42).effects = [] ∧
    (HandlePlayerReport allOk sampleClock reportedStore (some aimbotReport) 7 42).db
      = reportedStore :=
  C18_already_reported allOk sampleClock reportedStore aimbotReport 7 42 (by decide)
    (by decide) rfl

theorem reportLoop_effects (ok : Stmt → Bool) (clock : SqlClock) (sender target matchId : Nat) :
    ∀ (types : List (Nat × Bool)) (state : Run × Bool),
      (reportLoop ok clock sender target matchId types state).1.effects
        = state.1.effects ++ (types.filter (fun rt => rt.2)).map (fun rt =>
            Effect.sql (Stmt.insertReport sender target rt.1 matchId)
              (ok (Stmt.insertReport sender target rt.1 matchId))) := by
  intro types
  induction types with
  | nil => intro state; simp [reportLoop]
  | cons rt rest ih =>
    intro state
    obtain ⟨type, submitted⟩ := rt
    cases submitted
    · simp [reportLoop, ih]
    · simp [reportLoop, ih, Run.write]

theorem reportLoop_flag (ok : Stmt → Bool) (clock : SqlClock) (sender target matchId : Nat) :
    ∀ (types : List (Nat × Bool)) (state : Run × Bool),
      (reportLoop ok clock sender target matchId types state).2
        = (state.2 || (types.filter (fun rt => rt.2)).any (fun rt =>
            ok (Stmt.insertReport sender target rt.1 matchId))) := by
  intro types
  induction types with
  | nil => intro state; simp [reportLoop]
  | cons rt rest ih =>
    intro state
    obtain ⟨type, submitted⟩ := rt
    cases submitted
    · simp [reportLoop, ih]
    · cases hok : ok (Stmt.insertReport sender target type matchId) <;>
        simp [reportLoop, ih, hok]

theorem HandlePlayerReport_accept (ok : Stmt → Bool) (clock : SqlClock) (db : Database)
    (request : ReportRequest) (sender confirmation : Nat)
    (ht : 0 < GetPlayerReportTokens ok clock db sender)
    (hnone : db.reportCount clock sender (targetSteamIdOf request.account_id) = 0)
    (hflag : (reportTypes request).filter (fun rt => rt.2) ≠ []) :
    HandlePlayerReport ok clock db (some request) sender confirmation
      = (reportLoop ok clock sender (targetSteamIdOf request.account_id)
            (request.match_id.getD 0) (reportTypes request)
            ({ db := db
               effects :=
                 [Effect.sql (Stmt.countReportReceivers sender)
                    (ok (Stmt.countReportReceivers sender)),
                  Effect.sql (Stmt.countReports sender (targetSteamIdOf request.account_id))
                    (ok (Stmt.countReports sender (targetSteamIdOf request.account_id)))] },
             false)).1.send
          { account_id := request.account_id, confirmation_id := confirmation,
            server_ip := if request.match_id.isSome then some 0 else none,
            response_type := 0,
            response_result :=
              if (reportLoop ok clock sender (targetSteamIdOf request.account_id)
                (request.match_id.getD 0) (reportTypes request)
                ({ db := db
                   effects :=
                     [Effect.sql (Stmt.countReportReceivers sender)
                        (ok (Stmt.countReportReceivers sender)),
                      Effect.sql (Stmt.countReports sender (targetSteamIdOf request.account_id))
                        (ok (Stmt.countReports sender
                          (targetSteamIdOf request.account_id)))] },
                 false)).2 then 0 else 1,
            tokens :=
              if (reportLoop ok clock sender (targetSteamIdOf request.account_id)
                (request.match_id.getD 0) (reportTypes request)
                ({ db := db
                   effects :=
                     [Effect.sql (Stmt.countReportReceivers sender)
                        (ok (Stmt.countReportReceivers sender)),
                      Effect.sql (Stmt.countReports sender (targetSteamIdOf request.account_id))
                        (ok (Stmt.countReports sender
                          (targetSteamIdOf request.account_id)))] },
                 false)).2 then GetPlayerReportTokens ok clock db sender - 1
              else GetPlayerReportTokens ok clock db sender } := by
  unfold HandlePlayerReport
  have h1 : ¬ GetPlayerReportTokens ok clock db sender ≤ 0 := by omega
  have h2 : ((reportTypes request).filter (fun rt => rt.2)).length ≠ 0 := by
    intro h
    exact hflag (List.length_eq_zero.mp h)
  have h3 : (if ok (Stmt.countReports sender (targetSteamIdOf request.account_id)) = true then
      db.reportCount clock sender (targetSteamIdOf request.account_id) == 0 else true) = true := by
    split <;> simp [hnone]
  simp only [h1, h2, h3, if_false, Bool.not_true, Bool.false_eq_true, Run.query,
    List.nil_append, List.cons_append]
  split <;> rfl

theorem writesOf_reportInserts (ok : Stmt → Bool) (sender target matchId : Nat)
    (types : List (Nat × Bool)) :
    writesOf (types.map (fun rt =>
        Effect.sql (Stmt.insertReport sender target rt.1 matchId)
          (ok (Stmt.insertReport sender target rt.1 matchId))))
      = types.map (fun rt => Stmt.insertReport sender target rt.1 matchId) := by
  induction types with
  | nil => rfl
  | cons rt rest ih =>
    simp only [List.map_cons, writesOf, List.filterMap_cons] at ih ⊢
    rw [ih]

theorem reportInserts_explicit (request : ReportRequest) (sender target matchId : Nat) :
    ((reportTypes request).filter (fun rt => rt.2)).map
        (fun rt => Stmt.insertReport sender target rt.1 matchId)
      = (if request.rpt_aimbot > 0 then [Stmt.insertReport sender target 1 matchId] else [])
        ++ (if request.rpt_wallhack > 0 then [Stmt.insertReport sender target 2 matchId] else [])
        ++ (if request.rpt_speedhack > 0 then [Stmt.insertReport sender target 3 matchId] else [])
        ++ (if request.rpt_teamharm > 0 then [Stmt.insertReport sender target 4 matchId] else [])
        ++ (if request.rpt_textabuse > 0 then [Stmt.insertReport sender target 5 matchId] else [])
        ++ (if request.rpt_voiceabuse > 0 then [Stmt.insertReport sender target 6 matchId]
            else []) := by
  by_cases h1 : request.rpt_aimbot > 0 <;> by_cases h2 : request.rpt_wallhack > 0 <;>
    by_cases h3 : request.rpt_speedhack > 0 <;> by_cases h4 : request.rpt_teamharm > 0 <;>
    by_cases h5 : request.rpt_textabuse > 0 <;> by_cases h6 : request.rpt_voiceabuse > 0 <;>
    simp [reportTypes, h1, h2, h3, h4, h5, h6]

theorem flagged_ne_nil (request : ReportRequest)
    (hflag : 0 < request.rpt_aimbot ∨ 0 < request.rpt_wallhack ∨ 0 < request.rpt_speedhack ∨
      0 < request.rpt_teamharm ∨ 0 < request.rpt_textabuse ∨ 0 < request.rpt_voiceabuse) :
    (reportTypes request).filter (fun rt => rt.2) ≠ [] := by
  intro h
  have hall := List.filter_eq_nil_iff.mp h
  simp only [reportTypes, List.mem_cons, List.mem_singleton, List.not_mem_nil, or_false,
    forall_eq_or_imp, forall_eq, decide_eq_true_eq, not_lt, Nat.le_zero] at hall
  omega

/-- C19: when the sender has tokens, no report row sender→target lies within the last
7 days and at least one type is flagged, `HandlePlayerReport` sends exactly one
`INSERT` per flagged type, in the order and with the type codes 1 aimbot, 2 wallhack,
3 speedhack, 4 teamharm, 5 textabuse, 6 voiceabuse, each with the request's match id
(0 if absent); and if at least one of them succeeds the response has result 0 and
tokens = available − 1. -/
theorem C19_report_insertion (ok : Stmt → Bool) (clock : SqlClock) (db : Database)
    (request : ReportRequest) (sender confirmation : Nat)
    (ht : 0 < GetPlayerReportTokens ok clock db sender)
    (hnone : db.reportCount clock sender (targetSteamIdOf request.account_id) = 0)
    (hflag : 0 < request.rpt_aimbot ∨ 0 < request.rpt_wallhack ∨ 0 < request.rpt_speedhack ∨
      0 < request.rpt_teamharm ∨ 0 < request.rpt_textabuse ∨ 0 < request.rpt_voiceabuse) :
    writesOf (HandlePlayerReport ok clock db (some request) sender confirmation).effects
      = (if request.rpt_aimbot > 0 then
            [Stmt.insertReport sender (targetSteamIdOf request.account_id) 1
              (request.match_id.getD 0)] else [])
        ++ (if request.rpt_wallhack > 0 then
            [Stmt.insertReport sender (targetSteamIdOf request.account_id) 2
              (request.match_id.getD 0)] else [])
        ++ (if request.rpt_speedhack > 0 then
            [Stmt.insertReport sender (targetSteamIdOf request.account_id) 3
              (request.match_id.getD 0)] else [])
        ++ (if request.rpt_teamharm > 0 then
            [Stmt.insertReport sender (targetSteamIdOf request.account_id) 4
              (request.match_id.getD 0)] else [])
        ++ (if request.rpt_textabuse > 0 then
            [Stmt.insertReport sender (targetSteamIdOf request.account_id) 5
              (request.match_id.getD 0)] else [])
        ++ (if request.rpt_voiceabuse > 0 then
            [Stmt.insertReport sender (targetSteamIdOf request.account_id) 6
              (request.match_id.getD 0)] else []) ∧
    ((∃ s ∈ writesOf (HandlePlayerReport ok clock db (some request) sender
          confirmation).effects, ok s = true) →
      responsesOf (HandlePlayerReport ok clock db (some request) sender confirmation).effects
        = [{ account_id := request.account_id, confirmation_id := confirmation,
             server_ip := if request.match_id.isSome then some 0 else none,
             response_type := 0, response_result := 0,
             tokens := GetPlayerReportTokens ok clock db sender - 1 }]) := by
  have hacc := HandlePlayerReport_accept ok clock db request sender confirmation ht hnone
    (flagged_ne_nil request hflag)
  have hw : writesOf (HandlePlayerReport ok clock db (some request) sender confirmation).effects
      = ((reportTypes request).filter (fun rt => rt.2)).map (fun rt =>
          Stmt.insertReport sender (targetSteamIdOf request.account_id) rt.1
            (request.match_id.getD 0)) := by
    rw [hacc]
    simp only [Run.send, reportLoop_effects, writesOf_append, writesOf_reportInserts]
    simp [writesOf]
  refine ⟨by rw [hw, reportInserts_explicit], ?_⟩
  rintro ⟨s, hs, hoks⟩
  rw [hw] at hs
  obtain ⟨rt, hrt, rfl⟩ := List.mem_map.mp hs
  have hflagTrue : (reportLoop ok clock sender (targetSteamIdOf request.account_id)
      (request.match_id.getD 0) (reportTypes request)
      ({ db := db
         effects :=
           [Effect.sql (Stmt.countReportReceivers sender)
              (ok (Stmt.countReportReceivers sender)),
            Effect.sql (Stmt.countReports sender (targetSteamIdOf request.account_id))
              (ok (Stmt.countReports sender (targetSteamIdOf request.account_id)))] },
       false)).2 = true := by
    rw [reportLoop_flag]
    simp only [Bool.false_or, List.any_eq_true]
    exact ⟨rt, hrt, hoks⟩
  rw [hacc]
  simp only [hflagTrue, if_true, Run.send, reportLoop_effects, responsesOf_append]
  have hq : ∀ l : List (Nat × Bool), responsesOf (l.map (fun rt =>
      Effect.sql (Stmt.insertReport sender (targetSteamIdOf request.account_id) rt.1
        (request.match_id.getD 0))
        (ok (Stmt.insertReport sender (targetSteamIdOf request.account_id) rt.1
          (request.match_id.getD 0))))) = [] := by
    intro l
    induction l with
    | nil => rfl
    | cons x xs ih =>
      simp only [List.map_cons, responsesOf, List.filterMap_cons] at ih ⊢
      rw [ih]
  rw [hq]
  rfl

/-- C19 (witness): sender 7 reports the target of account 5 for aim hacking in match 9
on an empty store, every statement succeeding. -/
theorem C19_report_insertion_witness :
    writesOf (HandlePlayerReport allOk sampleClock {} (some aimbotReport) 7 42).effects
      = (if aimbotReport.rpt_aimbot > 0 then
            [Stmt.insertReport 7 (targetSteamIdOf aimbotReport.account_id) 1
              (aimbotReport.match_id.getD 0)] else [])
        ++ (if aimbotReport.rpt_wallhack > 0 then
            [Stmt.insertReport 7 (targetSteamIdOf aimbotReport.account_id) 2
              (aimbotReport.match_id.getD 0)] else [])
        ++ (if aimbotReport.rpt_speedhack > 0 then
            [Stmt.insertReport 7 (targetSteamIdOf aimbotReport.account_id) 3
              (aimbotReport.match_id.getD 0)] else [])
        ++ (if aimbotReport.rpt_teamharm > 0 then
            [Stmt.insertReport 7 (targetSteamIdOf aimbotReport.account_id) 4
              (aimbotReport.match_id.getD 0)] else [])
        ++ (if aimbotReport.rpt_textabuse > 0 then
            [Stmt.insertReport 7 (targetSteamIdOf aimbotReport.account_id) 5
              (aimbotReport.match_id.getD 0)] else [])
        ++ (if aimbotReport.rpt_voiceabuse > 0 then
            [Stmt.insertReport 7 (targetSteamIdOf aimbotReport.account_id) 6
              (aimbotReport.match_id.getD 0)] else []) ∧
    ((∃ s ∈ writesOf (HandlePlayerReport allOk sampleClock {} (some aimbotReport) 7
          42).effects, allOk s = true) →
      responsesOf (HandlePlayerReport allOk sampleClock {} (some aimbotReport) 7 42).effects
        = [{ account_id := aimbotReport.account_id, confirmation_id := 42,
             server_ip := if aimbotReport.match_id.isSome then some 0 else none,
             response_type := 0, response_result := 0,
             tokens := GetPlayerReportTokens allOk sampleClock {} 7 - 1 }]) :=
  C19_report_insertion allOk sampleClock {} aimbotReport 7 42 (by decide) (by decide)
    (by decide)

theorem notifiedOf_reportInserts (ok : Stmt → Bool) (sender target matchId : Nat)
    (types : List (Nat × Bool)) :
    notifiedOf (types.map (fun rt =>
        Effect.sql (Stmt.insertReport sender target rt.1 matchId)
          (ok (Stmt.insertReport sender target rt.1 matchId)))) = [] := by
  induction types with
  | nil => rfl
  | cons rt rest ih =>
    simp only [List.map_cons, notifiedOf, List.filterMap_cons] at ih ⊢
    rw [ih]

theorem HandlePlayerReport_notified (ok : Stmt → Bool) (clock : SqlClock) (db : Database)
    (request : Option ReportRequest) (sender confirmation : Nat) :
    notifiedOf (HandlePlayerReport ok clock db request sender confirmation).effects = [] := by
  cases request with
  | none => rfl
  | some request =>
    unfold HandlePlayerReport
    simp only
    repeat' split
    all_goals
      first
        | rfl
        | (simp only [Run.send, Run.query, reportLoop_effects, notifiedOf_append,
            notifiedOf_reportInserts]; rfl)

/-- C20 (counterexample): the report of sender 7 for aim hacking on an empty store is
accepted, its row is inserted and the response carries result 0, and nothing is handed
to the notifier. -/
theorem C20_report_fanout_counterexample :
    (HandlePlayerReport allOk sampleClock {} (some aimbotReport) 7 42).db.player_reports
      = [{ sender_steamid64 := 7, receiver_steamid64 := targetSteamIdOf 5, type := 1,
           match_id := 9, created_at := 200000 }] ∧
    (responsesOf (HandlePlayerReport allOk sampleClock {} (some aimbotReport) 7 42).effects).map
      (fun response => response.response_result) = [0] ∧
    notifiedOf (HandlePlayerReport allOk sampleClock {} (some aimbotReport) 7 42).effects
      = [] := by
  decide

/-- C20 (amended): `HandlePlayerReport` hands nothing to the moderation notifier,
whether it inserts report rows or rejects the report; and
`DiscordNotifier::SendReportNotification`, when something calls it, posts the one
`ReportData` it was given as a batch of one if the notifier is enabled and posts
nothing if it is disabled. -/
theorem C20_report_fanout :
    (∀ (ok : Stmt → Bool) (clock : SqlClock) (db : Database) (request : Option ReportRequest)
        (sender confirmation : Nat),
      notifiedOf (HandlePlayerReport ok clock db request sender confirmation).effects = []) ∧
    (∀ (d : DiscordNotifier) (post : List ReportData → Bool) (report : ReportData),
      d.SendReportNotification post report
        = if d.m_enabled then (post [report], [[report]]) else (false, [])) := by
  refine ⟨HandlePlayerReport_notified, ?_⟩
  intro d post report
  cases h : d.m_enabled <;>
    simp [DiscordNotifier.SendReportNotification, DiscordNotifier.SendBatchReportNotification, h]

/-! ## Properties of the rank and id conversions and of the token lookups -/

theorem rank_index_mono (a b : Int) (h : a ≤ b) :
    (rankThresholds.filter (fun t => decide (t ≤ a))).length
      ≤ (rankThresholds.filter (fun t => decide (t ≤ b))).length := by
  apply List.Sublist.length_le
  apply List.monotone_filter_right
  intro t ht
  simp only [decide_eq_true_eq] at ht ⊢
  omega

theorem rank_index (score : Int) :
    (ScoreToRankId score).index
      = (rankThresholds.filter (fun t => decide (t ≤ score))).length := by
  unfold ScoreToRankId rankThresholds
  by_cases h0 : score < 100
  · rw [if_pos h0]
    repeat (first
      | rw [List.filter_cons_of_pos (by simp only [decide_eq_true_eq]; omega)]
      | rw [List.filter_cons_of_neg (by simp only [decide_eq_true_eq]; omega)])
    rfl
  rw [if_neg h0]
  by_cases h1 : score < 150
  · rw [if_pos h1]
    repeat (first
      | rw [List.filter_cons_of_pos (by simp only [decide_eq_true_eq]; omega)]
      | rw [List.filter_cons_of_neg (by simp only [decide_eq_true_eq]; omega)])
    rfl
  rw [if_neg h1]
  by_cases h2 : score < 200
  · rw [if_pos h2]
    repeat (first
      | rw [List.filter_cons_of_pos (by simp only [decide_eq_true_eq]; omega)]
      | rw [List.filter_cons_of_neg (by simp only [decide_eq_true_eq]; omega)])
    rfl
  rw [if_neg h2]
  by_cases h3 : score < 300
  · rw [if_pos h3]
    repeat (first
      | rw [List.filter_cons_of_pos (by simp only [decide_eq_true_eq]; omega)]
      | rw [List.filter_cons_of_neg (by simp only [decide_eq_true_eq]; omega)])
    rfl
  rw [if_neg h3]
  by_cases h4 : score < 400
  · rw [if_pos h4]
    repeat (first
      | rw [List.filter_cons_of_pos (by simp only [decide_eq_true_eq]; omega)]
      | rw [List.filter_cons_of_neg (by simp only [decide_eq_true_eq]; omega)])
    rfl
  rw [if_neg h4]
  by_cases h5 : score < 500
  · rw [if_pos h5]
    repeat (first
      | rw [List.filter_cons_of_pos (by simp only [decide_eq_true_eq]; omega)]
      | rw [List.filter_cons_of_neg (by simp only [decide_eq_true_eq]; omega)])
    rfl
  rw [if_neg h5]
  by_cases h6 : score < 600
  · rw [if_pos h6]
    repeat (first
      | rw [List.filter_cons_of_pos (by simp only [decide_eq_true_eq]; omega)]
      | rw [List.filter_cons_of_neg (by simp only [decide_eq_true_eq]; omega)])
    rfl
  rw [if_neg h6]
  by_cases h7 : score < 750
  · rw [if_pos h7]
    repeat (first
      | rw [List.filter_cons_of_pos (by simp only [decide_eq_true_eq]; omega)]
      | rw [List.filter_cons_of_neg (by simp only [decide_eq_true_eq]; omega)])
    rfl
  rw [if_neg h7]
  by_cases h8 : score < 900
  · rw [if_pos h8]
    repeat (first
      | rw [List.filter_cons_of_pos (by simp only [decide_eq_true_eq]; omega)]
      | rw [List.filter_cons_of_neg (by simp only [decide_eq_true_eq]; omega)])
    rfl
  rw [if_neg h8]
  by_cases h9 : score < 1050
  · rw [if_pos h9]
    repeat (first
      | rw [List.filter_cons_of_pos (by simp only [decide_eq_true_eq]; omega)]
      | rw [List.filter_cons_of_neg (by simp only [decide_eq_true_eq]; omega)])
    rfl
  rw [if_neg h9]
  by_cases h10 : score < 1200
  · rw [if_pos h10]
    repeat (first
      | rw [List.filter_cons_of_pos (by simp only [decide_eq_true_eq]; omega)]
      | rw [List.filter_cons_of_neg (by simp only [decide_eq_true_eq]; omega)])
    rfl
  rw [if_neg h10]
  by_cases h11 : score < 1400
  · rw [if_pos h11]
    repeat (first
      | rw [List.filter_cons_of_pos (by simp only [decide_eq_true_eq]; omega)]
      | rw [List.filter_cons_of_neg (by simp only [decide_eq_true_eq]; omega)])
    rfl
  rw [if_neg h11]
  by_cases h12 : score < 1600
  · rw [if_pos h12]
    repeat (first
      | rw [List.filter_cons_of_pos (by simp only [decide_eq_true_eq]; omega)]
      | rw [List.filter_cons_of_neg (by simp only [decide_eq_true_eq]; omega)])
    rfl
  rw [if_neg h12]
  by_cases h13 : score < 1800
  · rw [if_pos h13]
    repeat (first
      | rw [List.filter_cons_of_pos (by simp only [decide_eq_true_eq]; omega)]
      | rw [List.filter_cons_of_neg (by simp only [decide_eq_true_eq]; omega)])
    rfl
  rw [if_neg h13]
  by_cases h14 : score < 2000
  · rw [if_pos h14]
    repeat (first
      | rw [List.filter_cons_of_pos (by simp only [decide_eq_true_eq]; omega)]
      | rw [List.filter_cons_of_neg (by simp only [decide_eq_true_eq]; omega)])
    rfl
  rw [if_neg h14]
  by_cases h15 : score < 2200
  · rw [if_pos h15]
    repeat (first
      | rw [List.filter_cons_of_pos (by simp only [decide_eq_true_eq]; omega)]
      | rw [List.filter_cons_of_neg (by simp only [decide_eq_true_eq]; omega)])
    rfl
  rw [if_neg h15]
  by_cases h16 : score < 2400
  · rw [if_pos h16]
    repeat (first
      | rw [List.filter_cons_of_pos (by simp only [decide_eq_true_eq]; omega)]
      | rw [List.filter_cons_of_neg (by simp only [decide_eq_true_eq]; omega)])
    rfl
  rw [if_neg h16]
  by_cases h17 : score < 2700
  · rw [if_pos h17]
    repeat (first
      | rw [List.filter_cons_of_pos (by simp only [decide_eq_true_eq]; omega)]
      | rw [List.filter_cons_of_neg (by simp only [decide_eq_true_eq]; omega)])
    rfl
  rw [if_neg h17]
  repeat rw [List.filter_cons_of_pos (by simp only [decide_eq_true_eq]; omega)]
  rfl

/-- C22: for every integer score the index of `ScoreToRankId(score)`, in the order in
which the function lists the ranks, is the number of thresholds t with t ≤ score; so
the mapping is monotonic non-decreasing, and a score equal to a threshold gets the rank
one above that of the score just below. -/
theorem C22_score_to_rank :
    (∀ score : Int,
      (ScoreToRankId score).index
        = (rankThresholds.filter (fun t => decide (t ≤ score))).length) ∧
    (∀ a b : Int, a ≤ b → (ScoreToRankId a).index ≤ (ScoreToRankId b).index) ∧
    (∀ t ∈ rankThresholds,
      (ScoreToRankId t).index = (ScoreToRankId (t - 1)).index + 1) ∧
    (∀ score : Int, (ScoreToRankId score).index ≤ 18) ∧
    (ScoreToRankId 99 = RankId.RankNone ∧ ScoreToRankId 100 = RankId.RankSilver1 ∧
      ScoreToRankId 2699 = RankId.RankSupremeMasterFirstClass ∧
      ScoreToRankId 2700 = RankId.RankGlobalElite) := by
  refine ⟨rank_index, ?_, by decide, ?_, by decide⟩
  · intro a b h
    rw [rank_index, rank_index]
    exact rank_index_mono a b h
  · intro score
    rw [rank_index]
    exact List.length_filter_le _ _

theorem tokensLeft_eq_zero (d : Int) (hd : 0 < d) (outcome : CountOutcome) :
    tokensLeft d outcome = 0 ↔ ∃ c : Int, outcome = CountOutcome.row (some c) ∧ d ≤ c := by
  cases outcome with
  | row value =>
    cases value with
    | none =>
      simp only [tokensLeft, Option.getD_none]
      constructor
      · intro h; omega
      · rintro ⟨c, hc, -⟩; cases hc
    | some c =>
      simp only [tokensLeft, Option.getD_some]
      constructor
      · intro h; exact ⟨c, rfl, by omega⟩
      · rintro ⟨c2, hc, hle⟩
        cases hc
        omega
  | queryFailed =>
    simp only [tokensLeft]
    constructor
    · intro h; omega
    · rintro ⟨c, hc, -⟩; cases hc
  | noResult =>
    simp only [tokensLeft]
    constructor
    · intro h; omega
    · rintro ⟨c, hc, -⟩; cases hc
  | noRow =>
    simp only [tokensLeft]
    constructor
    · intro h; omega
    · rintro ⟨c, hc, -⟩; cases hc

/-- C30: whenever the counting query fails, gives no result or gives no row,
`GetPlayerCommendTokens` returns 3 and `GetPlayerReportTokens` returns 6; they return 0
only when there is a row whose count is at least 3 (respectively 6); and for a
non-negative count (or a `NULL`) the result lies within 0..3 (respectively 0..6). On
the stored tables: the lookups are `tokensLeft` of the counting query's outcome, equal
to the full budget when the statement fails. -/
theorem C30_fail_open (ok : Stmt → Bool) (clock : SqlClock) (db : Database) (steamId : Nat) :
    (tokensLeft 3 CountOutcome.queryFailed = 3 ∧ tokensLeft 3 CountOutcome.noResult = 3 ∧
      tokensLeft 3 CountOutcome.noRow = 3) ∧
    (tokensLeft 6 CountOutcome.queryFailed = 6 ∧ tokensLeft 6 CountOutcome.noResult = 6 ∧
      tokensLeft 6 CountOutcome.noRow = 6) ∧
    (∀ outcome, tokensLeft 3 outcome = 0 ↔
      ∃ c : Int, outcome = CountOutcome.row (some c) ∧ 3 ≤ c) ∧
    (∀ outcome, tokensLeft 6 outcome = 0 ↔
      ∃ c : Int, outcome = CountOutcome.row (some c) ∧ 6 ≤ c) ∧
    (∀ value : Option Int, 0 ≤ value.getD 0 →
      0 ≤ tokensLeft 3 (CountOutcome.row value) ∧ tokensLeft 3 (CountOutcome.row value) ≤ 3 ∧
      0 ≤ tokensLeft 6 (CountOutcome.row value) ∧ tokensLeft 6 (CountOutcome.row value) ≤ 6) ∧
    GetPlayerCommendTokens ok clock db steamId
      = tokensLeft 3 (countOutcome (ok (Stmt.countCommendReceivers steamId))
          (db.commendReceivers clock steamId)) ∧
    GetPlayerReportTokens ok clock db steamId
      = tokensLeft 6 (countOutcome (ok (Stmt.countReportReceivers steamId))
          (db.reportReceivers clock steamId)) ∧
    (ok (Stmt.countCommendReceivers steamId) = false →
      GetPlayerCommendTokens ok clock db steamId = 3) ∧
    (ok (Stmt.countReportReceivers steamId) = false →
      GetPlayerReportTokens ok clock db steamId = 6) ∧
    (GetPlayerCommendTokens ok clock db steamId = 0 →
      ok (Stmt.countCommendReceivers steamId) = true ∧ 3 ≤ db.commendReceivers clock steamId) ∧
    (GetPlayerReportTokens ok clock db steamId = 0 →
      ok (Stmt.countReportReceivers steamId) = true ∧ 6 ≤ db.reportReceivers clock steamId) ∧
    (0 ≤ GetPlayerCommendTokens ok clock db steamId ∧
      GetPlayerCommendTokens ok clock db steamId ≤ 3) ∧
    (0 ≤ GetPlayerReportTokens ok clock db steamId ∧
      GetPlayerReportTokens ok clock db steamId ≤ 6) := by
  refine ⟨⟨rfl, rfl, rfl⟩, ⟨rfl, rfl, rfl⟩, tokensLeft_eq_zero 3 (by decide),
    tokensLeft_eq_zero 6 (by decide), ?_, ?_, ?_, ?_, ?_, ?_, ?_, ?_, ?_⟩
  · intro value h
    simp only [tokensLeft]
    omega
  · unfold GetPlayerCommendTokens countOutcome
    cases ok (Stmt.countCommendReceivers steamId) <;> simp [tokensLeft]
  · unfold GetPlayerReportTokens countOutcome
    cases ok (Stmt.countReportReceivers steamId) <;> simp [tokensLeft]
  · intro h
    simp [GetPlayerCommendTokens, h]
  · intro h
    simp [GetPlayerReportTokens, h]
  · exact (GetPlayerCommendTokens_eq_zero ok clock db steamId).mp
  · exact (GetPlayerReportTokens_eq_zero ok clock db steamId).mp
  · unfold GetPlayerCommendTokens
    split <;> omega
  · unfold GetPlayerReportTokens
    split <;> omega

/-- C30 (witness): sender 7 on `spentStore` (three receivers in the last day) and a
server on which the counting queries fail. -/
theorem C30_fail_open_witness :
    GetPlayerCommendTokens countFails sampleClock spentStore 7 = 3 ∧
    GetPlayerReportTokens countFails sampleClock spentStore 7 = 6 :=
  ⟨(C30_fail_open countFails sampleClock spentStore 7).2.2.2.2.2.2.2.1 rfl,
   (C30_fail_open countFails sampleClock spentStore 7).2.2.2.2.2.2.2.2.1 rfl⟩

/-- C23 (counterexample): for the 64-bit id 76561197960265733 the function gives
`STEAM_1:1:2`, the low 32 bits halved, where the formula over the whole id gives
`STEAM_1:1:38280598980132866`. -/
theorem C23_steamid2_counterexample :
    SteamID64ToSteamID2 76561197960265733 = "STEAM_1:1:2" ∧
    steamId2Ref 76561197960265733 = "STEAM_1:1:38280598980132866" ∧
    SteamID64ToSteamID2 76561197960265733 ≠ steamId2Ref 76561197960265733 := by
  decide

theorem steamId2_parts (x : Nat) :
    (x &&& 1) % 2 ^ 32 = x % 2 ∧
    (((x &&& 0xFFFFFFFF) + 2 ^ 64 - (x &&& 1) % 2 ^ 32) % 2 ^ 64 / 2) % 2 ^ 32
      = (x % 2 ^ 32) / 2 := by
  have h1 : x &&& 1 = x % 2 := Nat.and_one_is_mod x
  have h2 : x &&& 0xFFFFFFFF = x % 2 ^ 32 := Nat.and_pow_two_sub_one_eq_mod x 32
  rw [h1, h2]
  omega

/-- C23 (amended): for every 64-bit id x, `SteamID64ToSteamID2(x)` is the string
`"STEAM_1:"` followed by the decimal of `x & 1`, then `":"`, then the decimal of
`((x & 0xFFFFFFFF) − (x & 1)) / 2`, the halved low 32 bits of x; for x below 2^32 this
is the decimal of `(x − (x & 1)) / 2`. -/
theorem C23_steamid2 (x : Nat) :
    SteamID64ToSteamID2 x
      = "STEAM_1:" ++ toString (x &&& 1) ++ ":"
          ++ toString (((x &&& 0xFFFFFFFF) - (x &&& 1)) / 2) ∧
    (x < 2 ^ 32 → SteamID64ToSteamID2 x = steamId2Ref x) := by
  have hp := steamId2_parts x
  have h1 : x &&& 1 = x % 2 := Nat.and_one_is_mod x
  have h2 : x &&& 0xFFFFFFFF = x % 2 ^ 32 := Nat.and_pow_two_sub_one_eq_mod x 32
  have hz : ((x &&& 0xFFFFFFFF) - (x &&& 1)) / 2 = (x % 2 ^ 32) / 2 := by
    rw [h1, h2]; omega
  have hy : (x &&& 1) % 2 ^ 32 = x &&& 1 := by rw [h1]; omega
  constructor
  · unfold SteamID64ToSteamID2
    dsimp only []
    rw [hp.2, hy, hz]
  · intro hx
    have hr : (x - (x &&& 1)) / 2 = (x % 2 ^ 32) / 2 := by
      rw [h1]; omega
    unfold SteamID64ToSteamID2 steamId2Ref
    dsimp only []
    rw [hp.2, hy, hr]

/-- C23 (witness): the id 5, below 2^32. -/
theorem C23_steamid2_witness :
    SteamID64ToSteamID2 5
      = "STEAM_1:" ++ toString (5 &&& 1) ++ ":"
          ++ toString (((5 &&& 0xFFFFFFFF) - (5 &&& 1)) / 2) ∧
    (5 < 2 ^ 32 → SteamID64ToSteamID2 5 = steamId2Ref 5) :=
  C23_steamid2 5

theorem targetSteamIdOf_eq (a : Nat) (ha : a < 2 ^ 32) :
    targetSteamIdOf a = 2 ^ 56 + 2 ^ 52 + 2 ^ 32 + a := by
  have hc : (1 <<< 56) ||| (1 <<< 52) ||| (1 <<< 32) = (2 ^ 24 + 2 ^ 20 + 1) <<< 32 := by
    decide
  unfold targetSteamIdOf
  rw [hc, Nat.shiftLeft_eq, Nat.mul_comm, ← Nat.mul_add_lt_is_or ha]
  norm_num

/-- C24: for every 32-bit account id a, the target id the handlers derive,
`(1<<56) | (1<<52) | (1<<32) | a`, is the 64-bit number 2^56 + 2^52 + 2^32 + a, its low
32 bits are a, and `SteamID64ToSteamID2` of it is `"STEAM_1:"` (a mod 2) `":"`
(a div 2). -/
theorem C24_target_id (a : Nat) (ha : a < 2 ^ 32) :
    targetSteamIdOf a = (1 <<< 56) ||| (1 <<< 52) ||| (1 <<< 32) ||| a ∧
    targetSteamIdOf a = 2 ^ 56 + 2 ^ 52 + 2 ^ 32 + a ∧
    targetSteamIdOf a < 2 ^ 64 ∧
    targetSteamIdOf a &&& 0xFFFFFFFF = a ∧
    targetSteamIdOf a % 2 ^ 32 = a ∧
    SteamID64ToSteamID2 (targetSteamIdOf a)
      = "STEAM_1:" ++ toString (a % 2) ++ ":" ++ toString (a / 2) := by
  have he := targetSteamIdOf_eq a ha
  have hm : targetSteamIdOf a % 2 ^ 32 = a := by rw [he]; omega
  have hp := steamId2_parts (targetSteamIdOf a)
  refine ⟨rfl, he, by rw [he]; omega, ?_, hm, ?_⟩
  · rw [show (0xFFFFFFFF : Nat) = 2 ^ 32 - 1 by decide, Nat.and_pow_two_sub_one_eq_mod, hm]
  · have h2 : targetSteamIdOf a % 2 = a % 2 := by rw [he]; omega
    unfold SteamID64ToSteamID2
    dsimp only []
    rw [hp.2, hp.1, hm, h2]

/-- C24 (witness): the account id 5. -/
theorem C24_target_id_witness :
    targetSteamIdOf 5 = (1 <<< 56) ||| (1 <<< 52) ||| (1 <<< 32) ||| 5 ∧
    targetSteamIdOf 5 = 2 ^ 56 + 2 ^ 52 + 2 ^ 32 + 5 ∧
    targetSteamIdOf 5 < 2 ^ 64 ∧
    targetSteamIdOf 5 &&& 0xFFFFFFFF = 5 ∧
    targetSteamIdOf 5 % 2 ^ 32 = 5 ∧
    SteamID64ToSteamID2 (targetSteamIdOf 5)
      = "STEAM_1:" ++ toString (5 % 2) ++ ":" ++ toString (5 / 2) :=
  C24_target_id 5 (by decide)

/-- C26 (failing input): when `SteamGameServer_Init` returns false, `main` returns 0;
and whatever `SteamGameServer_Init` returns, `main` returns no value other than 0. -/
theorem C26_exit_code_failing_input :
    main false = some 0 ∧ ∀ steamInit code, main steamInit = some code → code = 0 := by
  refine ⟨rfl, ?_⟩
  intro steamInit code h
  cases steamInit
  · simp only [main, Bool.not_false, if_true, Option.some.injEq] at h
    exact h.symm
  · simp [main] at h

/-! ## Properties of the report handler's response -/

theorem writesOf_inserts_ok (ok : Stmt → Bool) (sender target matchId : Nat)
    (types : List (Nat × Bool)) :
    (types.any (fun rt => ok (Stmt.insertReport sender target rt.1 matchId)) = true) ↔
      ∃ s ∈ types.map (fun rt => Stmt.insertReport sender target rt.1 matchId), ok s = true := by
  simp only [List.any_eq_true, List.mem_map]
  constructor
  · rintro ⟨rt, hrt, h⟩
    exact ⟨_, ⟨rt, hrt, rfl⟩, h⟩
  · rintro ⟨s, ⟨rt, hrt, rfl⟩, h⟩
    exact ⟨rt, hrt, h⟩

theorem responsesOf_reportInserts (ok : Stmt → Bool) (sender target matchId : Nat)
    (types : List (Nat × Bool)) :
    responsesOf (types.map (fun rt =>
        Effect.sql (Stmt.insertReport sender target rt.1 matchId)
          (ok (Stmt.insertReport sender target rt.1 matchId)))) = [] := by
  induction types with
  | nil => rfl
  | cons rt rest ih =>
    simp only [List.map_cons, responsesOf, List.filterMap_cons]
    exact ih

theorem HandlePlayerReport_paths (ok : Stmt → Bool) (clock : SqlClock) (db : Database)
    (request : ReportRequest) (sender confirmation : Nat) :
    ∃ result tokens middle,
      (HandlePlayerReport ok clock db (some request) sender confirmation).effects
        = Effect.sql (Stmt.countReportReceivers sender) (ok (Stmt.countReportReceivers sender))
          :: (middle ++ [Effect.send
            { account_id := request.account_id, confirmation_id := confirmation,
              server_ip := if request.match_id.isSome then some 0 else none,
              response_type := 0, response_result := result, tokens := tokens }]) ∧
      ((result = 2 ∧ tokens = 0 ∧ GetPlayerReportTokens ok clock db sender ≤ 0 ∧ middle = []) ∨
       ((result = 3 ∨ result = 1) ∧ tokens = GetPlayerReportTokens ok clock db sender ∧
          middle = [Effect.sql (Stmt.countReports sender (targetSteamIdOf request.account_id))
            (ok (Stmt.countReports sender (targetSteamIdOf request.account_id)))]) ∨
       (middle = Effect.sql (Stmt.countReports sender (targetSteamIdOf request.account_id))
            (ok (Stmt.countReports sender (targetSteamIdOf request.account_id)))
          :: ((reportTypes request).filter (fun rt => rt.2)).map (fun rt =>
            Effect.sql (Stmt.insertReport sender (targetSteamIdOf request.account_id) rt.1
                (request.match_id.getD 0))
              (ok (Stmt.insertReport sender (targetSteamIdOf request.account_id) rt.1
                (request.match_id.getD 0)))) ∧
        ((((reportTypes request).filter (fun rt => rt.2)).any (fun rt =>
            ok (Stmt.insertReport sender (targetSteamIdOf request.account_id) rt.1
              (request.match_id.getD 0))) = true ∧
          result = 0 ∧ tokens = GetPlayerReportTokens ok clock db sender - 1) ∨
         (((reportTypes request).filter (fun rt => rt.2)).any (fun rt =>
            ok (Stmt.insertReport sender (targetSteamIdOf request.account_id) rt.1
              (request.match_id.getD 0))) = false ∧
          result = 1 ∧ tokens = GetPlayerReportTokens ok clock db sender)))) := by
  have hf := reportLoop_flag ok clock sender (targetSteamIdOf request.account_id)
    (request.match_id.getD 0) (reportTypes request)
    ({ db := db
       effects :=
         [Effect.sql (Stmt.countReportReceivers sender) (ok (Stmt.countReportReceivers sender)),
          Effect.sql (Stmt.countReports sender (targetSteamIdOf request.account_id))
            (ok (Stmt.countReports sender (targetSteamIdOf request.account_id)))] }, false)
  rw [Bool.false_or] at hf
  by_cases ht : GetPlayerReportTokens ok clock db sender ≤ 0
  · refine ⟨2, 0, [], ?_, Or.inl ⟨rfl, rfl, ht, rfl⟩⟩
    unfold HandlePlayerReport
    simp only [ht, if_true, Run.send, Run.query, List.nil_append, List.cons_append]
  · cases hcan : (if ok (Stmt.countReports sender (targetSteamIdOf request.account_id)) = true
        then db.reportCount clock sender (targetSteamIdOf request.account_id) == 0 else true)
    · refine ⟨3, _, _, ?_, Or.inr (Or.inl ⟨Or.inl rfl, rfl, rfl⟩)⟩
      unfold HandlePlayerReport
      simp only [ht, hcan, if_false, if_true, Bool.not_false, Run.send, Run.query,
        List.nil_append, List.cons_append]
    · by_cases hcount : ((reportTypes request).filter (fun rt => rt.2)).length = 0
      · refine ⟨1, _, _, ?_, Or.inr (Or.inl ⟨Or.inr rfl, rfl, rfl⟩)⟩
        unfold HandlePlayerReport
        simp only [ht, hcan, hcount, if_false, if_true, Bool.not_true, Bool.false_eq_true,
          Run.send, Run.query, List.nil_append, List.cons_append]
      · cases hany : ((reportTypes request).filter (fun rt => rt.2)).any (fun rt =>
            ok (Stmt.insertReport sender (targetSteamIdOf request.account_id) rt.1
              (request.match_id.getD 0)))
        · refine ⟨1, _, _, ?_, Or.inr (Or.inr ⟨rfl, Or.inr ⟨rfl, rfl, rfl⟩⟩)⟩
          rw [hany] at hf
          unfold HandlePlayerReport
          simp only [ht, hcan, hcount, hf, if_false, if_true, Bool.not_true, Bool.false_eq_true,
            Run.send, Run.query, List.nil_append, List.cons_append, reportLoop_effects]
        · refine ⟨0, _, _, ?_, Or.inr (Or.inr ⟨rfl, Or.inl ⟨rfl, rfl, rfl⟩⟩)⟩
          rw [hany] at hf
          unfold HandlePlayerReport
          simp only [ht, hcan, hcount, hf, if_false, if_true, Bool.not_true, Bool.false_eq_true,
            Run.send, Run.query, List.nil_append, List.cons_append, reportLoop_effects]

theorem HandlePlayerReport_outcome (ok : Stmt → Bool) (clock : SqlClock) (db : Database)
    (request : ReportRequest) (sender confirmation : Nat) :
    ∃ result tokens,
      responsesOf (HandlePlayerReport ok clock db (some request) sender confirmation).effects
        = [{ account_id := request.account_id, confirmation_id := confirmation,
             server_ip := if request.match_id.isSome then some 0 else none,
             response_type := 0, response_result := result, tokens := tokens }] ∧
      ((∃ s ∈ writesOf (HandlePlayerReport ok clock db (some request) sender
            confirmation).effects, ok s = true) →
        result = 0 ∧ tokens = GetPlayerReportTokens ok clock db sender - 1) ∧
      ((∀ s ∈ writesOf (HandlePlayerReport ok clock db (some request) sender
            confirmation).effects, ok s = false) →
        result ≠ 0 ∧ tokens = GetPlayerReportTokens ok clock db sender) := by
  have hnn := GetPlayerReportTokens_nonneg ok clock db sender
  obtain ⟨result, tokens, middle, heff, hpath⟩ :=
    HandlePlayerReport_paths ok clock db request sender confirmation
  refine ⟨result, tokens, ?_, ?_⟩
  · rw [heff]
    rcases hpath with ⟨-, -, -, rfl⟩ | ⟨-, -, rfl⟩ | ⟨rfl, -⟩
    · simp [responsesOf]
    · simp [responsesOf]
    · rw [show ∀ (a b : Effect) (l m : List Effect), a :: (b :: l ++ m) = [a, b] ++ (l ++ m)
        from fun _ _ _ _ => rfl, responsesOf_append, responsesOf_append,
        responsesOf_reportInserts]
      simp [responsesOf]
  · rw [heff]
    rcases hpath with ⟨rfl, rfl, ht, rfl⟩ | ⟨hr, rfl, rfl⟩ | ⟨rfl, hres⟩
    · refine ⟨?_, fun _ => ⟨by decide, by omega⟩⟩
      simp [writesOf]
    · refine ⟨?_, fun _ => ⟨by rcases hr with rfl | rfl <;> decide, rfl⟩⟩
      simp [writesOf]
    · have hw : writesOf (Effect.sql (Stmt.countReportReceivers sender)
            (ok (Stmt.countReportReceivers sender))
          :: ((Effect.sql (Stmt.countReports sender (targetSteamIdOf request.account_id))
              (ok (Stmt.countReports sender (targetSteamIdOf request.account_id)))
            :: ((reportTypes request).filter (fun rt => rt.2)).map (fun rt =>
              Effect.sql (Stmt.insertReport sender (targetSteamIdOf request.account_id) rt.1
                  (request.match_id.getD 0))
                (ok (Stmt.insertReport sender (targetSteamIdOf request.account_id) rt.1
                  (request.match_id.getD 0)))))
            ++ [Effect.send
              { account_id := request.account_id, confirmation_id := confirmation,
                server_ip := if request.match_id.isSome then some 0 else none,
                response_type := 0, response_result := result, tokens := tokens }]))
          = ((reportTypes request).filter (fun rt => rt.2)).map (fun rt =>
              Stmt.insertReport sender (targetSteamIdOf request.account_id) rt.1
                (request.match_id.getD 0)) := by
        rw [show ∀ (a b : Effect) (l m : List Effect), a :: (b :: l ++ m) = [a, b] ++ (l ++ m)
          from fun _ _ _ _ => rfl, writesOf_append, writesOf_append, writesOf_reportInserts]
        simp [writesOf]
      rw [hw]
      rcases hres with ⟨hany, rfl, rfl⟩ | ⟨hany, rfl, rfl⟩
      · refine ⟨fun _ => ⟨rfl, rfl⟩, ?_⟩
        intro hall
        rw [writesOf_inserts_ok] at hany
        obtain ⟨s, hs, hok⟩ := hany
        rw [hall s hs] at hok
        cases hok
      · refine ⟨?_, fun _ => ⟨by decide, rfl⟩⟩
        intro hex
        rw [← writesOf_inserts_ok, hany] at hex
        cases hex

/-- C21 (counterexample): sender 7 reports the target for aim hacking and wall hacking;
the insert of the wall-hacking report fails, the one of the aim-hacking report
succeeds and its row is stored; the response claims success (result 0) and carries one
token less (5 of 6). -/
theorem C21_partial_commit_counterexample :
    (HandlePlayerReport wallhackInsertFails sampleClock {} (some twoFlagReport) 7 42).effects
      = [Effect.sql (Stmt.countReportReceivers 7) true,
         Effect.sql (Stmt.countReports 7 (targetSteamIdOf 5)) true,
         Effect.sql (Stmt.insertReport 7 (targetSteamIdOf 5) 1 9) true,
         Effect.sql (Stmt.insertReport 7 (targetSteamIdOf 5) 2 9) false,
         Effect.send { account_id := 5, confirmation_id := 42, server_ip := some 0,
                       response_type := 0, response_result := 0, tokens := 5 }] ∧
    GetPlayerReportTokens wallhackInsertFails sampleClock {} 7 = 6 ∧
    (HandlePlayerReport wallhackInsertFails sampleClock {} (some twoFlagReport)
        7 42).db.player_reports
      = [{ sender_steamid64 := 7, receiver_steamid64 := targetSteamIdOf 5, type := 1,
           match_id := 9, created_at := 200000 }] := by
  decide

/-- C21 (amended): in `HandlePlayerReport`, if the inserts for all flagged report types
fail, the response does not claim success (`response_result` is not 0 and the token
count is not decremented); if the insert for at least one flagged type succeeds, the
response claims success (`response_result` 0, one token less), even when the inserts
for other flagged types failed. -/
theorem C21_partial_commit (ok : Stmt → Bool) (clock : SqlClock) (db : Database)
    (request : ReportRequest) (sender confirmation : Nat) :
    ∃ result tokens,
      responsesOf (HandlePlayerReport ok clock db (some request) sender confirmation).effects
        = [{ account_id := request.account_id, confirmation_id := confirmation,
             server_ip := if request.match_id.isSome then some 0 else none,
             response_type := 0, response_result := result, tokens := tokens }] ∧
      ((∀ s ∈ writesOf (HandlePlayerReport ok clock db (some request) sender
            confirmation).effects, ok s = false) →
        result ≠ 0 ∧ tokens = GetPlayerReportTokens ok clock db sender) ∧
      ((∃ s ∈ writesOf (HandlePlayerReport ok clock db (some request) sender
            confirmation).effects, ok s = true) →
        result = 0 ∧ tokens = GetPlayerReportTokens ok clock db sender - 1) := by
  obtain ⟨result, tokens, h1, h2, h3⟩ :=
    HandlePlayerReport_outcome ok clock db request sender confirmation
  exact ⟨result, tokens, h1, h3, h2⟩

/-- C21 (witness): the two-flag report of sender 7 on a server on which every insert of
a report fails: result 1, the six tokens undecremented. -/
theorem C21_partial_commit_witness :
    ∃ result tokens,
      responsesOf (HandlePlayerReport insertsFail sampleClock {} (some twoFlagReport)
          7 42).effects
        = [{ account_id := twoFlagReport.account_id, confirmation_id := 42,
             server_ip := if twoFlagReport.match_id.isSome then some 0 else none,
             response_type := 0, response_result := result, tokens := tokens }] ∧
      ((∀ s ∈ writesOf (HandlePlayerReport insertsFail sampleClock {} (some twoFlagReport)
            7 42).effects, insertsFail s = false) →
        result ≠ 0 ∧ tokens = GetPlayerReportTokens insertsFail sampleClock {} 7) ∧
      ((∃ s ∈ writesOf (HandlePlayerReport insertsFail sampleClock {} (some twoFlagReport)
            7 42).effects, insertsFail s = true) →
        result = 0 ∧ tokens = GetPlayerReportTokens insertsFail sampleClock {} 7 - 1) :=
  C21_partial_commit insertsFail sampleClock {} twoFlagReport 7 42

/-! ## Properties of the chunk bounds and of the cleanup's index -/

theorem WriteChunkLoop_undefined (send : List Byte → Bool) (hs : ∀ f, send f = true)
    (m : NetworkMessage) (k c : Nat) :
    ∀ n i, (∃ j, i ≤ j ∧ j < i + n ∧ m.m_data.length < j * c) →
      NetworkMessage.WriteChunkLoop send m k c n i = none := by
  intro n
  induction n with
  | zero =>
    rintro i ⟨j, h1, h2, -⟩
    omega
  | succ n ih =>
    rintro i ⟨j, h1, h2, h3⟩
    unfold NetworkMessage.WriteChunkLoop
    dsimp only []
    by_cases hle : i * c ≤ min (i * c + c) m.m_data.length
    · have hne : i ≠ j := by
        rintro rfl
        have := le_trans hle (min_le_right _ _)
        omega
      rw [if_pos hle, if_pos (hs _), ih (i + 1) ⟨j, by omega, by omega, h3⟩]
    · rw [if_neg hle]

theorem WriteToSocket_1049599 (send : List Byte → Bool) (hs : ∀ f, send f = true)
    (t : Nat) (p : List Byte) (hp : p.length = 1049599) :
    NetworkMessage.effectiveChunks ⟨t, p⟩ 0 = 1026 ∧
    NetworkMessage.WriteToSocket send ⟨t, p⟩ 0 = none := by
  have h2 : NetworkMessage.effectiveChunks ⟨t, p⟩ 0 = 1026 := by
    rw [effectiveChunks_zero]
    simp only [NetworkMessage.GetTotalSize, hp]
    decide
  refine ⟨h2, ?_⟩
  simp only [NetworkMessage.WriteToSocket, h2]
  rw [if_neg (by decide)]
  unfold NetworkMessage.WriteChunkMsg
  rw [if_neg (by decide)]
  apply WriteChunkLoop_undefined send hs
  refine ⟨1025, by omega, by omega, ?_⟩
  simp only [hp]
  decide

/-- C27 (failing input): for a 1-byte payload and 3 chunks the chunk size is 1, the
third chunk would start at offset 2 and end at offset 1, and `WriteChunkMsg` has no
defined result; through the default chunk count the same happens for a payload of
1049599 bytes (1026 chunks of size 1024, the last one starting at offset 1049600). -/
theorem C27_chunk_bounds_failing_input :
    ((1 + 3 - 1) / 3 = 1 ∧ ¬ 2 * 1 ≤ min ((2 + 1) * 1) 1) ∧
    NetworkMessage.WriteChunkMsg (fun _ => true) ⟨1, [7]⟩ 3 = none ∧
    NetworkMessage.WriteToSocket (fun _ => true) ⟨1, [7]⟩ 3 = none ∧
    ((1049599 + 1026 - 1) / 1026 = 1024 ∧ ¬ 1025 * 1024 ≤ min ((1025 + 1) * 1024) 1049599) ∧
    NetworkMessage.effectiveChunks ⟨1, List.replicate 1049599 0⟩ 0 = 1026 ∧
    NetworkMessage.WriteToSocket (fun _ => true) ⟨1, List.replicate 1049599 0⟩ 0 = none :=
  ⟨by decide, by decide, by decide, by decide,
    (WriteToSocket_1049599 _ (fun _ => rfl) 1 _ (List.length_replicate _ _)).1,
    (WriteToSocket_1049599 _ (fun _ => rfl) 1 _ (List.length_replicate _ _)).2⟩

/-- C29 (failing input): match 1 (players 11 and 12) is completed and still stored;
player 11 queues again and is matched with player 13 in match 2, so the index maps 11
to 2. The cleanup six minutes after match 1 was created removes match 1, keeps match 2
and erases the index entry of player 11, which pointed to match 2. -/
theorem C29_cleanup_frame_failing_input :
    (runOps sampleEnv rejoinOps rejoinWorld).toOption.map
        (fun w => w.mm.m_playerToMatch) = some [(11, 2), (12, 1), (13, 2)] ∧
    (runOps sampleEnv rejoinOps rejoinWorld).toOption.map
        (fun w => w.mm.m_activeMatches.map
          (fun entry => (entry.1, entry.2.state, entry.2.GetAllPlayerIds)))
      = some [(1, MatchState.COMPLETED, [11, 12]),
              (2, MatchState.WAITING_FOR_CONFIRMATION, [11, 13])] ∧
    (runOps sampleEnv rejoinOps rejoinWorld).toOption.map
        (fun w => (w.mm.CleanupAbandonedMatches (6 * ticksPerMinute)).m_activeMatches.map
          (fun entry => (entry.1, entry.2.state, entry.2.GetAllPlayerIds)))
      = some [(2, MatchState.WAITING_FOR_CONFIRMATION, [11, 13])] ∧
    (runOps sampleEnv rejoinOps rejoinWorld).toOption.map
        (fun w => (w.mm.CleanupAbandonedMatches (6 * ticksPerMinute)).m_playerToMatch)
      = some [(13, 2)] ∧
    (runOps sampleEnv rejoinOps rejoinWorld).toOption.map
        (fun w => umFind 11 (w.mm.CleanupAbandonedMatches (6 * ticksPerMinute)).m_playerToMatch)
      = some none := by
  refine ⟨by decide, by decide, by decide, by decide, by decide⟩

/-! ## Properties of the matchmaking recursion -/

theorem collectPlayers_sublist (ms : Nat) :
    ∀ (qs : List (Nat × List QueueEntry)) (t : Nat) (acc : List QueueEntry),
      ∃ X, collectPlayers ms qs t acc = acc ++ X ∧ X.Sublist (qs.flatMap (fun b => b.2)) := by
  intro qs
  induction qs with
  | nil => intro t acc; exact ⟨[], by simp [collectPlayers], List.Sublist.refl _⟩
  | cons b rest ih =>
    intro t acc
    obtain ⟨key, queue⟩ := b
    unfold collectPlayers
    split
    · obtain ⟨X, hX, hs⟩ := ih (t + queue.length) (acc ++ queue)
      refine ⟨queue ++ X, by rw [hX, List.append_assoc], ?_⟩
      rw [List.flatMap_cons]
      exact List.Sublist.append (List.Sublist.refl _) hs
    · obtain ⟨X, hX, hs⟩ := ih (t + queue.length) acc
      refine ⟨X, hX, ?_⟩
      rw [List.flatMap_cons]
      exact hs.trans (List.sublist_append_right _ _)

theorem candidates_subperm (env : Env) (hv : env.Valid) (mm : MatchmakingManager)
    (w : List QueueEntry) (h : mm.FindMatchCandidates env = some (some w)) :
    w.Subperm (mm.m_queuesBySkill.flatMap (fun b => b.2)) := by
  obtain ⟨j, -, hw, -⟩ := FindMatchCandidates_some env mm w h
  obtain ⟨X, hX, hs⟩ := collectPlayers_sublist (mm.m_config.playersPerTeam * 2 % 2 ^ 64)
    mm.m_queuesBySkill 0 []
  rw [List.nil_append] at hX
  have h1 : w.Sublist (env.sort (collectPlayers (mm.m_config.playersPerTeam * 2 % 2 ^ 64)
      mm.m_queuesBySkill 0 [])) := by
    rw [hw]
    exact (List.take_sublist _ _).trans (List.drop_sublist _ _)
  have h2 := (hv.1 (collectPlayers (mm.m_config.playersPerTeam * 2 % 2 ^ 64)
    mm.m_queuesBySkill 0 [])).1
  rw [hX] at h1 h2
  exact (h1.subperm.trans h2.subperm).trans hs.subperm

theorem queueSize_eq_length (qs : List (Nat × List QueueEntry)) :
    queueSize qs = (qs.flatMap (fun b => b.2)).length := by
  induction qs with
  | nil => rfl
  | cons b rest ih => rw [queueSize_cons, List.flatMap_cons, List.length_append, ih]

theorem queuedIds_eq_map (qs : List (Nat × List QueueEntry)) :
    queuedIds qs = (qs.flatMap (fun b => b.2)).map (fun e => e.steamId) := by
  induction qs with
  | nil => rfl
  | cons b rest ih => rw [queuedIds_cons, List.flatMap_cons, List.map_append, ih]

theorem flatMap_filter_buckets (p : QueueEntry → Bool) (qs : List (Nat × List QueueEntry)) :
    (qs.map (fun b => (b.1, b.2.filter p))).flatMap (fun b => b.2)
      = (qs.flatMap (fun b => b.2)).filter p := by
  induction qs with
  | nil => rfl
  | cons b rest ih =>
    rw [List.map_cons, List.flatMap_cons, List.flatMap_cons, List.filter_append, ih]

theorem length_filter_add (p : QueueEntry → Bool) (l : List QueueEntry) :
    (l.filter p).length + (l.filter (fun e => !p e)).length = l.length := by
  induction l with
  | nil => rfl
  | cons a rest ih =>
    cases h : p a <;> simp [List.filter_cons, h] <;> omega

theorem erase_removes (env : Env) (hv : env.Valid) (mm : MatchmakingManager)
    (w : List QueueEntry) (h : mm.FindMatchCandidates env = some (some w)) :
    queueSize (eraseCandidates w mm.m_queuesBySkill)
          + mm.m_config.playersPerTeam * 2 % 2 ^ 64
        ≤ queueSize mm.m_queuesBySkill ∧
    ((queuedIds mm.m_queuesBySkill).Nodup →
      queueSize (eraseCandidates w mm.m_queuesBySkill)
          + mm.m_config.playersPerTeam * 2 % 2 ^ 64
        = queueSize mm.m_queuesBySkill) := by
  have hlen := candidates_length env hv mm w h
  have hsub := candidates_subperm env hv mm w h
  rw [eraseCandidates_eq, queueSize_eq_length, queueSize_eq_length, flatMap_filter_buckets]
  have hadd := length_filter_add
    (fun e => decide (∀ c ∈ w, e.steamId ≠ c.steamId))
    (mm.m_queuesBySkill.flatMap (fun b => b.2))
  have hself : w.filter (fun e => !decide (∀ c ∈ w, e.steamId ≠ c.steamId)) = w := by
    rw [List.filter_eq_self]
    intro c hc
    simp only [Bool.not_eq_true', decide_eq_false_iff_not]
    intro hall
    exact hall c hc rfl
  have hle : w.length ≤ ((mm.m_queuesBySkill.flatMap (fun b => b.2)).filter
      (fun e => !decide (∀ c ∈ w, e.steamId ≠ c.steamId))).length := by
    have := (hsub.filter (fun e => !decide (∀ c ∈ w, e.steamId ≠ c.steamId))).length_le
    rwa [hself] at this
  refine ⟨by omega, ?_⟩
  intro hnd
  rw [queuedIds_eq_map] at hnd
  have hnd2 : (((mm.m_queuesBySkill.flatMap (fun b => b.2)).filter
      (fun e => !decide (∀ c ∈ w, e.steamId ≠ c.steamId))).map (fun e => e.steamId)).Nodup :=
    hnd.sublist ((List.filter_sublist _).map _)
  have hge : ((mm.m_queuesBySkill.flatMap (fun b => b.2)).filter
      (fun e => !decide (∀ c ∈ w, e.steamId ≠ c.steamId))).length ≤ w.length := by
    have hss : ((mm.m_queuesBySkill.flatMap (fun b => b.2)).filter
        (fun e => !decide (∀ c ∈ w, e.steamId ≠ c.steamId))).map (fun e => e.steamId)
        ⊆ w.map (fun e => e.steamId) := by
      intro x hx
      obtain ⟨e, he, rfl⟩ := List.mem_map.mp hx
      have hp := (List.mem_filter.mp he).2
      simp only [Bool.not_eq_true', decide_eq_false_iff_not, not_forall, not_not] at hp
      obtain ⟨c, hc, hcx⟩ := hp
      exact List.mem_map.mpr ⟨c, hc, by simpa using hcx.symm⟩
    have := (hnd2.subperm hss).length_le
    simpa using this
  omega

theorem ProcessCalls_result (env : Env) :
    ∀ (fuel : Nat) (w : World),
      (ProcessMatchmakingQueueCalls env fuel w).1 = ProcessMatchmakingQueueFuel env fuel w := by
  intro fuel
  induction fuel with
  | zero => intro w; rfl
  | succ fuel ih =>
    intro w
    unfold ProcessMatchmakingQueueCalls ProcessMatchmakingQueueFuel
    cases w.mm.FindMatchCandidates env with
    | none => rfl
    | some r =>
      cases r with
      | none => rfl
      | some candidates =>
        dsimp only []
        cases (env.CreateMatch w.mm candidates).1 with
        | none => rfl
        | some m =>
          dsimp only []
          cases w.gsm.FindAvailableServer with
          | none => rfl
          | some server => exact ih _

theorem ProcessCalls_bound (env : Env) (hv : env.Valid) :
    ∀ (fuel : Nat) (w : World), 1 ≤ w.mm.m_config.playersPerTeam * 2 % 2 ^ 64 →
      queueSize w.mm.m_queuesBySkill < fuel →
      ∃ w', (ProcessMatchmakingQueueCalls env fuel w).1 = Except.ok w' ∧
        queueSize w'.mm.m_queuesBySkill
            + w.mm.m_config.playersPerTeam * 2 % 2 ^ 64
              * (ProcessMatchmakingQueueCalls env fuel w).2
          ≤ queueSize w.mm.m_queuesBySkill ∧
        ((queuedIds w.mm.m_queuesBySkill).Nodup →
          queueSize w'.mm.m_queuesBySkill
              + w.mm.m_config.playersPerTeam * 2 % 2 ^ 64
                * (ProcessMatchmakingQueueCalls env fuel w).2
            = queueSize w.mm.m_queuesBySkill) := by
  intro fuel
  induction fuel with
  | zero => intro w _ h; omega
  | succ fuel ih =>
    intro w hp hsize
    obtain ⟨r, hr⟩ := FindMatchCandidates_defined env hv w.mm hp
    unfold ProcessMatchmakingQueueCalls
    rw [hr]
    cases r with
    | none => exact ⟨w, rfl, by simp, fun _ => by simp⟩
    | some candidates =>
      dsimp only []
      cases hm : (env.CreateMatch w.mm candidates).1 with
      | none => exact ⟨_, rfl, by simp, fun _ => by simp⟩
      | some m =>
        dsimp only []
        cases hs : w.gsm.FindAvailableServer with
        | none => exact ⟨_, rfl, by simp, fun _ => by simp⟩
        | some server =>
          dsimp only []
          have hstep := erase_removes env hv w.mm candidates hr
          have hcfg : (commitMatch w candidates m (env.CreateMatch w.mm candidates).2
              server).mm.m_config = w.mm.m_config := rfl
          have hq : (commitMatch w candidates m (env.CreateMatch w.mm candidates).2
              server).mm.m_queuesBySkill = eraseCandidates candidates w.mm.m_queuesBySkill := rfl
          obtain ⟨w', hw', hle, heq⟩ := ih
            (commitMatch w candidates m (env.CreateMatch w.mm candidates).2 server)
            (by rw [hcfg]; exact hp) (by rw [hq]; omega)
          rw [hcfg, hq] at hle heq
          refine ⟨w', hw', ?_, ?_⟩
          · rw [Nat.mul_add, Nat.mul_one]
            omega
          · intro hnd
            have h1 := hstep.2 hnd
            have h2 := heq (hnd.sublist (eraseCandidates_sublist candidates _))
            rw [Nat.mul_add, Nat.mul_one]
            omega

/-- C28 (counterexample): with 2^63 players per team (at least one) the 64-bit match
size is 0 and `ProcessMatchmakingQueue` takes `front()` of an empty window already on
an empty queue, so it has no defined result; with 2^63 + 1 players per team, two queued
players and a server, one match is stored although `queue size / (2 * playersPerTeam)`
is 0. -/
theorem C28_termination_counterexample :
    (1 ≤ zeroSizeWorld.mm.m_config.playersPerTeam ∧
      zeroSizeWorld.mm.FindMatchCandidates sampleEnv = none ∧
      (ProcessMatchmakingQueue sampleEnv zeroSizeWorld).toOption = none) ∧
    (1 ≤ wrapWorld.mm.m_config.playersPerTeam ∧
      (ProcessMatchmakingQueueCalls sampleEnv (queueSize wrapWorld.mm.m_queuesBySkill + 1)
        wrapWorld).2 = 1 ∧
      queueSize wrapWorld.mm.m_queuesBySkill / (2 * wrapWorld.mm.m_config.playersPerTeam)
        = 0) := by
  decide

/-- C28 (amended): for every configuration with at least one player per team whose
doubled team size fits 64 bits (`2 * playersPerTeam < 2^64`) and every queue
(`std::sort` and the hash table meeting their contracts), `ProcessMatchmakingQueue`
returns a state after finitely many recursive calls: a call that finds a window, a
match and a server recurses on a queue with at least `2 * playersPerTeam` entries fewer
(exactly that many when no steam id is queued twice), and the number of recursive
calls, which is the number of matches stored, is at most
`queue size / (2 * playersPerTeam)`, rounded down. -/
theorem C28_termination (env : Env) (hv : env.Valid) (w : World)
    (hp : 1 ≤ w.mm.m_config.playersPerTeam)
    (hb : 2 * w.mm.m_config.playersPerTeam < 2 ^ 64) :
    (∃ w', ProcessMatchmakingQueue env w = Except.ok w' ∧
      (ProcessMatchmakingQueueCalls env (queueSize w.mm.m_queuesBySkill + 1) w).1
        = Except.ok w' ∧
      queueSize w'.mm.m_queuesBySkill
          + 2 * w.mm.m_config.playersPerTeam
            * (ProcessMatchmakingQueueCalls env (queueSize w.mm.m_queuesBySkill + 1) w).2
        ≤ queueSize w.mm.m_queuesBySkill ∧
      ((queuedIds w.mm.m_queuesBySkill).Nodup →
        queueSize w'.mm.m_queuesBySkill
            + 2 * w.mm.m_config.playersPerTeam
              * (ProcessMatchmakingQueueCalls env (queueSize w.mm.m_queuesBySkill + 1) w).2
          = queueSize w.mm.m_queuesBySkill)) ∧
    (ProcessMatchmakingQueueCalls env (queueSize w.mm.m_queuesBySkill + 1) w).2
      ≤ queueSize w.mm.m_queuesBySkill / (2 * w.mm.m_config.playersPerTeam) ∧
    (∀ candidates m server,
      w.mm.FindMatchCandidates env = some (some candidates) →
      (env.CreateMatch w.mm candidates).1 = some m →
      w.gsm.FindAvailableServer = some server →
      (∀ fuel, ProcessMatchmakingQueueFuel env (fuel + 1) w
        = ProcessMatchmakingQueueFuel env fuel
            (commitMatch w candidates m (env.CreateMatch w.mm candidates).2 server)) ∧
      queueSize (commitMatch w candidates m (env.CreateMatch w.mm candidates).2
            server).mm.m_queuesBySkill + 2 * w.mm.m_config.playersPerTeam
        ≤ queueSize w.mm.m_queuesBySkill ∧
      ((queuedIds w.mm.m_queuesBySkill).Nodup →
        queueSize (commitMatch w candidates m (env.CreateMatch w.mm candidates).2
              server).mm.m_queuesBySkill + 2 * w.mm.m_config.playersPerTeam
          = queueSize w.mm.m_queuesBySkill)) := by
  have hms : w.mm.m_config.playersPerTeam * 2 % 2 ^ 64 = 2 * w.mm.m_config.playersPerTeam := by
    omega
  obtain ⟨w', hw', hle, heq⟩ :=
    ProcessCalls_bound env hv (queueSize w.mm.m_queuesBySkill + 1) w (by omega)
      (Nat.lt_succ_self _)
  rw [hms] at hle heq
  refine ⟨⟨w', ?_, hw', hle, heq⟩, ?_, ?_⟩
  · rw [ProcessCalls_result] at hw'
    exact hw'
  · rw [Nat.le_div_iff_mul_le (by omega)]
    rw [Nat.mul_comm]
    omega
  · intro candidates m server hc hm hs
    have hstep := erase_removes env hv w.mm candidates hc
    rw [hms] at hstep
    refine ⟨?_, hstep⟩
    intro fuel
    simp only [ProcessMatchmakingQueueFuel, hc, hm, hs]

/-- C28 (witness): teams of one, four queued players and one available server: two
matches are stored, two recursive calls each remove two entries, the queue ends
empty. -/
theorem C28_termination_witness :
    (ProcessMatchmakingQueueCalls sampleEnv (queueSize oneServerWorld.mm.m_queuesBySkill + 1)
        oneServerWorld).2 = 2 ∧
    (ProcessMatchmakingQueueCalls sampleEnv (queueSize oneServerWorld.mm.m_queuesBySkill + 1)
        oneServerWorld).2
      ≤ queueSize oneServerWorld.mm.m_queuesBySkill
          / (2 * oneServerWorld.mm.m_config.playersPerTeam) :=
  ⟨by decide,
   (C28_termination sampleEnv sampleEnv_valid oneServerWorld (by decide) (by decide)).2.1⟩

/-! ## Properties of the TCP transport -/

theorem extractMessages_stop (clientSocket : Nat) (buffer : List Byte)
    (queue : List QueuedMessage)
    (h : ¬ (4 ≤ buffer.length ∧ 4 + readU32 buffer 0 ≤ buffer.length)) :
    ∀ fuel, extractMessages clientSocket fuel buffer queue = (buffer, queue) := by
  intro fuel
  cases fuel with
  | zero => rfl
  | succ fuel =>
    unfold extractMessages
    dsimp only []
    by_cases h4 : buffer.length ≥ 4
    · rw [if_pos h4, if_neg (fun hc => h ⟨h4, hc⟩)]
    · rw [if_neg h4]

theorem readU32_append (buffer rest : List Byte) (h : 4 ≤ buffer.length) :
    readU32 (buffer ++ rest) 0 = readU32 buffer 0 := by
  unfold readU32
  rw [List.getD_append _ _ _ 0 (by omega), List.getD_append _ _ _ (0 + 1) (by omega),
    List.getD_append _ _ _ (0 + 2) (by omega), List.getD_append _ _ _ (0 + 3) (by omega)]

theorem extractMessages_step (clientSocket : Nat) (buffer : List Byte)
    (h4 : 4 ≤ buffer.length) (hc : 4 + readU32 buffer 0 ≤ buffer.length)
    (fuel : Nat) (rest : List Byte) (queue : List QueuedMessage) :
    extractMessages clientSocket (fuel + 1) (buffer ++ rest) queue
      = extractMessages clientSocket fuel (buffer.drop (4 + readU32 buffer 0) ++ rest)
          (queue ++ [{ clientSocket := clientSocket,
                       data := (buffer.drop 4).take (readU32 buffer 0) }]) := by
  rw [extractMessages]
  dsimp only []
  have hr := readU32_append buffer rest h4
  rw [if_pos (by rw [List.length_append]; omega), hr,
    if_pos (by rw [List.length_append]; omega),
    List.drop_append_of_le_length hc, List.drop_append_of_le_length h4,
    List.take_append_of_le_length (by rw [List.length_drop]; omega)]

theorem extractMessages_fuel (clientSocket : Nat) :
    ∀ (fuel₁ fuel₂ : Nat) (buffer : List Byte) (queue : List QueuedMessage),
      buffer.length ≤ fuel₁ → buffer.length ≤ fuel₂ →
      extractMessages clientSocket fuel₁ buffer queue
        = extractMessages clientSocket fuel₂ buffer queue := by
  intro fuel₁
  induction fuel₁ with
  | zero =>
    intro fuel₂ buffer queue h1 _
    rw [extractMessages_stop clientSocket buffer queue (by omega),
      extractMessages_stop clientSocket buffer queue (by omega)]
  | succ fuel₁ ih =>
    intro fuel₂ buffer queue h1 h2
    by_cases hc : 4 ≤ buffer.length ∧ 4 + readU32 buffer 0 ≤ buffer.length
    · cases fuel₂ with
      | zero => omega
      | succ fuel₂ =>
        have e1 := extractMessages_step clientSocket buffer hc.1 hc.2 fuel₁ [] queue
        have e2 := extractMessages_step clientSocket buffer hc.1 hc.2 fuel₂ [] queue
        rw [List.append_nil, List.append_nil] at e1 e2
        rw [e1, e2]
        apply ih <;> rw [List.length_drop] <;> omega
    · rw [extractMessages_stop clientSocket buffer queue hc,
        extractMessages_stop clientSocket buffer queue hc]

theorem extractMessages_append (clientSocket : Nat) :
    ∀ (n : Nat) (buffer : List Byte), buffer.length ≤ n →
      ∀ (rest : List Byte) (queue : List QueuedMessage),
        extractMessages clientSocket (buffer ++ rest).length (buffer ++ rest) queue
          = extractMessages clientSocket
              ((extractMessages clientSocket buffer.length buffer queue).1 ++ rest).length
              ((extractMessages clientSocket buffer.length buffer queue).1 ++ rest)
              (extractMessages clientSocket buffer.length buffer queue).2 := by
  intro n
  induction n with
  | zero =>
    intro buffer h rest queue
    rw [extractMessages_stop clientSocket buffer queue (by omega)]
  | succ n ih =>
    intro buffer h rest queue
    by_cases hc : 4 ≤ buffer.length ∧ 4 + readU32 buffer 0 ≤ buffer.length
    · obtain ⟨k, hk⟩ : ∃ k, buffer.length = k + 1 := ⟨buffer.length - 1, by omega⟩
      obtain ⟨k2, hk2⟩ : ∃ k2, (buffer ++ rest).length = k2 + 1 :=
        ⟨(buffer ++ rest).length - 1, by rw [List.length_append]; omega⟩
      have e1 := extractMessages_step clientSocket buffer hc.1 hc.2 k [] queue
      rw [List.append_nil, List.append_nil] at e1
      have hdl : (buffer.drop (4 + readU32 buffer 0)).length ≤ n := by
        rw [List.length_drop]; omega
      rw [hk, e1, hk2, extractMessages_step clientSocket buffer hc.1 hc.2 k2 rest queue,
        extractMessages_fuel clientSocket k2 _ _ _
          (by rw [List.length_append] at hk2 ⊢; rw [List.length_drop]; omega) (le_refl _),
        ih _ hdl rest,
        extractMessages_fuel clientSocket k _ (buffer.drop (4 + readU32 buffer 0)) _
          (by rw [List.length_drop]; omega) (le_refl _)]
    · rw [extractMessages_stop clientSocket buffer queue hc]

theorem extractMessages_packet (clientSocket : Nat) (message : List Byte)
    (hm : message.length < 2 ^ 32) (fuel : Nat) (rest : List Byte)
    (queue : List QueuedMessage) :
    extractMessages clientSocket (fuel + 1) (packetOf message ++ rest) queue
      = extractMessages clientSocket fuel rest
          (queue ++ [{ clientSocket := clientSocket, data := message }]) := by
  have hlen : (packetOf message).length = 4 + message.length := by
    simp [packetOf, u32Bytes]
    omega
  have hread : readU32 (packetOf message) 0 = message.length := by
    unfold packetOf
    rw [readU32_u32Bytes _ (Nat.mod_lt _ (by decide)), Nat.mod_eq_of_lt hm]
  rw [extractMessages_step clientSocket (packetOf message) (by omega) (by omega), hread]
  have hd : (packetOf message).drop (4 + message.length) = [] := by
    rw [← hlen]; exact List.drop_length _
  have ht : ((packetOf message).drop 4).take message.length = message := by
    unfold packetOf
    rw [List.drop_append_of_le_length (by simp [u32Bytes])]
    simp [u32Bytes]
  rw [hd, ht, List.nil_append]

theorem extractMessages_stream (clientSocket : Nat) :
    ∀ (messages : List (List Byte)), (∀ m ∈ messages, m.length < 2 ^ 32) →
      ∀ (queue : List QueuedMessage),
        extractMessages clientSocket (messages.map packetOf).flatten.length
            (messages.map packetOf).flatten queue
          = ([], queue ++ messages.map
              (fun m => { clientSocket := clientSocket, data := m })) := by
  intro messages
  induction messages with
  | nil => intro _ queue; simp [extractMessages]
  | cons m rest ih =>
    intro hm queue
    have hlen : (packetOf m).length = 4 + m.length := by
      simp [packetOf, u32Bytes]
      omega
    obtain ⟨k, hk⟩ : ∃ k, ((m :: rest).map packetOf).flatten.length = k + 1 :=
      ⟨((m :: rest).map packetOf).flatten.length - 1, by
        simp only [List.map_cons, List.flatten_cons, List.length_append, hlen]; omega⟩
    rw [hk]
    simp only [List.map_cons, List.flatten_cons] at hk ⊢
    rw [extractMessages_packet clientSocket m (hm m (List.mem_cons_self _ _)),
      extractMessages_fuel clientSocket k _ _ _
        (by rw [List.length_append, hlen] at hk; omega) (le_refl _),
      ih (fun x hx => hm x (List.mem_cons_of_mem _ hx)), List.append_assoc]
    rfl

theorem ReceiveFromClient_segments (clientSocket : Nat) :
    ∀ (segments : List (List Byte)) (net : TCPNetworking) (client : ClientConnection)
      (received : List Byte) (queue : List QueuedMessage),
      net.m_running = true →
      umFind clientSocket net.m_clients = some client →
      client.receiveBuffer
        = (extractMessages clientSocket received.length received queue).1 →
      net.m_messageQueue = (extractMessages clientSocket received.length received queue).2 →
      (∀ s ∈ segments, s ≠ []) →
      ∃ client',
        umFind clientSocket
            (TCPNetworking.ReceiveFromClient clientSocket (segments.map RecvResult.bytes)
              net).m_clients = some client' ∧
        client'.receiveBuffer
          = (extractMessages clientSocket (received ++ segments.flatten).length
              (received ++ segments.flatten) queue).1 ∧
        (TCPNetworking.ReceiveFromClient clientSocket (segments.map RecvResult.bytes)
            net).m_messageQueue
          = (extractMessages clientSocket (received ++ segments.flatten).length
              (received ++ segments.flatten) queue).2 := by
  intro segments
  induction segments with
  | nil =>
    intro net client received queue _ hc hb hq _
    refine ⟨client, hc, ?_, ?_⟩
    · simpa using hb
    · simpa using hq
  | cons s rest ih =>
    intro net client received queue hrun hc hb hq hne
    have hs : s.length > 0 := List.length_pos.mpr (hne s (List.mem_cons_self _ _))
    simp only [List.map_cons, TCPNetworking.ReceiveFromClient, hrun, Bool.not_true,
      Bool.false_eq_true, if_false, hs, if_true]
    have hcomp := extractMessages_append clientSocket received.length received (le_refl _) s queue
    have hnet : ∃ client₁,
        (net.onReceived clientSocket s).m_running = true ∧
        umFind clientSocket (net.onReceived clientSocket s).m_clients = some client₁ ∧
        client₁.receiveBuffer
          = (extractMessages clientSocket (received ++ s).length (received ++ s) queue).1 ∧
        (net.onReceived clientSocket s).m_messageQueue
          = (extractMessages clientSocket (received ++ s).length (received ++ s) queue).2 := by
      refine ⟨{ client with
          receiveBuffer := (extractMessages clientSocket (client.receiveBuffer ++ s).length
            (client.receiveBuffer ++ s) net.m_messageQueue).1 }, ?_, ?_, ?_, ?_⟩
      · simp only [TCPNetworking.onReceived, hc]
        exact hrun
      · simp only [TCPNetworking.onReceived, hc]
        exact umFind_umInsert_self _ _ _
      · rw [hcomp, ← hb, ← hq]
      · simp only [TCPNetworking.onReceived, hc]
        rw [hcomp, ← hb, ← hq]
    obtain ⟨client₁, hrun₁, hc₁, hb₁, hq₁⟩ := hnet
    obtain ⟨client', h1, h2, h3⟩ := ih (net.onReceived clientSocket s) client₁ (received ++ s)
      queue hrun₁ hc₁ hb₁ hq₁ (fun x hx => hne x (List.mem_cons_of_mem _ hx))
    refine ⟨client', h1, ?_, ?_⟩
    · rw [h2, List.flatten_cons, List.append_assoc]
    · rw [h3, List.flatten_cons, List.append_assoc]

theorem getMessages_queue :
    ∀ (front : List QueuedMessage) (net : TCPNetworking) (back : List QueuedMessage),
      net.m_messageQueue = front ++ back →
      getMessages front.length net
        = (front.map some, { net with m_messageQueue := back }) := by
  intro front
  induction front with
  | nil =>
    intro net back h
    simp only [List.nil_append] at h
    simp only [List.length_nil, getMessages, List.map_nil, ← h]
  | cons msg rest ih =>
    intro net back h
    have h1 : net.GetNextMessage = (some msg, { net with m_messageQueue := rest ++ back }) := by
      simp only [TCPNetworking.GetNextMessage, h, List.cons_append]
    simp only [List.length_cons, getMessages, h1, List.map_cons]
    rw [ih { net with m_messageQueue := rest ++ back } back rfl]

/-- C25: for every sequence of messages m1..mn, each shorter than 2^32 bytes, framed as
`SendToClient` frames them, and every way of cutting the concatenated stream into
non-empty `recv` segments, the receive loop of a connected peer with an empty buffer
appends exactly m1..mn, in this order, to the message queue and leaves the peer's
receive buffer empty; successive `GetNextMessage` calls then return what was queued
before, then m1..mn in the same order, and the call after that finds the queue
empty. -/
theorem C25_stream_framing (net : TCPNetworking) (clientSocket : Nat)
    (client : ClientConnection) (messages segments : List (List Byte))
    (hrun : net.m_running = true)
    (hclient : umFind clientSocket net.m_clients = some client)
    (hbuffer : client.receiveBuffer = [])
    (hsize : ∀ m ∈ messages, m.length < 2 ^ 32)
    (hsegments : ∀ s ∈ segments, s ≠ [])
    (hcut : segments.flatten = (messages.map packetOf).flatten) :
    (∀ m ∈ messages, net.SendToClient clientSocket m = some (packetOf m)) ∧
    (TCPNetworking.ReceiveFromClient clientSocket (segments.map RecvResult.bytes)
        net).m_messageQueue
      = net.m_messageQueue
          ++ messages.map (fun m => { clientSocket := clientSocket, data := m }) ∧
    (umFind clientSocket
        (TCPNetworking.ReceiveFromClient clientSocket (segments.map RecvResult.bytes)
          net).m_clients).map (fun c => c.receiveBuffer) = some [] ∧
    (getMessages (net.m_messageQueue.length + messages.length)
        (TCPNetworking.ReceiveFromClient clientSocket (segments.map RecvResult.bytes) net)).1
      = (net.m_messageQueue
          ++ messages.map (fun m => ({ clientSocket := clientSocket, data := m } :
              QueuedMessage))).map some ∧
    (getMessages (net.m_messageQueue.length + messages.length)
        (TCPNetworking.ReceiveFromClient clientSocket (segments.map RecvResult.bytes)
          net)).2.GetNextMessage.1 = none := by
  obtain ⟨client', h1, h2, h3⟩ := ReceiveFromClient_segments clientSocket segments net client
    [] net.m_messageQueue hrun hclient (by rw [hbuffer]; rfl) rfl hsegments
  rw [List.nil_append, hcut, extractMessages_stream clientSocket messages hsize] at h2 h3
  have hq := getMessages_queue
    (net.m_messageQueue ++ messages.map (fun m => { clientSocket := clientSocket, data := m }))
    (TCPNetworking.ReceiveFromClient clientSocket (segments.map RecvResult.bytes) net) []
    (by rw [h3, List.append_nil])
  rw [List.length_append, List.length_map] at hq
  refine ⟨?_, h3, ?_, ?_, ?_⟩
  · intro m _
    simp only [TCPNetworking.SendToClient, hclient]
  · rw [h1, Option.map_some', h2]
  · rw [hq]
  · rw [hq]
    rfl

/-- C25 (witness): a three-byte message and an empty one, their eleven stream bytes
cut into segments of 2, 6 and 3 bytes, received by the client on socket 4. -/
theorem C25_stream_framing_witness :
    (TCPNetworking.ReceiveFromClient 4 (sampleSegments.map RecvResult.bytes)
        sampleNet).m_messageQueue
      = [{ clientSocket := 4, data := [10, 20, 30] }, { clientSocket := 4, data := [] }] ∧
    (umFind 4
        (TCPNetworking.ReceiveFromClient 4 (sampleSegments.map RecvResult.bytes)
          sampleNet).m_clients).map (fun c => c.receiveBuffer) = some [] :=
  ⟨(C25_stream_framing sampleNet 4 {} sampleMessages sampleSegments rfl rfl rfl
      (by decide) (by decide) (by decide)).2.1,
   (C25_stream_framing sampleNet 4 {} sampleMessages sampleSegments rfl rfl rfl
      (by decide) (by decide) (by decide)).2.2.1⟩

end GC
